import Mathlib

/-!
# LLFS: a shallow embedding of `src/io/file.c`

The backing file `vdisk` is a byte array: `Disk` maps a byte offset of the file to
the byte stored there.  Block `n` occupies the offsets `n * 512 .. n * 512 + 511`.

Conventions of the embedding
* bytes are natural numbers; a value that C stores into a `char` or reads as part
  of an `unsigned short` is reduced `% 256`, an `unsigned short` `% 65536`;
* plain `char` is signed (x86-64 System V ABI, the platform of the build);
* a `malloc`ed buffer is a function from an index to a byte (`Buf`).  Where the C
  code indexes a buffer outside the 512 bytes that `read_block` filled, the byte
  comes from `Heap`: the content of the process memory around the buffer, given
  by the index relative to the buffer (negative in front of it);
* stores made outside a buffer are not tracked;
* `exit(1)` is modelled by returning the store as it is at that point.
-/

namespace LLFS

/-- Content of the backing file, by byte offset. -/
abbrev Disk := Nat → Nat

/-- Content of a buffer in memory, by index. -/
abbrev Buf := Nat → Nat

/-- Bytes of process memory around a `malloc`ed buffer, by index relative to it. -/
abbrev Heap := Int → Nat

/-- The buffer of 512 zero bytes (`memset(buffer,0,BYTES_PER_BLOCK)`). -/
def zero_block : Buf := fun _ => 0

/-! ## Basic vdisk operations -/

/-- `write_block`: `fseek` to `block_num * 512`, then `fwrite` the first
`size_of_data_in_bytes` bytes of `data`. -/
def write_block (d : Disk) (block_num : Nat) (data : Buf) (size_of_data_in_bytes : Nat) : Disk :=
  fun a =>
    if block_num * 512 ≤ a ∧ a < block_num * 512 + size_of_data_in_bytes
    then data (a - block_num * 512) else d a

/-- `read_block`: the buffer after the 512 bytes of block `block_num` were read into it. -/
def read_block (d : Disk) (block_num : Nat) : Buf := fun o => d (block_num * 512 + o)

/-- The same buffer, together with the memory that follows its 512 bytes. -/
def read_block_heap (h : Heap) (d : Disk) (block_num : Nat) : Buf :=
  fun o => if o < 512 then d (block_num * 512 + o) else h (o : Int)

/-- Element `i` of a buffer read as `unsigned short*` (little endian). -/
def u16 (b : Buf) (i : Nat) : Nat := b (2 * i) % 256 + 256 * (b (2 * i + 1) % 256)

/-- Store of the `unsigned short` `v` into element `i` of a buffer used as `unsigned short*`. -/
def set_u16 (b : Buf) (i v : Nat) : Buf :=
  fun o => if o = 2 * i then v % 256 else if o = 2 * i + 1 then v / 256 % 256 else b o

/-- Store of one byte into a buffer. -/
def set_byte (b : Buf) (i v : Nat) : Buf := fun o => if o = i then v % 256 else b o

/-- `get_inode_address`: the parameter is a plain `char`, so an id of 128..255 arrives
negative and `read_block_value` copies the two bytes in front of its block buffer. -/
def get_inode_address (h : Heap) (d : Disk) (directory_inode_id : Nat) : Nat :=
  if directory_inode_id % 256 < 128 then u16 (read_block d 2) (directory_inode_id % 256)
  else
    h (2 * ((directory_inode_id % 256 : Nat) : Int) - 512) % 256
      + 256 * (h (2 * ((directory_inode_id % 256 : Nat) : Int) - 511) % 256)

/-! ## Free block vector -/

/-- The inner loop of `check_fbv_for_available_block`: the first `i < 8` with
`tester & byte`, `tester = 1 << i`. -/
def first_set_bit (byte : Nat) : Option Nat :=
  (List.range 8).find? (fun i => Nat.testBit byte i)

/-- The outer loop of `check_fbv_for_available_block`, from `byte_pos` on, for `fuel`
more bytes; `0` after the last byte (`return 0`). -/
def fbv_scan (free_block_vector : Buf) : Nat → Nat → Nat
  | 0, _ => 0
  | fuel + 1, byte_pos =>
    match first_set_bit (free_block_vector byte_pos) with
    | some i => (byte_pos * 8 + i) % 65536
    | none => fbv_scan free_block_vector fuel (byte_pos + 1)

/-- `check_fbv_for_available_block`: `byte_pos` runs from 2 while
`byte_pos < DATA_SECTION_OFFSET + MAX_BLOCK_INDEX = 4111`, over a buffer of which
only the first 512 bytes were read from block 1. -/
def check_fbv_for_available_block (h : Heap) (d : Disk) : Nat :=
  fbv_scan (read_block_heap h d 1) 4109 2

/-- `set_fbv_bit`: `vector[byte_num] | target`, then block 1 is written back. -/
def set_fbv_bit (d : Disk) (block_number : Nat) : Disk :=
  let vector := read_block d 1
  let byte_num := block_number / 8
  let bit_pos := block_number % 8
  write_block d 1
    (fun o => if o = byte_num then (vector o ||| (1 <<< bit_pos)) % 256 else vector o) 512

/-- `reset_fbv_bit`: `vector[byte_num] ^ target`, then block 1 is written back. -/
def reset_fbv_bit (d : Disk) (block_number : Nat) : Disk :=
  let vector := read_block d 1
  let byte_num := block_number / 8
  let bit_pos := block_number % 8
  write_block d 1
    (fun o => if o = byte_num then (vector o ^^^ (1 <<< bit_pos)) % 256 else vector o) 512

/-- Bit `b` of the free block vector as stored in block 1 (`true` = free). -/
def fbv_bit (d : Disk) (b : Nat) : Bool := Nat.testBit (d (512 + b / 8)) (b % 8)

/-! ## Inode map and inodes -/

/-- Entry `i` of the inode map (block 2) read as `unsigned short`. -/
def inode_map_entry (d : Disk) (i : Nat) : Nat := u16 (read_block d 2) i

/-- `find_next_free_inode_id`: the first of the 256 entries that is 0; `none` is
the `exit(1)` after "no available inodes left". -/
def find_next_free_inode_id (d : Disk) : Option Nat :=
  (List.range 256).find? (fun i => inode_map_entry d i = 0)

/-- The 33 bytes that `create_empty_inode` builds: size, type, zeroed pointers, id. -/
def inode_record (inode_number size type : Nat) : Buf :=
  fun o =>
    if o < 4 then size % 4294967296 / 256 ^ o % 256
    else if o < 8 then type % 4294967296 / 256 ^ (o - 4) % 256
    else if o = 32 then inode_number % 256
    else 0

/-- `create_empty_inode`: returns the store and the block the inode was written to. -/
def create_empty_inode (h : Heap) (d : Disk) (inode_number size type : Nat) : Disk × Nat :=
  let available_block := check_fbv_for_available_block h d
  let d1 := write_block d available_block (inode_record inode_number size type) 33
  (reset_fbv_bit d1 available_block, available_block)

/-- `create_and_write_data_block_from_file`: `infile` is the input with its read
position `pos`; returns the store, the block address and the new read position. -/
def create_and_write_data_block_from_file (h : Heap) (d : Disk) (number_of_bytes : Nat)
    (infile : List Nat) (pos : Nat) : Disk × Nat × Nat :=
  let buffer : Buf := fun o => if o < number_of_bytes then infile.getD (pos + o) 0 else 0
  let available_block := check_fbv_for_available_block h d
  let d1 := write_block d available_block buffer number_of_bytes
  (reset_fbv_bit d1 available_block, available_block, min (pos + number_of_bytes) infile.length)

/-- `create_indirection_block`: a zeroed block; returns the store and its address. -/
def create_indirection_block (h : Heap) (d : Disk) : Disk × Nat :=
  let available_block_address := check_fbv_for_available_block h d
  let d1 := write_block d available_block_address zero_block 512
  (reset_fbv_bit d1 available_block_address, available_block_address)

/-- `assign_location_to_inode_map`: the map is a `char*` here, so
`inode_map[inode_id*2] = inode_address` stores the low byte of the address only. -/
def assign_location_to_inode_map (d : Disk) (inode_address inode_id : Nat) : Disk :=
  write_block d 2 (set_byte (read_block d 2) (inode_id % 256 * 2) inode_address) 512

/-! ## Writing file data -/

/-- The branch shared by the direct loop and `fill_single_indirection_block`: the
last block takes `size % 512` bytes when that is not 0, any other block 512. -/
def write_next_data_block (h : Heap) (d : Disk) (num_blocks_remaining_to_write size : Nat)
    (fpin : List Nat) (pos : Nat) : Disk × Nat × Nat :=
  if num_blocks_remaining_to_write = 1 ∧ size % 512 ≠ 0
  then create_and_write_data_block_from_file h d (size % 512) fpin pos
  else create_and_write_data_block_from_file h d 512 fpin pos

/-- The `for (k=0;k<256;k++)` loop of `fill_single_indirection_block`, `fuel`
iterations from `k` on.  The buffer is written to the store only in the branch
`*num_blocks_remaining_to_write == 0`; when the loop runs out the function ends
without writing it.  Returns the store, the blocks remaining and the read position. -/
def fill_single_loop (h : Heap) (single_indirection_block_num size : Nat) (fpin : List Nat) :
    Nat → Nat → Disk → Buf → Nat → Nat → Disk × Nat × Nat
  | 0, _, d, _, remaining, pos => (d, remaining, pos)
  | fuel + 1, k, d, buffer, remaining, pos =>
    let r := write_next_data_block h d remaining size fpin pos
    let buffer1 := set_u16 buffer k r.2.1
    let remaining1 := (remaining + 65535) % 65536
    if remaining1 = 0
    then (write_block r.1 single_indirection_block_num buffer1 512, remaining1, r.2.2)
    else fill_single_loop h single_indirection_block_num size fpin fuel (k + 1) r.1 buffer1
      remaining1 r.2.2

/-- `fill_single_indirection_block`. -/
def fill_single_indirection_block (h : Heap) (d : Disk)
    (single_indirection_block_num num_blocks_remaining_to_write size : Nat)
    (fpin : List Nat) (pos : Nat) : Disk × Nat × Nat :=
  fill_single_loop h single_indirection_block_num size fpin 256 0 d
    (read_block d single_indirection_block_num) num_blocks_remaining_to_write pos

/-! ## Directories -/

/-- The `while (directory_block_data[i*32+1])` loop of `add_element_to_directory`:
the first `i` whose name byte is 0, `none` once `i > BYTES_PER_BLOCK`. -/
def find_directory_slot (directory_block_data : Buf) : Nat → Nat → Option Nat
  | 0, _ => none
  | fuel + 1, i =>
    if directory_block_data (i * 32 + 1) % 256 ≠ 0
    then (if i + 1 > 512 then none else find_directory_slot directory_block_data fuel (i + 1))
    else some i

/-- The `while(element_file_name[j])` loop of `add_element_to_directory`: the byte
is stored before `j > 31` is tested.  Returns the buffer and the final `j`. -/
def copy_file_name (element_file_name : List Nat) (base : Nat) : Nat → Nat → Buf → Buf × Nat
  | 0, j, data => (data, j)
  | fuel + 1, j, data =>
    if element_file_name.getD j 0 % 256 = 0 then (data, j)
    else
      let data1 := set_byte data (base + j) (element_file_name.getD j 0)
      if j > 31 then (data1, j) else copy_file_name element_file_name base fuel (j + 1) data1

/-- `add_element_to_directory`. -/
def add_element_to_directory (h : Heap) (d : Disk)
    (directory_inode_id element_inode_id : Nat) (element_file_name : List Nat) : Disk :=
  let parent_directory_inode_block_address := get_inode_address h d directory_inode_id
  let parent_directory_inode_contents := read_block d parent_directory_inode_block_address
  let directory_data_block_address := u16 parent_directory_inode_contents 4
  let directory_block_data := read_block_heap h d directory_data_block_address
  match find_directory_slot directory_block_data 513 0 with
  | none => d
  | some i =>
    let r := copy_file_name element_file_name (i * 32 + 1) 34 0
      (set_byte directory_block_data (i * 32) element_inode_id)
    write_block d directory_data_block_address r.1 (i * 32 + 1 + r.2)

/-- The block that `create_directory_block` builds: own id and ".", parent id and "..". -/
def directory_record (parent_inode_id inode_id : Nat) : Buf :=
  fun o =>
    if o = 0 then inode_id % 256
    else if o = 1 then 46
    else if o = 32 then parent_inode_id % 256
    else if o = 33 then 46
    else if o = 34 then 46
    else 0

/-- `create_directory_block`: the block is written, its FBV bit is left to the caller. -/
def create_directory_block (h : Heap) (d : Disk) (parent_inode_id inode_id : Nat) : Disk × Nat :=
  let data_block_num := check_fbv_for_available_block h d
  (write_block d data_block_num (directory_record parent_inode_id inode_id) 512, data_block_num)

/-- `create_directory_from_inode`. -/
def create_directory_from_inode (h : Heap) (d : Disk) (parent_inode_id : Nat)
    (new_directory_name : List Nat) : Disk :=
  match find_next_free_inode_id d with
  | none => d
  | some inode_id =>
    let r1 := create_directory_block h d parent_inode_id inode_id
    let directory_block := r1.2
    let d2 := reset_fbv_bit r1.1 directory_block
    let r3 := create_empty_inode h d2 inode_id 512 100
    let inode_block := r3.2
    let d4 := assign_location_to_inode_map r3.1 inode_block inode_id
    let d5 := write_block d4 inode_block (set_u16 (read_block d4 inode_block) 4 directory_block) 10
    add_element_to_directory h d5 parent_inode_id inode_id new_directory_name

/-! ## Path resolution -/

/-- `strncmp(s1, s2, n) == 0`: equal bytes up to the first NUL, at most `n` of them. -/
def strncmp_eq (s1 s2 : Buf) : Nat → Nat → Bool
  | 0, _ => true
  | n + 1, j =>
    if s1 j % 256 ≠ s2 j % 256 then false
    else if s1 j % 256 = 0 then true
    else strncmp_eq s1 s2 n (j + 1)

/-- A C string given by its bytes, with the terminating NUL behind them. -/
def cstring (s : List Nat) : Buf := fun j => s.getD j 0

/-- The filename stored in slot `i` of a directory block (from offset `i*32+1`). -/
def slot_name (directory_block : Buf) (i : Nat) : Buf := fun j => directory_block (i * 32 + 1 + j)

/-- The tokens that successive `strtok(.., "/")` calls return for a string: the
maximal runs of bytes other than `/`, up to the first NUL.  `cur` is the token
collected so far, reversed. -/
def strtok_tokens : List Nat → List Nat → List (List Nat)
  | [], cur => if cur = [] then [] else [cur.reverse]
  | c :: cs, cur =>
    if c = 0 then (if cur = [] then [] else [cur.reverse])
    else if c = 47 then
      (if cur = [] then strtok_tokens cs [] else cur.reverse :: strtok_tokens cs [])
    else strtok_tokens cs (c :: cur)

/-- The `for (i=2;i<16;i++)` scan of `find_file_inode_id`: the first slot from `i`
on whose name equals the token. -/
def find_matching_slot (token : List Nat) (directory_block : Buf) : Nat → Nat → Option Nat
  | 0, _ => none
  | fuel + 1, i =>
    if strncmp_eq (cstring token) (slot_name directory_block i) 31 0 then some i
    else find_matching_slot token directory_block fuel (i + 1)

/-- The `while(token!=NULL)` loop of `find_file_inode_id`.  The directory block is
read from the block numbered by the single `char` at offset 8 of the inode; a
negative number makes the `fseek` fail, and the read continues behind the inode
block that was read just before.  No match in slots 2..15: `return 0`. -/
def find_file_loop (d : Disk) : List (List Nat) → Nat → Nat
  | [], current_inode_id => current_inode_id
  | token :: rest, current_inode_id =>
    let inode_block_num := inode_map_entry d current_inode_id
    let temp_inode_data_block := read_block d inode_block_num
    let c := temp_inode_data_block 8 % 256
    let temp_directory_data_block := read_block d (if c < 128 then c else inode_block_num + 1)
    match find_matching_slot token temp_directory_data_block 14 2 with
    | some i => find_file_loop d rest (temp_directory_data_block (i * 32) % 256)
    | none => 0

/-- `find_file_inode_id`: the path is copied into a buffer of 125 bytes first. -/
def find_file_inode_id (d : Disk) (absolute_file_path : List Nat) : Nat :=
  find_file_loop d (strtok_tokens (absolute_file_path.take 125) []) 0

/-! ## Creating entities -/

/-- The `for (i=0;i<10;i++)` loop of `create_file_in_directory`; it is left as soon
as `num_blocks_remaining_to_write == 0`.  Returns the store, the inode buffer, the
blocks remaining and the read position. -/
def direct_loop (h : Heap) (size : Nat) (fpin : List Nat) :
    Nat → Nat → Disk → Buf → Nat → Nat → Disk × Buf × Nat × Nat
  | 0, _, d, inode_buffer, remaining, pos => (d, inode_buffer, remaining, pos)
  | fuel + 1, i, d, inode_buffer, remaining, pos =>
    let r := write_next_data_block h d remaining size fpin pos
    let inode_buffer1 := set_u16 inode_buffer (4 + i) r.2.1
    let remaining1 := (remaining + 65535) % 65536
    if remaining1 = 0 then (r.1, inode_buffer1, remaining1, r.2.2)
    else direct_loop h size fpin fuel (i + 1) r.1 inode_buffer1 remaining1 r.2.2

/-- The `for (k=0;k<256;k++)` loop over the double indirection block.  The buffer
`double_indirection_block_buffer` is filled but no `write_block` stores it. -/
def double_indirection_loop (h : Heap) (size : Nat) (fpin : List Nat)
    (double_indirection_block_num : Nat) :
    Nat → Nat → Disk → Buf → Buf → Nat → Nat → Disk × Buf × Nat × Nat
  | 0, _, d, _, inode_buffer, remaining, pos => (d, inode_buffer, remaining, pos)
  | fuel + 1, k, d, double_indirection_block_buffer, inode_buffer, remaining, pos =>
    let r1 := create_indirection_block h d
    let r2 := fill_single_indirection_block h r1.1 r1.2 remaining size fpin pos
    let double_indirection_block_buffer1 := set_u16 double_indirection_block_buffer k r1.2
    if r2.2.1 = 0
    then (r2.1, set_u16 inode_buffer 15 double_indirection_block_num, r2.2.1, r2.2.2)
    else double_indirection_loop h size fpin double_indirection_block_num fuel (k + 1) r2.1
      double_indirection_block_buffer1 inode_buffer r2.2.1 r2.2.2

/-- `create_file_in_directory`: `fpin` is the content of the input file. -/
def create_file_in_directory (h : Heap) (d : Disk) (parent_inode_id : Nat)
    (file_name : List Nat) (fpin : List Nat) : Disk :=
  let size := fpin.length
  match find_next_free_inode_id d with
  | none => d
  | some inode_num =>
    let num_blocks := (size / 512 % 65536 + (if size % 512 ≠ 0 then 1 else 0)) % 65536
    let r1 := create_empty_inode h d inode_num size 102
    let inode_data_block_address := r1.2
    let inode_buffer := read_block r1.1 inode_data_block_address
    let d2 := assign_location_to_inode_map r1.1 inode_data_block_address inode_num
    let r3 := direct_loop h size fpin 10 0 d2 inode_buffer num_blocks 0
    if r3.2.2.1 = 0 then
      write_block (add_element_to_directory h r3.1 parent_inode_id inode_num file_name)
        inode_data_block_address r3.2.1 33
    else
      let r4 := create_indirection_block h r3.1
      let r5 := fill_single_indirection_block h r4.1 r4.2 r3.2.2.1 size fpin r3.2.2.2
      let inode_buffer1 := set_u16 r3.2.1 14 r4.2
      let r6 : Disk × Buf × Nat × Nat :=
        if r5.2.1 ≠ 0 then
          let r7 := create_indirection_block h r5.1
          double_indirection_loop h size fpin r7.2 256 0 r7.1 zero_block inode_buffer1
            r5.2.1 r5.2.2
        else (r5.1, inode_buffer1, r5.2.1, r5.2.2)
      write_block (add_element_to_directory h r6.1 parent_inode_id inode_num file_name)
        inode_data_block_address r6.2.1 33

/-- `upload_file`. -/
def upload_file (h : Heap) (d : Disk) (path_to_parent_dir file_name : List Nat)
    (fpin : List Nat) : Disk :=
  create_file_in_directory h d (find_file_inode_id d path_to_parent_dir) file_name fpin

/-- `create_directory`. -/
def create_directory (h : Heap) (d : Disk) (parent_directory_name new_directory_name : List Nat) :
    Disk :=
  create_directory_from_inode h d (find_file_inode_id d parent_directory_name) new_directory_name

/-- `init_vdisk`: 4096 zero blocks, the free block vector, then the root directory
created with parent id `-1`, which the `unsigned char` parameter turns into 255. -/
def init_vdisk (h : Heap) (d : Disk) : Disk :=
  let d0 : Disk := fun a => if a < 4096 * 512 then 0 else d a
  let d1 := write_block d0 1 (fun o => if o < 2 then 0 else 255) 512
  create_directory_from_inode h d1 255 []

/-! ## Deleting entities -/

/-- The `for (i=2;i<16;i++)` loop of `delete_directory_entry`: a matching slot is
zeroed in the buffer and the first `(i+1)*32` bytes of the buffer are written. -/
def delete_entry_loop (directory_data_block_address : Nat) (removal_filename : List Nat) :
    Nat → Nat → Disk → Buf → Disk
  | 0, _, d, _ => d
  | fuel + 1, i, d, buffer =>
    if strncmp_eq (slot_name buffer i) (cstring removal_filename) 31 0 then
      let buffer1 : Buf := fun o => if i * 32 ≤ o ∧ o < i * 32 + 32 then 0 else buffer o
      delete_entry_loop directory_data_block_address removal_filename fuel (i + 1)
        (write_block d directory_data_block_address buffer1 ((i + 1) * 32)) buffer1
    else delete_entry_loop directory_data_block_address removal_filename fuel (i + 1) d buffer

/-- `delete_directory_entry`. -/
def delete_directory_entry (h : Heap) (d : Disk) (directory_inode_id : Nat)
    (removal_filename : List Nat) : Disk :=
  let directory_inode_address := get_inode_address h d directory_inode_id
  let directory_data_block_address := u16 (read_block d directory_inode_address) 4
  delete_entry_loop directory_data_block_address removal_filename 14 2 d
    (read_block d directory_data_block_address)

/-- `delete_directory`: both FBV bits are set before the slots are looked at;
`memset((char*)inode_map+directory_inode_id,0,2)` clears the bytes `id` and `id+1`
of the map, of which the first `(id+1)*2` bytes are written back; the data block
gets 100 zero bytes. -/
def delete_directory (h : Heap) (d : Disk) (directory_inode_id : Nat) : Disk :=
  let id := directory_inode_id % 256
  let directory_inode_block_address := get_inode_address h d id
  let directory_inode_buffer := read_block d directory_inode_block_address
  let directory_data_block_address := u16 directory_inode_buffer 4
  let d1 := set_fbv_bit d directory_data_block_address
  let d2 := set_fbv_bit d1 directory_inode_block_address
  let directory_data_block_buffer := read_block d2 directory_data_block_address
  if (List.range 14).any (fun k => directory_data_block_buffer ((k + 2) * 32) % 256 ≠ 0) then d2
  else
    let inode_map := read_block d2 2
    let inode_map1 : Buf := fun o => if id ≤ o ∧ o < id + 2 then 0 else inode_map o
    let d3 := write_block d2 2 inode_map1 ((id + 1) * 2)
    let d4 := write_block d3 directory_inode_block_address zero_block 512
    write_block d4 directory_data_block_address zero_block 100

/-- `clear_single_indirection_block`: every non-zero entry names a block that is
zeroed and marked free. -/
def clear_single_indirection_block (d : Disk) (indirection_block_address : Nat) : Disk :=
  let indirection_block_buffer := read_block d indirection_block_address
  (List.range 256).foldl
    (fun s i =>
      if u16 indirection_block_buffer i ≠ 0
      then set_fbv_bit (write_block s (u16 indirection_block_buffer i) zero_block 512)
        (u16 indirection_block_buffer i)
      else s) d

/-- The `for(i=4;i<14;i++)` loop of `delete_file` over the direct pointers, left at
the first pointer that is 0. -/
def delete_direct_loop (file_inode_buffer : Buf) : Nat → Nat → Disk → Disk
  | 0, _, d => d
  | fuel + 1, i, d =>
    if u16 file_inode_buffer i = 0 then d
    else delete_direct_loop file_inode_buffer fuel (i + 1)
      (set_fbv_bit (write_block d (u16 file_inode_buffer i) zero_block 512)
        (u16 file_inode_buffer i))

/-- `delete_file`: direct blocks, then the single indirection block; the double
indirection pointer (element 15) is not looked at. -/
def delete_file (h : Heap) (d : Disk) (file_inode_id : Nat) : Disk :=
  let id := file_inode_id % 256
  let file_inode_block_address := get_inode_address h d id
  let file_inode_buffer := read_block d file_inode_block_address
  let d1 := delete_direct_loop file_inode_buffer 10 4 d
  let d2 :=
    if u16 file_inode_buffer 14 ≠ 0 then
      write_block (set_fbv_bit (clear_single_indirection_block d1 (u16 file_inode_buffer 14))
        (u16 file_inode_buffer 14)) (u16 file_inode_buffer 14) zero_block 512
    else d1
  let d3 := write_block d2 2 (set_u16 (read_block d2 2) id 0) 512
  set_fbv_bit (write_block d3 file_inode_block_address zero_block 512) file_inode_block_address

/-- The name `temp` points to in `delete_filepath` when the path has no token: the
pointer is not initialised, its 31 bytes are taken from the heap. -/
def uninitialised_name (h : Heap) : List Nat := (List.range 31).map (fun j => h (j : Int))

/-- The string `current_parent_filename` that `delete_filepath` builds: "/" followed
by every token but the last, each with a "/" behind it. -/
def parent_filename (tokens : List (List Nat)) : List Nat :=
  47 :: (tokens.dropLast.map (fun t => t ++ [47])).flatten

/-- `delete_filepath`: the entry is removed from the parent first, then the inode
type read at the start selects `delete_directory` or `delete_file`. -/
def delete_filepath (h : Heap) (d : Disk) (filename : List Nat) : Disk :=
  let file_inode_id := find_file_inode_id d filename
  let file_block_address := get_inode_address h d file_inode_id
  let file_type := read_block d file_block_address 4 % 256
  let tokens := strtok_tokens filename []
  let temp := (tokens.getLast?).getD (uninitialised_name h)
  let current_parent_filename := parent_filename tokens
  let parent_inode_id :=
    if current_parent_filename = [47] then 0 else find_file_inode_id d current_parent_filename
  let d1 := delete_directory_entry h d parent_inode_id temp
  if file_type = 100 then delete_directory h d1 file_inode_id
  else if file_type = 102 then delete_file h d1 file_inode_id
  else d1

/-! ## Download -/

/-- `write_block` on the output file: `k` bytes of the buffer at offset `block_num * 512`;
a gap in front of them reads as zero bytes, and writing 0 bytes changes nothing. -/
def write_out (out : List Nat) (block_num : Nat) (buffer : Buf) (k : Nat) : List Nat :=
  if k = 0 then out
  else (out ++ List.replicate (block_num * 512 - out.length) 0).take (block_num * 512)
    ++ (List.range k).map buffer ++ out.drop (block_num * 512 + k)

/-- The loop of `read_from_single_indirection_block`: the last block is written with
`size % 512` bytes whatever that value is.  Returns the output and the blocks remaining. -/
def read_single_loop (d : Disk) (indirection_block_buff : Buf) (size : Nat) :
    Nat → Nat → List Nat → Nat → List Nat × Nat
  | 0, _, out, remaining => (out, remaining)
  | fuel + 1, i, out, remaining =>
    let temp_block := read_block d (u16 indirection_block_buff i)
    let out1 :=
      if remaining = 1 then write_out out (10 + i) temp_block (size % 512)
      else write_out out (10 + i) temp_block 512
    let remaining1 := (remaining + 65535) % 65536
    if remaining1 = 0 then (out1, remaining1)
    else read_single_loop d indirection_block_buff size fuel (i + 1) out1 remaining1

/-- `read_from_single_indirection_block`. -/
def read_from_single_indirection_block (d : Disk) (single_indirection_block_num
    num_blocks_remaining_to_read size : Nat) (fpout : List Nat) : List Nat × Nat :=
  read_single_loop d (read_block d single_indirection_block_num) size 256 0 fpout
    num_blocks_remaining_to_read

/-- The `for (i=0;i<10;i++)` loop of `download_file_from_inode_id`. -/
def download_direct_loop (d : Disk) (inode_buffer : Buf) (size : Nat) :
    Nat → Nat → List Nat → Nat → List Nat × Nat
  | 0, _, out, remaining => (out, remaining)
  | fuel + 1, i, out, remaining =>
    let temp_data_block_buffer := read_block d (u16 inode_buffer (4 + i))
    let out1 :=
      if remaining = 1 ∧ size % 512 ≠ 0 then write_out out i temp_data_block_buffer (size % 512)
      else write_out out i temp_data_block_buffer 512
    let remaining1 := (remaining + 65535) % 65536
    if remaining1 = 0 then (out1, remaining1)
    else download_direct_loop d inode_buffer size fuel (i + 1) out1 remaining1

/-- `download_file_from_inode_id`: the content of the output file.  The size is
`(int)inode_buffer[0]` with `inode_buffer` an `unsigned short*`: the low 16 bits of
the size field.  Nothing is read through the double indirection pointer. -/
def download_file_from_inode_id (d : Disk) (inode_id : Nat) : List Nat :=
  let inode_map := read_block d 2
  let inode_buffer := read_block d (u16 inode_map (inode_id % 256))
  let size := u16 inode_buffer 0
  let num_blocks := (size / 512 + (if size % 512 ≠ 0 then 1 else 0)) % 65536
  let r := download_direct_loop d inode_buffer size 10 0 [] num_blocks
  if r.2 = 0 then r.1
  else (read_from_single_indirection_block d (u16 inode_buffer 14) r.2 size r.1).1

/-- `download_file`: the content of the file written under `new_filename`. -/
def download_file (d : Disk) (target_filename : List Nat) : List Nat :=
  download_file_from_inode_id d (find_file_inode_id d target_filename)

/-! ## Text constants and the stores of the examples -/

/-- The bytes of a string literal. -/
def bytes (s : String) : List Nat := s.toList.map (fun c => c.toNat)

/-- A heap whose bytes around the buffers are all 0. -/
def heap0 : Heap := fun _ => 0

/-- The store after `init_vdisk` on an empty backing file. -/
def fresh : Disk := init_vdisk heap0 (fun _ => 0)

/-- The value of the 32-bit size field at offset 0 of the inode of `inode_id`. -/
def inode_size (d : Disk) (inode_id : Nat) : Nat :=
  let b := read_block d (inode_map_entry d (inode_id % 256))
  b 0 % 256 + 256 * (b 1 % 256) + 65536 * (b 2 % 256) + 16777216 * (b 3 % 256)

/-- The fresh store with the directory `/a`. -/
def with_a : Disk := create_directory heap0 fresh (bytes "/") (bytes "a")

/-- The fresh store with the directories `/a` and `/b`. -/
def with_a_b : Disk := create_directory heap0 with_a (bytes "/") (bytes "b")

/-- The fresh store with the directories `/a` and `/a/b`. -/
def with_a_sub : Disk := create_directory heap0 with_a (bytes "/a") (bytes "b")

/-- An input file of 5632 bytes (11 blocks), every byte an `A`. -/
def sample_input : List Nat := List.replicate 5632 65

/-- The fresh store after the upload of `sample_input` as `/f`. -/
def with_file : Disk := upload_file heap0 fresh (bytes "/") (bytes "f") sample_input

/-- The fresh store with 14 directories `/a` .. `/n`: the root directory is full. -/
def full_root : Disk :=
  (List.range 14).foldl (fun s k => create_directory heap0 s (bytes "/") [97 + k]) fresh

/-- The fresh store with every bit of the free block vector cleared: no block is free. -/
def no_space : Disk := write_block fresh 1 zero_block 512

/-- The store with `/d` and `/d/e` in which the directory block of `/d` lies at block
272 instead of block 18: the block is moved, the pointer `direct[0]` of the inode of
`/d` (block 19) and the two FBV bits are adjusted. -/
def far_directory : Disk :=
  let s := create_directory heap0 (create_directory heap0 fresh (bytes "/") (bytes "d"))
    (bytes "/d") (bytes "e")
  let s1 := write_block s 272 (read_block s 18) 512
  let s2 := write_block s1 18 zero_block 512
  let s3 := write_block s2 19 (set_u16 (read_block s2 19) 4 272) 10
  reset_fbv_bit (set_fbv_bit s3 18) 272

/-- The store `with_file` with the size field of the inode of `/f` set to 65537. -/
def with_long_file : Disk := write_block with_file 18 (inode_record 1 65537 102) 4

/-! ## Predicates and stores used in the statements -/

/-- At least `m` distinct blocks of the data section are marked free. -/
def has_free (d : Disk) (m : Nat) : Prop :=
  ∃ l : List Nat, l.Nodup ∧ m ≤ l.length ∧ ∀ b ∈ l, 16 ≤ b ∧ b < 4096 ∧ fbv_bit d b = true

/-- What steps that hand out free blocks leave in place between the stores `d` and `s`. -/
def evolves (d s : Disk) : Prop :=
  (∀ x, x < 512 ∨ (1024 ≤ x ∧ x < 16 * 512) ∨ 4096 * 512 ≤ x → s x = d x) ∧
  (∀ b, b < 4096 → fbv_bit s b = true → fbv_bit d b = true) ∧
  (∀ b, 16 ≤ b → b < 4096 → fbv_bit d b = false ∨ fbv_bit s b = true →
    ∀ o, o < 512 → s (b * 512 + o) = d (b * 512 + o))

/-- Slots `k .. k+c-1` of the pointer buffer `buf1` name the blocks that took the
chunks `J .. J+c-1` of the input between the stores `d` and `s`. -/
def run_ok (fpin : List Nat) (d s : Disk) (buf buf1 : Buf) (k c J : Nat) : Prop :=
  evolves d s ∧
  (∀ o, o < 2 * k ∨ 2 * (k + c) ≤ o → buf1 o = buf o) ∧
  (∀ j, j < c → 16 ≤ u16 buf1 (k + j) ∧ u16 buf1 (k + j) < 4096 ∧
    fbv_bit d (u16 buf1 (k + j)) = true ∧ fbv_bit s (u16 buf1 (k + j)) = false ∧
    ∀ o, o < 512 → s (u16 buf1 (k + j) * 512 + o) =
      if (J + j) * 512 + o < fpin.length then fpin.getD ((J + j) * 512 + o) 0
      else d (u16 buf1 (k + j) * 512 + o))

/-- The directory with inode-id `p` has its inode in block `pa` and its entries in block
`dd`, both in use; it is reached through the inode map, and one of its 16 slots has no name. -/
def dir_at (d : Disk) (p pa dd : Nat) : Prop :=
  p % 256 < 128 ∧ inode_map_entry d (p % 256) = pa ∧
  16 ≤ pa ∧ pa < 4096 ∧ fbv_bit d pa = false ∧
  u16 (read_block d pa) 4 = dd ∧ 16 ≤ dd ∧ dd < 4096 ∧ fbv_bit d dd = false ∧
  ∃ i, i < 16 ∧ d (dd * 512 + (i * 32 + 1)) % 256 = 0

/-- Every free block of the data section holds zero bytes. -/
def free_blocks_blank (d : Disk) : Prop :=
  ∀ b o, 16 ≤ b → b < 4096 → fbv_bit d b = true → o < 512 → d (b * 512 + o) = 0

/-- The number of blocks that `create_file_in_directory` computes for an input of `size` bytes. -/
def num_blocks (size : Nat) : Nat :=
  (size / 512 % 65536 + (if size % 512 ≠ 0 then 1 else 0)) % 65536

/-- The store that `init_vdisk` starts the root directory from: 4096 zero blocks with
the free block vector written. -/
def blank_vdisk (d : Disk) : Disk :=
  write_block (fun a => if a < 4096 * 512 then 0 else d a) 1 (fun o => if o < 2 then 0 else 255) 512

/-- The content of the first 4096 blocks after `init_vdisk`: two bits cleared in the free block
vector, entry 0 of the inode map, the root directory block 16 and the root inode in block 17. -/
def formatted (x : Nat) : Nat :=
  if x < 514 then 0
  else if x = 514 then 252
  else if x < 1024 then 255
  else if x = 1024 then 17
  else if 16 * 512 ≤ x ∧ x < 17 * 512 then directory_record 255 0 (x - 16 * 512)
  else if 17 * 512 ≤ x ∧ x < 17 * 512 + 33 then
    set_u16 (inode_record 0 512 100) 4 16 (x - 17 * 512)
  else 0

/-- The block that an upload allocates first, for the inode (`create_empty_inode` runs on
the store as given), read after `upload_file`. -/
def uploaded_inode (h : Heap) (d : Disk) (path name fpin : List Nat) : Buf :=
  read_block (upload_file h d path name fpin) (check_fbv_for_available_block h d)

/-- The layout that the spec gives a file of `n` blocks, `1 ≤ n ≤ 10`: size and type in the
inode, `n` direct pointers into the data section, input chunk `j` with zero padding in the
block of pointer `j`, zero in the other direct pointers and in both indirection fields. -/
def small_file_layout (s : Disk) (inode : Buf) (fpin : List Nat) (n : Nat) : Prop :=
  inode 0 + 256 * inode 1 + 65536 * inode 2 + 16777216 * inode 3 = fpin.length ∧
  inode 4 = 102 ∧
  (∀ j, j < n → 16 ≤ u16 inode (4 + j) ∧ u16 inode (4 + j) < 4096 ∧
    ∀ o, o < 512 → s (u16 inode (4 + j) * 512 + o) =
      if j * 512 + o < fpin.length then fpin.getD (j * 512 + o) 0 else 0) ∧
  (∀ j, n ≤ j → j < 12 → u16 inode (4 + j) = 0)

/-- The first 4096 blocks of `s` hold what `init_vdisk` leaves there. -/
def is_formatted (s : Disk) : Prop := ∀ x, x < 4096 * 512 → s x = formatted x

/-- Between the stores `d` and `s` the blocks outside the data section other than block 1
and the blocks of the data section that were in use keep their content, and the blocks
in use stay in use. -/
def keeps (d s : Disk) : Prop :=
  (∀ x, x < 512 ∨ (1024 ≤ x ∧ x < 16 * 512) ∨ 4096 * 512 ≤ x → s x = d x) ∧
  (∀ b, 16 ≤ b → b < 4096 → fbv_bit d b = false →
    fbv_bit s b = false ∧ ∀ o, o < 512 → s (b * 512 + o) = d (b * 512 + o))

/-- The fresh store with one more entity of inode-id 128, named `x` in slot 2 of the root:
its inode of the given type lies in block 19 with `direct[0] = 18`, block 18 holds `data`. -/
def entity_128 (type : Nat) (data : Buf) : Disk :=
  let s1 := write_block fresh 18 data 512
  let s2 := write_block s1 19 (set_u16 (inode_record 128 512 type) 4 18) 33
  let s3 := write_block s2 2 (set_u16 (read_block s2 2) 128 19) 512
  let s4 := write_block s3 16 (set_byte (set_byte (read_block s3 16) 64 128) 65 120) 512
  reset_fbv_bit (reset_fbv_bit s4 18) 19

/-- The fresh store with the directory `/x` of inode-id 128. -/
def dir_128 : Disk := entity_128 100 (directory_record 0 128)

/-- The fresh store with the file `/x` of inode-id 128, one block of `A`. -/
def file_128 : Disk := entity_128 102 (fun _ => 65)

/-- A heap whose first byte behind a 512-byte buffer is 1. -/
def heap_behind : Heap := fun i => if i = 512 then 1 else 0

/-- The inode of a file of 268 blocks with inode-id 1 as the layout of the spec has it:
direct pointers 20..29, single indirection block 30, double indirection block 32. -/
def double_indirect_inode : Buf :=
  fun o =>
    if 8 ≤ o ∧ o < 28 then (if o % 2 = 0 then 20 + (o - 8) / 2 else 0)
    else if o = 28 then 30
    else if o = 30 then 32
    else inode_record 1 137216 102 o

/-- The fresh store with the file `/x` of inode-id 1 whose inode in block 19 is
`double_indirect_inode`: block 30 names the data block 31, the double indirection block 32
names the single indirection block 33, which names the data block 34; the blocks 16..34
are marked in use. -/
def with_double_indirect_file : Disk :=
  let s1 := write_block fresh 19 double_indirect_inode 33
  let s2 := write_block s1 30 (set_u16 zero_block 0 31) 512
  let s3 := write_block s2 32 (set_u16 zero_block 0 33) 512
  let s4 := write_block s3 33 (set_u16 zero_block 0 34) 512
  let s5 := write_block s4 2 (set_u16 (read_block s4 2) 1 19) 512
  let s6 := write_block s5 16 (set_byte (set_byte (read_block s5 16) 64 1) 65 120) 512
  write_block s6 1 (fun o => if o < 4 then 0 else if o = 4 then 248 else 255) 512

/-- The fresh store with the directory `/x` of inode-id 128 (inode block 19, directory
block 18) whose slot 2 holds the entry of inode-id 1 named `y`. -/
def dir_128_with_entry : Disk :=
  entity_128 100 (set_byte (set_byte (directory_record 0 128) 64 1) 65 121)

/-- The fresh store after the upload of the three bytes `ABC` as `/f`. -/
def with_small_file : Disk := upload_file heap0 fresh (bytes "/") (bytes "f") [65, 66, 67]

/-- The store `with_small_file` after `delete_filepath` on the path `/nope`, which names
no entry. -/
def after_missing_delete : Disk := delete_filepath heap0 with_small_file (bytes "/nope")

/-- An input file of ten bytes: eight times `G`, then the bytes 20 and 0. -/
def g_input : List Nat := [71, 71, 71, 71, 71, 71, 71, 71, 20, 0]

/-- The store `after_missing_delete` after the upload of `g_input` as `/g`. -/
def with_small_file_g : Disk :=
  upload_file heap0 after_missing_delete (bytes "/") (bytes "g") g_input

/-- The store after `create_directory` of `/a` and of `/a/b` on the fresh store and
`delete_filepath` on `/a`. -/
def after_directory_delete : Disk := delete_filepath heap0 with_a_sub (bytes "/a")

/-- The store `after_directory_delete` after the upload of the three bytes `ABC` as `/f`. -/
def with_file_on_freed_blocks : Disk :=
  upload_file heap0 after_directory_delete (bytes "/") (bytes "f") [65, 66, 67]

/-! ## Lemmas on the free block vector -/

theorem first_set_bit_some {v i : Nat} (hv : first_set_bit v = some i) :
    i < 8 ∧ Nat.testBit v i = true := by
  unfold first_set_bit at hv
  have h1 := List.find?_some hv
  have h2 := List.mem_of_find?_eq_some hv
  exact ⟨List.mem_range.mp h2, h1⟩

theorem fbv_scan_result (buf : Buf) (fuel pos : Nat) :
    fbv_scan buf fuel pos = 0 ∨
      ∃ p i, pos ≤ p ∧ p < pos + fuel ∧ i < 8 ∧ Nat.testBit (buf p) i = true ∧
        fbv_scan buf fuel pos = (p * 8 + i) % 65536 := by
  induction fuel generalizing pos with
  | zero => left; rfl
  | succ n ih =>
    unfold fbv_scan
    cases hv : first_set_bit (buf pos) with
    | none =>
      simp only
      rcases ih (pos + 1) with h0 | ⟨p, i, h1, h2, h3, h4, h5⟩
      · left; exact h0
      · right; exact ⟨p, i, by omega, by omega, h3, h4, h5⟩
    | some i =>
      simp only
      right
      have := first_set_bit_some hv
      exact ⟨pos, i, le_refl _, by omega, this.1, this.2, rfl⟩

theorem testBit_byte_zero {v i : Nat} (hv : v % 256 = 0) (hi : i < 8) : Nat.testBit v i = false := by
  have h := Nat.testBit_mod_two_pow v 8 i
  have h256 : (2:Nat) ^ 8 = 256 := by norm_num
  rw [h256, hv] at h
  simp [hi] at h
  exact h

theorem check_fbv_full (h : Heap) (d : Disk)
    (hfull : ∀ p, 2 ≤ p → p < 512 → d (512 + p) % 256 = 0) :
    check_fbv_for_available_block h d = 0 ∨ 4096 ≤ check_fbv_for_available_block h d := by
  unfold check_fbv_for_available_block
  rcases fbv_scan_result (read_block_heap h d 1) 4109 2 with h0 | ⟨p, i, h1, h2, h3, h4, h5⟩
  · left; exact h0
  · right
    rw [h5]
    by_cases hp : p < 512
    · exfalso
      have hz := hfull p h1 hp
      have : read_block_heap h d 1 p = d (512 + p) := by
        simp [read_block_heap, hp]
      rw [this] at h4
      rw [testBit_byte_zero hz h3] at h4
      exact Bool.false_ne_true h4
    · omega

theorem set_fbv_bit_apply (d : Disk) (b a : Nat) :
    set_fbv_bit d b a =
      if 512 ≤ a ∧ a < 1024 then
        (if a - 512 = b / 8 then (d a ||| (1 <<< (b % 8))) % 256 else d a)
      else d a := by
  unfold set_fbv_bit write_block read_block
  by_cases ha : 512 ≤ a ∧ a < 1024
  · have e : 1 * 512 + (a - 1 * 512) = a := by omega
    simp only [Nat.one_mul] at e ⊢
    have ha2 : 512 ≤ a ∧ a < 512 + 512 := by omega
    simp only [ha, ha2, and_self, if_true, e]
  · have ha2 : ¬ (1 * 512 ≤ a ∧ a < 1 * 512 + 512) := by omega
    simp only [ha2, ha, if_false]

theorem fbv_bit_set_self (d : Disk) (b : Nat) (hb : b < 4096) :
    fbv_bit (set_fbv_bit d b) b = true := by
  unfold fbv_bit
  rw [set_fbv_bit_apply]
  have h1 : 512 ≤ 512 + b / 8 ∧ 512 + b / 8 < 1024 := by omega
  have h2 : 512 + b / 8 - 512 = b / 8 := by omega
  simp only [h1, and_self, if_true, h2]
  have h256 : (256 : Nat) = 2 ^ 8 := by norm_num
  rw [h256, Nat.testBit_mod_two_pow]
  have h8 : b % 8 < 8 := Nat.mod_lt _ (by norm_num)
  simp [h8, Nat.testBit_lor, Nat.testBit_shiftLeft]

theorem fbv_bit_set_mono (d : Disk) (b c : Nat) (hc : c < 4096) (h : fbv_bit d c = true) :
    fbv_bit (set_fbv_bit d b) c = true := by
  unfold fbv_bit at h ⊢
  rw [set_fbv_bit_apply]
  have h1 : 512 ≤ 512 + c / 8 ∧ 512 + c / 8 < 1024 := by omega
  simp only [h1, and_self, if_true]
  split
  · have h256 : (256 : Nat) = 2 ^ 8 := by norm_num
    rw [h256, Nat.testBit_mod_two_pow]
    have h8 : c % 8 < 8 := Nat.mod_lt _ (by norm_num)
    simp [h8, Nat.testBit_lor, h]
  · exact h

theorem set_fbv_bit_other (d : Disk) (b a : Nat) (ha : 1024 ≤ a) : set_fbv_bit d b a = d a := by
  rw [set_fbv_bit_apply]
  have : ¬ (512 ≤ a ∧ a < 1024) := by omega
  simp only [this, if_false]

theorem delete_directory_nonempty (h : Heap) (d : Disk) (id : Nat)
    (hdd : 16 ≤ u16 (read_block d (get_inode_address h d (id % 256))) 4)
    (hne : ∃ k, k < 14 ∧
      d (u16 (read_block d (get_inode_address h d (id % 256))) 4 * 512 + (k + 2) * 32) % 256 ≠ 0) :
    delete_directory h d id =
      set_fbv_bit (set_fbv_bit d (u16 (read_block d (get_inode_address h d (id % 256))) 4))
        (get_inode_address h d (id % 256)) := by
  unfold delete_directory
  simp only
  rw [if_pos]
  rw [List.any_eq_true]
  obtain ⟨k, hk, hk2⟩ := hne
  refine ⟨k, List.mem_range.mpr hk, ?_⟩
  simp only [read_block, decide_eq_true_eq]
  rw [set_fbv_bit_other _ _ _ (by omega), set_fbv_bit_other _ _ _ (by omega)]
  exact hk2

/-! ## Lemmas on download -/

theorem length_write_out (out : List Nat) (b : Nat) (buf : Buf) (k : Nat) (hk : 0 < k)
    (hlen : out.length = b * 512) : (write_out out b buf k).length = b * 512 + k := by
  unfold write_out
  have : k ≠ 0 := by omega
  simp only [this, if_false, List.length_append, List.length_take, List.length_replicate,
    List.length_map, List.length_range, List.length_drop, hlen]
  omega

theorem write_out_zero (out : List Nat) (b : Nat) (buf : Buf) : write_out out b buf 0 = out := by
  unfold write_out
  simp

theorem download_direct_loop_full (d : Disk) (ib : Buf) (size : Nat) (hs : size % 512 = 0) :
    ∀ (fuel i : Nat) (out : List Nat) (rem : Nat), fuel < rem → rem < 65536 →
      out.length = i * 512 →
      (download_direct_loop d ib size fuel i out rem).2 = rem - fuel ∧
      (download_direct_loop d ib size fuel i out rem).1.length = (i + fuel) * 512 := by
  intro fuel
  induction fuel with
  | zero => intro i out rem _ _ hl; simp [download_direct_loop, hl]
  | succ n ih =>
    intro i out rem h1 h2 hl
    rw [download_direct_loop]
    have hr : (rem + 65535) % 65536 = rem - 1 := by omega
    have hne : ¬ (rem - 1 = 0) := by omega
    have hbr : ¬ (rem = 1 ∧ size % 512 ≠ 0) := by simp [hs]
    simp only [hr, hne, hbr, if_false]
    have hl2 : (write_out out i (read_block d (u16 ib (4 + i))) 512).length = (i + 1) * 512 := by
      rw [length_write_out _ _ _ _ (by norm_num) hl]; ring
    have := ih (i + 1) _ (rem - 1) (by omega) (by omega) hl2
    constructor
    · rw [this.1]; omega
    · rw [this.2]; ring

theorem read_single_loop_multiple (d : Disk) (buff : Buf) (size : Nat) (hs : size % 512 = 0) :
    ∀ (fuel i : Nat) (out : List Nat) (rem : Nat), 1 ≤ rem → rem ≤ fuel → rem < 65536 →
      out.length = (10 + i) * 512 →
      (read_single_loop d buff size fuel i out rem).1.length = (10 + i + (rem - 1)) * 512 := by
  intro fuel
  induction fuel with
  | zero => intro i out rem h1 h2; omega
  | succ n ih =>
    intro i out rem h1 h2 h3 hl
    rw [read_single_loop]
    by_cases hone : rem = 1
    · subst hone
      simp [hs, write_out_zero, hl]
    · have hr : (rem + 65535) % 65536 = rem - 1 := by omega
      have hne : ¬ (rem - 1 = 0) := by omega
      simp only [hone, hr, hne, if_false]
      have hl2 : (write_out out (10 + i) (read_block d (u16 buff i)) 512).length
          = (10 + (i + 1)) * 512 := by
        rw [length_write_out _ _ _ _ (by norm_num) hl]; ring
      rw [ih (i + 1) _ (rem - 1) (by omega) (by omega) (by omega) hl2]
      have : 10 + (i + 1) + (rem - 1 - 1) = 10 + i + (rem - 1) := by omega
      rw [this]

theorem inode_size_low (d : Disk) (inode_id : Nat) :
    u16 (read_block d (u16 (read_block d 2) (inode_id % 256))) 0 = inode_size d inode_id % 65536 := by
  unfold inode_size inode_map_entry u16
  simp only [Nat.mul_zero, Nat.zero_add]
  omega

/-! ## Lemmas on directory slots -/

theorem copy_file_name_below (name : List Nat) (base : Nat) :
    ∀ (fuel j : Nat) (data : Buf) (o : Nat), o < base + j →
      (copy_file_name name base fuel j data).1 o = data o := by
  intro fuel
  induction fuel with
  | zero => intro j data o _; rfl
  | succ n ih =>
    intro j data o ho
    rw [copy_file_name]
    split
    · rfl
    · have hs : set_byte data (base + j) (name.getD j 0) o = data o := by
        unfold set_byte
        have : o ≠ base + j := by omega
        simp only [this, if_false]
      split
      · exact hs
      · rw [ih (j + 1) _ o (by omega)]; exact hs

theorem find_directory_slot_past_end (data : Buf) (hend : data (16 * 32 + 1) % 256 = 0) :
    ∀ (m fuel i : Nat), i + m = 16 → m < fuel →
      (∀ k, i ≤ k → k < 16 → data (k * 32 + 1) % 256 ≠ 0) →
      find_directory_slot data fuel i = some 16 := by
  intro m
  induction m with
  | zero =>
    intro fuel i hi hf _
    have : i = 16 := by omega
    subst this
    obtain ⟨f, rfl⟩ : ∃ f, fuel = f + 1 := ⟨fuel - 1, by omega⟩
    rw [find_directory_slot]
    simp [hend]
  | succ m ih =>
    intro fuel i hi hf hfull
    obtain ⟨f, rfl⟩ : ∃ f, fuel = f + 1 := ⟨fuel - 1, by omega⟩
    rw [find_directory_slot]
    have h1 := hfull i (le_refl _) (by omega)
    have h2 : ¬ (i + 1 > 512) := by omega
    simp only [h1, h2, ne_eq, not_false_eq_true, if_true, if_false]
    exact ih f (i + 1) (by omega) (by omega) (fun k hk1 hk2 => hfull k (by omega) hk2)

/-! ## Further lemmas -/

theorem check_fbv_full_heap0 (d : Disk)
    (hfull : ∀ p, 2 ≤ p → p < 512 → d (512 + p) % 256 = 0) :
    check_fbv_for_available_block heap0 d = 0 := by
  unfold check_fbv_for_available_block
  rcases fbv_scan_result (read_block_heap heap0 d 1) 4109 2 with h0 | ⟨p, i, h1, _, h3, h4, _⟩
  · exact h0
  · exfalso
    by_cases hp : p < 512
    · have e : read_block_heap heap0 d 1 p = d (512 + p) := by simp [read_block_heap, hp]
      rw [e, testBit_byte_zero (hfull p h1 hp) h3] at h4
      exact Bool.false_ne_true h4
    · have e : read_block_heap heap0 d 1 p = 0 := by simp [read_block_heap, hp, heap0]
      rw [e] at h4
      simp at h4

theorem reset_fbv_bit_other (d : Disk) (b a : Nat) (ha : a < 512 ∨ 1024 ≤ a) :
    reset_fbv_bit d b a = d a := by
  unfold reset_fbv_bit write_block
  have : ¬ (1 * 512 ≤ a ∧ a < 1 * 512 + 512) := by omega
  simp only [this, if_false]

theorem no_space_full : ∀ p, 2 ≤ p → p < 512 → no_space (512 + p) % 256 = 0 := by
  intro p _ hp
  have : 1 * 512 ≤ 512 + p ∧ 512 + p < 1 * 512 + 512 := by omega
  simp only [no_space, write_block, this, and_self, if_true, zero_block]

theorem download_multiple_of_512 (d : Disk) (inode_id : Nat)
    (h1 : 5120 < inode_size d inode_id) (h2 : inode_size d inode_id < 65536)
    (h3 : inode_size d inode_id % 512 = 0) :
    (download_file_from_inode_id d inode_id).length = inode_size d inode_id - 512 := by
  unfold download_file_from_inode_id
  simp only
  rw [inode_size_low]
  have hs : inode_size d inode_id % 65536 = inode_size d inode_id := Nat.mod_eq_of_lt h2
  rw [hs]
  generalize inode_size d inode_id = s at *
  have hnb : (s / 512 + if s % 512 ≠ 0 then 1 else 0) % 65536 = s / 512 := by
    simp [h3]; omega
  rw [hnb]
  have hd := download_direct_loop_full d (read_block d (u16 (read_block d 2) (inode_id % 256))) s h3
    10 0 [] (s / 512) (by omega) (by omega) (by simp)
  rw [hd.1]
  have hne : ¬ (s / 512 - 10 = 0) := by omega
  simp only [hne, if_false]
  unfold read_from_single_indirection_block
  rw [read_single_loop_multiple d _ s h3 256 0 _ (s / 512 - 10) (by omega) (by omega) (by omega)
    (by rw [hd.2])]
  omega

theorem download_65537 (d : Disk) (inode_id : Nat) (h : inode_size d inode_id = 65537) :
    (download_file_from_inode_id d inode_id).length = 1 := by
  unfold download_file_from_inode_id
  simp only
  rw [inode_size_low, h]
  simp [download_direct_loop, write_out]

/-! ## The claims -/

/-- Claim C1 (upload-then-download round trip).  On the fresh store the input of 5632
bytes is uploaded as `/f`; the path resolves to inode-id 1, and the download of `/f`
yields 5120 bytes: the last block, reached through the single indirection block, is
written with `size % 512 = 0` bytes. -/
theorem upload_download_5632_bytes :
    find_file_inode_id with_file (bytes "/f") = 1 ∧
    sample_input.length = 5632 ∧
    (download_file with_file (bytes "/f")).length = 5120 := by decide!

/-- Claim C2 (download emits `size` bytes).  For every store and inode-id: when the
size field is a multiple of 512 between 5121 and 65535, the output is 512 bytes
shorter than the size; when the size field is 65537, the output is 1 byte long,
because only the low 16 bits of the field are read. -/
theorem download_length_not_size (d : Disk) (inode_id : Nat) :
    (5120 < inode_size d inode_id → inode_size d inode_id < 65536 →
      inode_size d inode_id % 512 = 0 →
      (download_file_from_inode_id d inode_id).length = inode_size d inode_id - 512) ∧
    (inode_size d inode_id = 65537 → (download_file_from_inode_id d inode_id).length = 1) :=
  ⟨download_multiple_of_512 d inode_id, download_65537 d inode_id⟩

/-- Witness of C2: the inode of `/f` after the upload of 5632 bytes, and the same
inode with the size field 65537. -/
theorem download_length_not_size_witness :
    (inode_size with_file 1 = 5632 ∧
      (download_file_from_inode_id with_file 1).length = inode_size with_file 1 - 512) ∧
    (inode_size with_long_file 1 = 65537 ∧
      (download_file_from_inode_id with_long_file 1).length = 1) :=
  ⟨⟨by decide!, (download_length_not_size with_file 1).1 (by decide!) (by decide!) (by decide!)⟩,
   ⟨by decide!, (download_length_not_size with_long_file 1).2 (by decide!)⟩⟩

/-- Claim C3 (create-then-delete restores the inode map).  With `/a` present (inode-id
1 at block 19), `/b` is created (inode-id 2) and deleted again: entry 2 of the inode
map keeps the address 21 and entry 1, which belongs to `/a`, is cleared, whereas
before the creation entry 1 was 19 and entry 2 was 0. -/
theorem create_delete_second_directory :
    (inode_map_entry with_a 1 = 19 ∧ inode_map_entry with_a 2 = 0) ∧
    (inode_map_entry (delete_filepath heap0 with_a_b (bytes "/b")) 1 = 0 ∧
     inode_map_entry (delete_filepath heap0 with_a_b (bytes "/b")) 2 = 21) := by decide!

/-- Claim C4 (deleting a non-empty directory).  For every directory whose inode lies
in block `ia < 4096` and whose data block `dd` in `[16, 4096)` has a non-zero inode-id
byte in one of the slots 2..15, `delete_directory` ends with the FBV bits of both
blocks set to 1 (free). -/
theorem delete_directory_nonempty_frees_blocks (h : Heap) (d : Disk) (id ia dd : Nat)
    (hia : get_inode_address h d (id % 256) = ia) (hdd : u16 (read_block d ia) 4 = dd)
    (hdata : 16 ≤ dd ∧ dd < 4096) (hinode : ia < 4096)
    (hne : ∃ k, k < 14 ∧ d (dd * 512 + (k + 2) * 32) % 256 ≠ 0) :
    fbv_bit (delete_directory h d id) dd = true ∧ fbv_bit (delete_directory h d id) ia = true := by
  subst hia
  subst hdd
  rw [delete_directory_nonempty h d id hdata.1 hne]
  exact ⟨fbv_bit_set_mono _ _ _ hdata.2 (fbv_bit_set_self _ _ hdata.2), fbv_bit_set_self _ _ hinode⟩

/-- Witness of C4: the directory `/a` (inode-id 1, inode block 19, data block 18) that
holds `/a/b`; both FBV bits are 0 before the call. -/
theorem delete_directory_nonempty_frees_blocks_witness :
    (fbv_bit with_a_sub 18 = false ∧ fbv_bit with_a_sub 19 = false) ∧
    fbv_bit (delete_directory heap0 with_a_sub 1) 18 = true ∧
    fbv_bit (delete_directory heap0 with_a_sub 1) 19 = true :=
  ⟨by decide!, delete_directory_nonempty_frees_blocks heap0 with_a_sub 1 19 18 (by decide!)
    (by decide!) (by decide) (by decide) ⟨0, by decide, by decide!⟩⟩

/-- Claim C5 (full directory).  For every directory whose 16 slots all have a
non-zero first name byte, with `dd` its data block, and a zero byte in memory at
index 513 of the block buffer, `add_element_to_directory` writes the inode-id of
the new element into the first byte of block `dd + 1`. -/
theorem add_element_to_full_directory_spills (h : Heap) (d : Disk)
    (directory_inode_id element_inode_id dd : Nat) (element_file_name : List Nat)
    (hdd : u16 (read_block d (get_inode_address h d directory_inode_id)) 4 = dd)
    (hfull : ∀ i, i < 16 → d (dd * 512 + (i * 32 + 1)) % 256 ≠ 0)
    (hheap : h 513 % 256 = 0) :
    add_element_to_directory h d directory_inode_id element_inode_id element_file_name
      ((dd + 1) * 512) = element_inode_id % 256 := by
  unfold add_element_to_directory
  simp only
  rw [hdd]
  have hslot : find_directory_slot (read_block_heap h d dd) 513 0 = some 16 := by
    apply find_directory_slot_past_end _ _ 16 513 0 (by norm_num) (by norm_num)
    · intro k _ hk
      have hlt : k * 32 + 1 < 512 := by omega
      simp only [read_block_heap, hlt, if_true]
      exact hfull k hk
    · simp only [read_block_heap]
      norm_num
      exact hheap
  rw [hslot]
  simp only [write_block]
  have hin : dd * 512 ≤ (dd + 1) * 512 ∧ (dd + 1) * 512 < dd * 512 + (16 * 32 + 1 +
      (copy_file_name element_file_name (16 * 32 + 1) 34 0
        (set_byte (read_block_heap h d dd) (16 * 32) element_inode_id)).2) := by omega
  rw [if_pos hin]
  have e : (dd + 1) * 512 - dd * 512 = 512 := by omega
  rw [e, copy_file_name_below _ _ _ _ _ _ (by norm_num)]
  simp [set_byte]

/-- Witness of C5: the root directory (data block 16) with 14 children; byte 0 of
block 17, the inode block of the root, is 0 before and 15 after the call. -/
theorem add_element_to_full_directory_spills_witness :
    full_root ((16 + 1) * 512) = 0 ∧
    add_element_to_directory heap0 full_root 0 15 (bytes "o") ((16 + 1) * 512) = 15 % 256 :=
  ⟨by decide!, add_element_to_full_directory_spills heap0 full_root 0 15 16 (bytes "o")
    (by decide!) (by decide!) (by decide)⟩

/-- Claim C6 (upload at capacity).  For every store whose free block vector has no
bit set in bytes 2..511, `create_and_write_data_block_from_file` returns, whatever
the heap holds, an address outside `[16, 4096)`; with a zero heap the address is 0
and the first byte of the data lands in byte 0 of block 0. -/
theorem allocation_without_free_block (h : Heap) (d : Disk) (n : Nat) (infile : List Nat)
    (pos : Nat) (hn : 0 < n) (hfull : ∀ p, 2 ≤ p → p < 512 → d (512 + p) % 256 = 0) :
    ¬ (16 ≤ (create_and_write_data_block_from_file h d n infile pos).2.1 ∧
        (create_and_write_data_block_from_file h d n infile pos).2.1 < 4096) ∧
    (create_and_write_data_block_from_file heap0 d n infile pos).2.1 = 0 ∧
    (create_and_write_data_block_from_file heap0 d n infile pos).1 0 = infile.getD pos 0 := by
  refine ⟨?_, ?_, ?_⟩
  · have := check_fbv_full h d hfull
    simp only [create_and_write_data_block_from_file]
    omega
  · simp only [create_and_write_data_block_from_file]
    exact check_fbv_full_heap0 d hfull
  · simp only [create_and_write_data_block_from_file]
    rw [reset_fbv_bit_other _ _ _ (Or.inl (by norm_num)), check_fbv_full_heap0 d hfull]
    simp [write_block, hn]

/-- Witness of C6: the store `no_space` and a one-byte input. -/
theorem allocation_without_free_block_witness :
    (∀ p, 2 ≤ p → p < 512 → no_space (512 + p) % 256 = 0) ∧
    ¬ (16 ≤ (create_and_write_data_block_from_file heap0 no_space 1 [65] 0).2.1 ∧
        (create_and_write_data_block_from_file heap0 no_space 1 [65] 0).2.1 < 4096) ∧
    (create_and_write_data_block_from_file heap0 no_space 1 [65] 0).2.1 = 0 ∧
    (create_and_write_data_block_from_file heap0 no_space 1 [65] 0).1 0 = [65].getD 0 0 :=
  ⟨no_space_full, allocation_without_free_block heap0 no_space 1 [65] 0 (by decide) no_space_full⟩

/-- Claim C7 (path resolution through `direct[0]`).  In the store `far_directory` the
path `/d` resolves to inode-id 1, whose inode has `direct[0] = 272`, and slot 2 of
block 272 is named `e` with inode-id 2; yet `/d/e` resolves to 0: the directory is
read from block `272 % 256 = 16`. -/
theorem far_directory_not_resolved :
    find_file_inode_id far_directory (bytes "/d") = 1 ∧
    u16 (read_block far_directory (inode_map_entry far_directory 1)) 4 = 272 ∧
    strncmp_eq (cstring (bytes "e")) (slot_name (read_block far_directory 272) 2) 31 0 = true ∧
    read_block far_directory 272 (2 * 32) = 2 ∧
    find_file_inode_id far_directory (bytes "/d/e") = 0 := by decide!

/-- Claim C8 (NotFound).  On the store with `/a`, `/a` resolves to 1, while the
missing path `/nope` and the root path `/` both give 0. -/
theorem not_found_is_root_id :
    find_file_inode_id with_a (bytes "/a") = 1 ∧
    find_file_inode_id with_a (bytes "/nope") = 0 ∧
    find_file_inode_id with_a (bytes "/") = 0 := by decide!

/-- Claim C9 (`delete_filepath` on a missing path).  On the store with `/a`, deleting
`/nope` sets the FBV bits of the root blocks 16 and 17 to 1; on the fresh store it
also clears `inode_map[0]` and zeroes the root inode and the start of its data block. -/
theorem delete_missing_path_hits_root :
    (fbv_bit with_a 16 = false ∧ fbv_bit with_a 17 = false ∧
      fbv_bit (delete_filepath heap0 with_a (bytes "/nope")) 16 = true ∧
      fbv_bit (delete_filepath heap0 with_a (bytes "/nope")) 17 = true) ∧
    (inode_map_entry fresh 0 = 17 ∧ fresh (17 * 512 + 4) = 100 ∧ fresh (16 * 512 + 1) = 46 ∧
      inode_map_entry (delete_filepath heap0 fresh (bytes "/nope")) 0 = 0 ∧
      delete_filepath heap0 fresh (bytes "/nope") (17 * 512 + 4) = 0 ∧
      delete_filepath heap0 fresh (bytes "/nope") (16 * 512 + 1) = 0) := by decide!

/-- Claim C10 (pointers name blocks in use).  After `init_vdisk`, `create_directory`
of `/a` and `/a/b` and `delete_filepath` of `/a`, entry 1 of the inode map is 19 and
the inode in block 19 has `direct[0] = 18`, while the FBV bits of 19 and 18 are 1. -/
theorem pointer_to_free_block_after_delete :
    inode_map_entry (delete_filepath heap0 with_a_sub (bytes "/a")) 1 = 19 ∧
    fbv_bit (delete_filepath heap0 with_a_sub (bytes "/a")) 19 = true ∧
    u16 (read_block (delete_filepath heap0 with_a_sub (bytes "/a")) 19) 4 = 18 ∧
    fbv_bit (delete_filepath heap0 with_a_sub (bytes "/a")) 18 = true := by decide!

/-! ## Lemmas on allocation and layout -/

theorem find_range_spec (p : Nat → Bool) :
    ∀ (n i : Nat), (List.range n).find? p = some i →
      i < n ∧ p i = true ∧ ∀ j, j < i → p j = false := by
  intro n
  induction n with
  | zero => intro i h; simp at h
  | succ n ih =>
    intro i h
    rw [List.range_succ, List.find?_append] at h
    cases hn : (List.range n).find? p with
    | some k =>
      rw [hn] at h
      simp only [Option.or_some] at h
      have hk : k = i := Option.some.inj h
      rw [← hk]
      obtain ⟨h1, h2, h3⟩ := ih k hn
      exact ⟨by omega, h2, h3⟩
    | none =>
      rw [hn] at h
      simp only [Option.none_or] at h
      have hpn : p n = true := by
        by_contra hc
        simp [List.find?, hc] at h
      simp [List.find?, hpn] at h
      subst h
      refine ⟨by omega, hpn, ?_⟩
      intro j hj
      rw [List.find?_eq_none] at hn
      have := hn j (List.mem_range.mpr hj)
      simpa using this

theorem find_range_none (p : Nat → Bool) (n : Nat) (h : (List.range n).find? p = none) :
    ∀ j, j < n → p j = false := by
  intro j hj
  rw [List.find?_eq_none] at h
  have := h j (List.mem_range.mpr hj)
  simpa using this

theorem first_set_bit_min {v i : Nat} (hv : first_set_bit v = some i) :
    ∀ j, j < i → Nat.testBit v j = false :=
  (find_range_spec (fun i => Nat.testBit v i) 8 i hv).2.2

theorem first_set_bit_none {v : Nat} (hv : first_set_bit v = none) :
    ∀ j, j < 8 → Nat.testBit v j = false :=
  find_range_none (fun i => Nat.testBit v i) 8 hv

theorem fbv_scan_least (buf : Buf) :
    ∀ (fuel pos p0 : Nat), pos ≤ p0 → p0 < pos + fuel → first_set_bit (buf p0) ≠ none →
      ∃ p i, pos ≤ p ∧ p ≤ p0 ∧ first_set_bit (buf p) = some i ∧
        (∀ q, pos ≤ q → q < p → first_set_bit (buf q) = none) ∧
        fbv_scan buf fuel pos = (p * 8 + i) % 65536 := by
  intro fuel
  induction fuel with
  | zero => intro pos p0 h1 h2; omega
  | succ n ih =>
    intro pos p0 h1 h2 h3
    rw [fbv_scan]
    cases hv : first_set_bit (buf pos) with
    | some i =>
      exact ⟨pos, i, le_refl _, h1, hv, fun q hq1 hq2 => by omega, rfl⟩
    | none =>
      have hne : pos ≠ p0 := by
        intro e; rw [e] at hv; exact h3 hv
      obtain ⟨p, i, a1, a2, a3, a4, a5⟩ := ih (pos + 1) p0 (by omega) (by omega) h3
      refine ⟨p, i, by omega, a2, a3, ?_, a5⟩
      intro q hq1 hq2
      by_cases e : q = pos
      · rw [e]; exact hv
      · exact a4 q (by omega) hq2

theorem read_block_heap_low (h : Heap) (d : Disk) (bn o : Nat) (ho : o < 512) :
    read_block_heap h d bn o = d (bn * 512 + o) := by
  simp [read_block_heap, ho]

theorem check_fbv_of_free (h : Heap) (d : Disk) (b : Nat) (hb1 : 16 ≤ b) (hb2 : b < 4096)
    (hf : fbv_bit d b = true) :
    16 ≤ check_fbv_for_available_block h d ∧ check_fbv_for_available_block h d ≤ b ∧
    fbv_bit d (check_fbv_for_available_block h d) = true ∧
    ∀ c, 16 ≤ c → c < check_fbv_for_available_block h d → fbv_bit d c = false := by
  have hbit : Nat.testBit (read_block_heap h d 1 (b / 8)) (b % 8) = true := by
    rw [read_block_heap_low _ _ _ _ (by omega)]
    simpa [fbv_bit] using hf
  have hsome : first_set_bit (read_block_heap h d 1 (b / 8)) ≠ none := by
    intro e
    have := first_set_bit_none e (b % 8) (Nat.mod_lt _ (by norm_num))
    rw [hbit] at this
    exact absurd this (by simp)
  obtain ⟨p, i, a1, a2, a3, a4, a5⟩ :=
    fbv_scan_least (read_block_heap h d 1) 4109 2 (b / 8) (by omega) (by omega) hsome
  have hi := first_set_bit_some a3
  have hmin := first_set_bit_min a3
  have hval : check_fbv_for_available_block h d = p * 8 + i := by
    unfold check_fbv_for_available_block
    rw [a5]
    omega
  rw [hval]
  have hp : p < 512 := by omega
  have hdiv : (p * 8 + i) / 8 = p := by omega
  have hmod : (p * 8 + i) % 8 = i := by omega
  refine ⟨by omega, ?_, ?_, ?_⟩
  · by_cases e : p = b / 8
    · have : ¬ (b % 8 < i) := by
        intro hlt
        have := hmin (b % 8) hlt
        rw [e] at this
        rw [hbit] at this
        exact absurd this (by simp)
      omega
    · omega
  · unfold fbv_bit
    rw [hdiv, hmod]
    have := hi.2
    rw [read_block_heap_low _ _ _ _ hp] at this
    simpa using this
  · intro c hc1 hc2
    unfold fbv_bit
    by_cases e : c / 8 = p
    · have hlt : c % 8 < i := by omega
      have := hmin (c % 8) hlt
      rw [read_block_heap_low _ _ _ _ hp] at this
      rw [e]
      simpa using this
    · have hq := a4 (c / 8) (by omega) (by omega)
      have := first_set_bit_none hq (c % 8) (Nat.mod_lt _ (by norm_num))
      rw [read_block_heap_low _ _ _ _ (by omega)] at this
      simpa using this

theorem check_fbv_cases (h : Heap) (d : Disk) :
    check_fbv_for_available_block h d = 0 ∨
    (4096 ≤ check_fbv_for_available_block h d ∧ check_fbv_for_available_block h d < 65536) ∨
    (16 ≤ check_fbv_for_available_block h d ∧ check_fbv_for_available_block h d < 4096 ∧
      fbv_bit d (check_fbv_for_available_block h d) = true) := by
  unfold check_fbv_for_available_block
  rcases fbv_scan_result (read_block_heap h d 1) 4109 2 with h0 | ⟨p, i, h1, h2, h3, h4, h5⟩
  · left; exact h0
  · right
    rw [h5]
    have hv : (p * 8 + i) % 65536 = p * 8 + i := by omega
    rw [hv]
    by_cases hp : p < 512
    · right
      refine ⟨by omega, by omega, ?_⟩
      unfold fbv_bit
      have hdiv : (p * 8 + i) / 8 = p := by omega
      have hmod : (p * 8 + i) % 8 = i := by omega
      rw [hdiv, hmod]
      rw [read_block_heap_low _ _ _ _ hp] at h4
      simpa using h4
    · left; omega

theorem write_block_in (d : Disk) (bn : Nat) (buf : Buf) (k o : Nat) (ho : o < k) :
    write_block d bn buf k (bn * 512 + o) = buf o := by
  unfold write_block
  have : bn * 512 ≤ bn * 512 + o ∧ bn * 512 + o < bn * 512 + k := by omega
  rw [if_pos this]
  congr 1
  omega

theorem write_block_out (d : Disk) (bn : Nat) (buf : Buf) (k x : Nat)
    (hx : x < bn * 512 ∨ bn * 512 + k ≤ x) : write_block d bn buf k x = d x := by
  unfold write_block
  have : ¬ (bn * 512 ≤ x ∧ x < bn * 512 + k) := by omega
  rw [if_neg this]

theorem reset_fbv_bit_apply (d : Disk) (b a : Nat) :
    reset_fbv_bit d b a =
      if 512 ≤ a ∧ a < 1024 then
        (if a - 512 = b / 8 then (d a ^^^ (1 <<< (b % 8))) % 256 else d a)
      else d a := by
  unfold reset_fbv_bit write_block read_block
  by_cases ha : 512 ≤ a ∧ a < 1024
  · have e : 1 * 512 + (a - 1 * 512) = a := by omega
    simp only [Nat.one_mul] at e ⊢
    have ha2 : 512 ≤ a ∧ a < 512 + 512 := by omega
    simp only [ha, ha2, and_self, if_true, e]
  · have ha2 : ¬ (1 * 512 ≤ a ∧ a < 1 * 512 + 512) := by omega
    simp only [ha2, ha, if_false]

theorem testBit_toggle (v i j : Nat) (hj : j < 8) :
    Nat.testBit ((v ^^^ (1 <<< i)) % 256) j = (Nat.testBit v j ^^ decide (i = j)) := by
  have h256 : (256 : Nat) = 2 ^ 8 := by norm_num
  rw [h256, Nat.testBit_mod_two_pow]
  simp only [hj, decide_True, Bool.true_and, Nat.testBit_xor, Nat.testBit_shiftLeft]
  by_cases e : i = j
  · subst e; simp
  · by_cases hle : i ≤ j
    · have : j - i ≠ 0 := by omega
      have hb : Nat.testBit 1 (j - i) = false := by
        rw [Bool.eq_false_iff]
        intro h
        exact this (Nat.testBit_one_eq_true_iff_self_eq_zero.mp h)
      simp [e, hle, hb]
    · simp [e, hle]

theorem fbv_bit_reset_self (d : Disk) (a : Nat) (ha : a < 4096) :
    fbv_bit (reset_fbv_bit d a) a = !fbv_bit d a := by
  unfold fbv_bit
  rw [reset_fbv_bit_apply]
  have h1 : 512 ≤ 512 + a / 8 ∧ 512 + a / 8 < 1024 := by omega
  have h2 : 512 + a / 8 - 512 = a / 8 := by omega
  simp only [h1, and_self, if_true, h2]
  rw [testBit_toggle _ _ _ (Nat.mod_lt _ (by norm_num))]
  simp

theorem fbv_bit_reset_other (d : Disk) (a b : Nat) (hb : b < 4096) (hne : b ≠ a) :
    fbv_bit (reset_fbv_bit d a) b = fbv_bit d b := by
  unfold fbv_bit
  rw [reset_fbv_bit_apply]
  have h1 : 512 ≤ 512 + b / 8 ∧ 512 + b / 8 < 1024 := by omega
  have h2 : 512 + b / 8 - 512 = b / 8 := by omega
  simp only [h1, and_self, if_true, h2]
  split
  · rw [testBit_toggle _ _ _ (Nat.mod_lt _ (by norm_num))]
    have : a % 8 ≠ b % 8 := by omega
    simp [this]
  · rfl

theorem fbv_bit_write_block (d : Disk) (bn : Nat) (buf : Buf) (k b : Nat) (hb : b < 4096)
    (hbn : 2 ≤ bn ∨ (bn = 0 ∧ k ≤ 512)) : fbv_bit (write_block d bn buf k) b = fbv_bit d b := by
  unfold fbv_bit
  rw [write_block_out]
  omega

theorem evolves_refl (d : Disk) : evolves d d :=
  ⟨fun _ _ => rfl, fun _ _ h => h, fun _ _ _ _ _ _ => rfl⟩

theorem evolves_used {d s : Disk} (h : evolves d s) (b : Nat) (hb : b < 4096)
    (hu : fbv_bit d b = false) : fbv_bit s b = false := by
  cases hs : fbv_bit s b with
  | false => rfl
  | true => have := h.2.1 b hb hs; rw [hu] at this; exact absurd this (by simp)

theorem evolves_trans {d s t : Disk} (h1 : evolves d s) (h2 : evolves s t) : evolves d t := by
  refine ⟨?_, ?_, ?_⟩
  · intro x hx; rw [h2.1 x hx, h1.1 x hx]
  · intro b hb ht; exact h1.2.1 b hb (h2.2.1 b hb ht)
  · intro b hb1 hb2 hc o ho
    rcases hc with hu | hf
    · rw [h2.2.2 b hb1 hb2 (Or.inl (evolves_used h1 b hb2 hu)) o ho,
        h1.2.2 b hb1 hb2 (Or.inl hu) o ho]
    · rw [h2.2.2 b hb1 hb2 (Or.inr hf) o ho,
        h1.2.2 b hb1 hb2 (Or.inr (h2.2.1 b hb2 hf)) o ho]

/-- One allocation: the block `a` that the scan returns gets `k` bytes of `buf` and its
bit is toggled. -/
theorem alloc_step (h : Heap) (d : Disk) (m : Nat) (buf : Buf) (k : Nat) (hk : k ≤ 512)
    (hf : has_free d (m + 1)) :
    16 ≤ check_fbv_for_available_block h d ∧ check_fbv_for_available_block h d < 4096 ∧
    fbv_bit d (check_fbv_for_available_block h d) = true ∧
    fbv_bit (reset_fbv_bit (write_block d (check_fbv_for_available_block h d) buf k)
      (check_fbv_for_available_block h d)) (check_fbv_for_available_block h d) = false ∧
    evolves d (reset_fbv_bit (write_block d (check_fbv_for_available_block h d) buf k)
      (check_fbv_for_available_block h d)) ∧
    has_free (reset_fbv_bit (write_block d (check_fbv_for_available_block h d) buf k)
      (check_fbv_for_available_block h d)) m ∧
    (∀ o, o < 512 → reset_fbv_bit (write_block d (check_fbv_for_available_block h d) buf k)
      (check_fbv_for_available_block h d) (check_fbv_for_available_block h d * 512 + o) =
        if o < k then buf o else d (check_fbv_for_available_block h d * 512 + o)) := by
  obtain ⟨l, hnd, hlen, hl⟩ := hf
  obtain ⟨b0, hb0⟩ : ∃ b0, b0 ∈ l := by
    cases l with
    | nil => simp at hlen
    | cons x xs => exact ⟨x, List.mem_cons_self _ _⟩
  obtain ⟨c1, c2, c3, _⟩ := check_fbv_of_free h d b0 (hl b0 hb0).1 (hl b0 hb0).2.1 (hl b0 hb0).2.2
  generalize check_fbv_for_available_block h d = a at *
  have ha : a < 4096 := by have := (hl b0 hb0).2.1; omega
  have hbit : ∀ b, b < 4096 → b ≠ a →
      fbv_bit (reset_fbv_bit (write_block d a buf k) a) b = fbv_bit d b := by
    intro b hb hne
    rw [fbv_bit_reset_other _ _ _ hb hne, fbv_bit_write_block _ _ _ _ _ hb (Or.inl (by omega))]
  have hself : fbv_bit (reset_fbv_bit (write_block d a buf k) a) a = false := by
    rw [fbv_bit_reset_self _ _ ha, fbv_bit_write_block _ _ _ _ _ ha (Or.inl (by omega)), c3]
    rfl
  refine ⟨c1, ha, c3, hself, ⟨?_, ?_, ?_⟩, ?_, ?_⟩
  · intro x hx
    rw [reset_fbv_bit_other _ _ _ (by omega), write_block_out _ _ _ _ _ (by omega)]
  · intro b hb hs
    by_cases e : b = a
    · rw [e, hself] at hs; exact absurd hs (by simp)
    · rw [hbit b hb e] at hs; exact hs
  · intro b hb1 hb2 hc o ho
    have hne : b ≠ a := by
      intro e
      rw [e, c3, hself] at hc
      simp at hc
    rw [reset_fbv_bit_other _ _ _ (by omega), write_block_out _ _ _ _ _ (by omega)]
  · refine ⟨l.erase a, hnd.erase a, ?_, ?_⟩
    · have := List.length_erase_le a l
      have h2 : l.length - 1 ≤ (l.erase a).length := by
        rw [List.length_erase]
        split <;> omega
      omega
    · intro b hb
      have hm := (List.Nodup.mem_erase_iff hnd).mp hb
      have hlb := hl b hm.2
      exact ⟨hlb.1, hlb.2.1, by rw [hbit b hlb.2.1 hm.1]; exact hlb.2.2⟩
  · intro o ho
    rw [reset_fbv_bit_other _ _ _ (by omega)]
    split
    · rename_i hlt; exact write_block_in _ _ _ _ _ hlt
    · exact write_block_out _ _ _ _ _ (by omega)

theorem write_next_spec (h : Heap) (fpin : List Nat) (n m : Nat) (d : Disk) (rem : Nat)
    (hn : n = (fpin.length + 511) / 512) (h1 : 1 ≤ rem) (h2 : rem ≤ n)
    (hf : has_free d (m + 1)) :
    16 ≤ (write_next_data_block h d rem fpin.length fpin ((n - rem) * 512)).2.1 ∧
    (write_next_data_block h d rem fpin.length fpin ((n - rem) * 512)).2.1 < 4096 ∧
    fbv_bit d (write_next_data_block h d rem fpin.length fpin ((n - rem) * 512)).2.1 = true ∧
    fbv_bit (write_next_data_block h d rem fpin.length fpin ((n - rem) * 512)).1
      (write_next_data_block h d rem fpin.length fpin ((n - rem) * 512)).2.1 = false ∧
    evolves d (write_next_data_block h d rem fpin.length fpin ((n - rem) * 512)).1 ∧
    has_free (write_next_data_block h d rem fpin.length fpin ((n - rem) * 512)).1 m ∧
    (∀ o, o < 512 →
      (write_next_data_block h d rem fpin.length fpin ((n - rem) * 512)).1
        ((write_next_data_block h d rem fpin.length fpin ((n - rem) * 512)).2.1 * 512 + o) =
      if (n - rem) * 512 + o < fpin.length then fpin.getD ((n - rem) * 512 + o) 0
      else d ((write_next_data_block h d rem fpin.length fpin ((n - rem) * 512)).2.1 * 512 + o)) ∧
    (write_next_data_block h d rem fpin.length fpin ((n - rem) * 512)).2.2 =
      (if rem = 1 then fpin.length else (n - (rem - 1)) * 512) := by
  unfold write_next_data_block
  by_cases hc : rem = 1 ∧ fpin.length % 512 ≠ 0
  · rw [if_pos hc]
    unfold create_and_write_data_block_from_file
    simp only
    obtain ⟨a1, a2, a3, a4, a5, a6, a7⟩ := alloc_step h d m
      (fun o => if o < fpin.length % 512 then fpin.getD ((n - rem) * 512 + o) 0 else 0)
      (fpin.length % 512) (by omega) hf
    refine ⟨a1, a2, a3, a4, a5, a6, ?_, ?_⟩
    · intro o ho
      rw [a7 o ho]
      have e : o < fpin.length % 512 ↔ (n - rem) * 512 + o < fpin.length := by omega
      by_cases hlt : o < fpin.length % 512
      · rw [if_pos hlt, if_pos (e.mp hlt)]
        simp only [hlt, if_true]
      · rw [if_neg hlt, if_neg (fun x => hlt (e.mpr x))]
    · rw [if_pos hc.1]
      omega
  · rw [if_neg hc]
    unfold create_and_write_data_block_from_file
    simp only
    obtain ⟨a1, a2, a3, a4, a5, a6, a7⟩ := alloc_step h d m
      (fun o => if o < 512 then fpin.getD ((n - rem) * 512 + o) 0 else 0) 512 (by omega) hf
    refine ⟨a1, a2, a3, a4, a5, a6, ?_, ?_⟩
    · intro o ho
      rw [a7 o ho]
      have e : (n - rem) * 512 + o < fpin.length := by omega
      rw [if_pos ho, if_pos e]
      simp only [ho, if_true]
    · split <;> omega

theorem u16_set_u16 (b : Buf) (i v : Nat) (hv : v < 65536) : u16 (set_u16 b i v) i = v := by
  unfold u16 set_u16
  have h1 : ¬ (2 * i + 1 = 2 * i) := by omega
  simp only [if_true, h1, if_false]
  omega

theorem set_u16_other (b : Buf) (i v o : Nat) (h1 : o ≠ 2 * i) (h2 : o ≠ 2 * i + 1) :
    set_u16 b i v o = b o := by
  unfold set_u16
  simp only [h1, h2, if_false]

theorem u16_congr (b c : Buf) (i : Nat) (h1 : b (2 * i) = c (2 * i))
    (h2 : b (2 * i + 1) = c (2 * i + 1)) : u16 b i = u16 c i := by
  unfold u16
  rw [h1, h2]

theorem run_ok_nil (fpin : List Nat) (d : Disk) (buf : Buf) (k J : Nat) :
    run_ok fpin d d buf buf k 0 J :=
  ⟨evolves_refl d, fun _ _ => rfl, fun j hj => absurd hj (Nat.not_lt_zero j)⟩

theorem run_ok_cons (fpin : List Nat) (d s1 s : Disk) (buf buf1 : Buf) (k c J a k1 J1 : Nat)
    (hk1 : k1 = k + 1) (hJ1 : J1 = J + 1) (ha1 : 16 ≤ a) (ha2 : a < 4096) (hfree : fbv_bit d a = true) (hused : fbv_bit s1 a = false)
    (hev : evolves d s1)
    (hcont : ∀ o, o < 512 → s1 (a * 512 + o) =
      if J * 512 + o < fpin.length then fpin.getD (J * 512 + o) 0 else d (a * 512 + o))
    (hrest : run_ok fpin s1 s (set_u16 buf k a) buf1 k1 c J1) :
    run_ok fpin d s buf buf1 k (c + 1) J := by
  subst hk1
  subst hJ1
  obtain ⟨r1, r2, r3⟩ := hrest
  refine ⟨evolves_trans hev r1, ?_, ?_⟩
  · intro o ho
    rw [r2 o (by omega), set_u16_other _ _ _ _ (by omega) (by omega)]
  · intro j hj
    by_cases hj0 : j = 0
    · subst hj0
      have e : u16 buf1 (k + 0) = a := by
        rw [Nat.add_zero, u16_congr buf1 (set_u16 buf k a) k (r2 _ (by omega)) (r2 _ (by omega)),
          u16_set_u16 _ _ _ (by omega)]
      rw [e]
      refine ⟨ha1, ha2, hfree, evolves_used r1 a ha2 hused, ?_⟩
      intro o ho
      rw [r1.2.2 a ha1 ha2 (Or.inl hused) o ho, hcont o ho, Nat.add_zero]
    · obtain ⟨t1, t2, t3, t4, t5⟩ := r3 (j - 1) (by omega)
      have e : k + 1 + (j - 1) = k + j := by omega
      have e2 : J + 1 + (j - 1) = J + j := by omega
      rw [e] at t1 t2 t3 t4 t5
      rw [e2] at t5
      refine ⟨t1, t2, hev.2.1 _ t2 t3, t4, ?_⟩
      intro o ho
      rw [t5 o ho, hev.2.2 _ t1 t2 (Or.inr t3) o ho]

theorem direct_loop_spec (h : Heap) (fpin : List Nat) (n m : Nat)
    (hn : n = (fpin.length + 511) / 512) (hlt : n < 65536) :
    ∀ (fuel i : Nat) (d : Disk) (buf : Buf) (rem : Nat), 1 ≤ rem → rem ≤ n →
      has_free d (min rem fuel + m) →
      run_ok fpin d (direct_loop h fpin.length fpin fuel i d buf rem ((n - rem) * 512)).1 buf
        (direct_loop h fpin.length fpin fuel i d buf rem ((n - rem) * 512)).2.1 (4 + i)
        (min rem fuel) (n - rem) ∧
      has_free (direct_loop h fpin.length fpin fuel i d buf rem ((n - rem) * 512)).1 m ∧
      (direct_loop h fpin.length fpin fuel i d buf rem ((n - rem) * 512)).2.2.1
        = rem - min rem fuel ∧
      (direct_loop h fpin.length fpin fuel i d buf rem ((n - rem) * 512)).2.2.2
        = (if rem ≤ fuel then fpin.length else (n - (rem - fuel)) * 512) := by
  intro fuel
  induction fuel with
  | zero =>
    intro i d buf rem h1 h2 hf
    rw [direct_loop]
    have e : min rem 0 = 0 := by omega
    rw [e] at hf ⊢
    have hle : ¬ rem ≤ 0 := by omega
    refine ⟨run_ok_nil _ _ _ _ _, by simpa using hf, by simp, by simp [hle]⟩
  | succ f ih =>
    intro i d buf rem h1 h2 hf
    rw [direct_loop]
    have hm : min rem (f + 1) + m = (min (rem - 1) f + m) + 1 := by omega
    rw [hm] at hf
    obtain ⟨a1, a2, a3, a4, a5, a6, a7, a8⟩ :=
      write_next_spec h fpin n (min (rem - 1) f + m) d rem hn h1 h2 hf
    have hr : (rem + 65535) % 65536 = rem - 1 := by omega
    simp only [hr]
    generalize write_next_data_block h d rem fpin.length fpin ((n - rem) * 512) = r at *
    by_cases hone : rem - 1 = 0
    · rw [if_pos hone]
      have hrem : rem = 1 := by omega
      have hc : min rem (f + 1) = 0 + 1 := by omega
      have hm0 : min (rem - 1) f + m = m := by omega
      rw [hm0] at a6
      rw [hc]
      refine ⟨run_ok_cons fpin d _ _ buf _ (4 + i) 0 (n - rem) _ _ _ rfl rfl a1 a2 a3 a4 a5 a7
        (run_ok_nil _ _ _ _ _), a6, ?_, ?_⟩
      · show rem - 1 = rem - (0 + 1)
        omega
      · show r.2.2 = _
        rw [a8, if_pos hrem, if_pos (by omega)]
    · rw [if_neg hone]
      rw [a8, if_neg (by omega)]
      have e4 : 4 + (i + 1) = 4 + i + 1 := by omega
      obtain ⟨b1, b2, b3, b4⟩ := ih (i + 1) r.1 (set_u16 buf (4 + i) r.2.1)
        (rem - 1) (by omega) (by omega) a6
      have hc : min rem (f + 1) = min (rem - 1) f + 1 := by omega
      have hJ : n - (rem - 1) = n - rem + 1 := by omega
      rw [hc]
      refine ⟨run_ok_cons fpin d _ _ buf _ (4 + i) _ (n - rem) _ _ _ e4 hJ a1 a2 a3 a4 a5 a7 b1,
        b2, ?_, ?_⟩
      · rw [b3]; omega
      · rw [b4]
        by_cases hle : rem ≤ f + 1
        · rw [if_pos hle, if_pos (by omega)]
        · rw [if_neg hle, if_neg (by omega)]
          have : rem - 1 - f = rem - (f + 1) := by omega
          rw [this]

theorem fill_single_loop_spec (h : Heap) (fpin : List Nat) (n m sblk : Nat)
    (hn : n = (fpin.length + 511) / 512) (hlt : n < 65536) :
    ∀ (fuel k : Nat) (d : Disk) (buf : Buf) (rem : Nat), 1 ≤ rem → rem ≤ n →
      has_free d (min rem fuel + m) →
      ∃ (s : Disk) (buf1 : Buf),
        run_ok fpin d s buf buf1 k (min rem fuel) (n - rem) ∧ has_free s m ∧
        (fill_single_loop h sblk fpin.length fpin fuel k d buf rem ((n - rem) * 512)).1
          = (if rem ≤ fuel then write_block s sblk buf1 512 else s) ∧
        (fill_single_loop h sblk fpin.length fpin fuel k d buf rem ((n - rem) * 512)).2.1
          = rem - min rem fuel ∧
        (fill_single_loop h sblk fpin.length fpin fuel k d buf rem ((n - rem) * 512)).2.2
          = (if rem ≤ fuel then fpin.length else (n - (rem - fuel)) * 512) := by
  intro fuel
  induction fuel with
  | zero =>
    intro k d buf rem h1 h2 hf
    rw [fill_single_loop]
    have e : min rem 0 = 0 := by omega
    rw [e] at hf ⊢
    have hle : ¬ rem ≤ 0 := by omega
    exact ⟨d, buf, run_ok_nil _ _ _ _ _, by simpa using hf, by simp [hle], by simp, by simp [hle]⟩
  | succ f ih =>
    intro k d buf rem h1 h2 hf
    rw [fill_single_loop]
    have hm : min rem (f + 1) + m = (min (rem - 1) f + m) + 1 := by omega
    rw [hm] at hf
    obtain ⟨a1, a2, a3, a4, a5, a6, a7, a8⟩ :=
      write_next_spec h fpin n (min (rem - 1) f + m) d rem hn h1 h2 hf
    have hr : (rem + 65535) % 65536 = rem - 1 := by omega
    simp only [hr]
    generalize write_next_data_block h d rem fpin.length fpin ((n - rem) * 512) = r at *
    by_cases hone : rem - 1 = 0
    · rw [if_pos hone]
      have hrem : rem = 1 := by omega
      have hc : min rem (f + 1) = 0 + 1 := by omega
      have hm0 : min (rem - 1) f + m = m := by omega
      rw [hm0] at a6
      rw [hc]
      refine ⟨r.1, set_u16 buf k r.2.1,
        run_ok_cons fpin d _ _ buf _ k 0 (n - rem) _ _ _ rfl rfl a1 a2 a3 a4 a5 a7
          (run_ok_nil _ _ _ _ _), a6, ?_, ?_, ?_⟩
      · rw [if_pos (by omega)]
      · show rem - 1 = rem - (0 + 1)
        omega
      · show r.2.2 = _
        rw [a8, if_pos hrem, if_pos (by omega)]
    · rw [if_neg hone]
      rw [a8, if_neg (by omega)]
      obtain ⟨s, buf1, b1, b2, b3, b4, b5⟩ := ih (k + 1) r.1 (set_u16 buf k r.2.1)
        (rem - 1) (by omega) (by omega) a6
      have hc : min rem (f + 1) = min (rem - 1) f + 1 := by omega
      have hJ : n - (rem - 1) = n - rem + 1 := by omega
      rw [hc]
      refine ⟨s, buf1,
        run_ok_cons fpin d _ _ buf _ k _ (n - rem) _ _ _ rfl hJ a1 a2 a3 a4 a5 a7 b1, b2, ?_, ?_, ?_⟩
      · rw [b3]
        by_cases hle : rem ≤ f + 1
        · rw [if_pos hle, if_pos (by omega)]
        · rw [if_neg hle, if_neg (by omega)]
      · rw [b4]; omega
      · rw [b5]
        by_cases hle : rem ≤ f + 1
        · rw [if_pos hle, if_pos (by omega)]
        · rw [if_neg hle, if_neg (by omega)]
          have : rem - 1 - f = rem - (f + 1) := by omega
          rw [this]

theorem find_directory_slot_bound (data : Buf) (i0 : Nat) (h0 : data (i0 * 32 + 1) % 256 = 0)
    (hi0 : i0 < 512) :
    ∀ (fuel i : Nat), i ≤ i0 → i0 - i < fuel →
      ∃ j, find_directory_slot data fuel i = some j ∧ i ≤ j ∧ j ≤ i0 ∧
        data (j * 32 + 1) % 256 = 0 ∧ ∀ t, i ≤ t → t < j → data (t * 32 + 1) % 256 ≠ 0 := by
  intro fuel
  induction fuel with
  | zero => intro i _ h2; omega
  | succ f ih =>
    intro i h1 h2
    rw [find_directory_slot]
    by_cases hz : data (i * 32 + 1) % 256 = 0
    · simp only [hz, ne_eq, not_true_eq_false, if_false]
      exact ⟨i, rfl, le_refl _, h1, hz, fun t ht1 ht2 => by omega⟩
    · have hne : i ≠ i0 := by intro e; rw [e] at hz; exact hz h0
      have hgt : ¬ (i + 1 > 512) := by omega
      simp only [hz, ne_eq, not_false_eq_true, if_true, hgt, if_false]
      obtain ⟨j, c1, c2, c3, c4, c5⟩ := ih (i + 1) (by omega) (by omega)
      refine ⟨j, c1, by omega, c3, c4, ?_⟩
      intro t ht1 ht2
      by_cases e : t = i
      · rw [e]; exact hz
      · exact c5 t (by omega) ht2

theorem copy_file_name_len (name : List Nat) (base : Nat) :
    ∀ (fuel j : Nat) (data : Buf),
      (copy_file_name name base fuel j data).2 ≤ max j name.length := by
  intro fuel
  induction fuel with
  | zero => intro j data; simp [copy_file_name]
  | succ f ih =>
    intro j data
    rw [copy_file_name]
    by_cases hz : name.getD j 0 % 256 = 0
    · rw [if_pos hz]
      exact Nat.le_max_left _ _
    · have hj : j < name.length := by
        by_contra hc
        have : name.getD j 0 = 0 := by
          rw [List.getD_eq_default]
          omega
        rw [this] at hz
        exact hz rfl
      rw [if_neg hz]
      split
      · exact Nat.le_max_left _ _
      · have h1 := ih (j + 1) (set_byte data (base + j) (name.getD j 0))
        have h2 : max (j + 1) name.length ≤ max j name.length := by omega
        exact le_trans h1 h2

theorem add_element_frame (h : Heap) (s : Disk) (p e : Nat) (name : List Nat) (dd i0 : Nat)
    (hdd : u16 (read_block s (get_inode_address h s p)) 4 = dd)
    (hi0 : i0 < 16) (hz : s (dd * 512 + (i0 * 32 + 1)) % 256 = 0) (hname : name.length ≤ 31) :
    ∀ x, x < dd * 512 ∨ dd * 512 + 512 ≤ x → add_element_to_directory h s p e name x = s x := by
  intro x hx
  unfold add_element_to_directory
  simp only
  rw [hdd]
  have hz2 : read_block_heap h s dd (i0 * 32 + 1) % 256 = 0 := by
    rw [read_block_heap_low _ _ _ _ (by omega)]; exact hz
  obtain ⟨j, c1, _, c3, _, _⟩ :=
    find_directory_slot_bound (read_block_heap h s dd) i0 hz2 (by omega) 513 0 (by omega) (by omega)
  rw [c1]
  simp only
  have hl := copy_file_name_len name (j * 32 + 1) 34 0
    (set_byte (read_block_heap h s dd) (j * 32) e)
  rw [write_block_out]
  have : max 0 name.length = name.length := by omega
  rw [this] at hl
  omega

theorem dir_at_evolves {d s : Disk} {p pa dd : Nat} (hev : evolves d s) (hd : dir_at d p pa dd) :
    dir_at s p pa dd := by
  obtain ⟨h1, h2, h3, h4, h5, h6, h7, h8, h9, i, hi, hz⟩ := hd
  have hpa := hev.2.2 pa h3 h4 (Or.inl h5)
  have hdd := hev.2.2 dd h7 h8 (Or.inl h9)
  refine ⟨h1, ?_, h3, h4, evolves_used hev pa h4 h5, ?_, h7, h8, evolves_used hev dd h8 h9,
    i, hi, ?_⟩
  · rw [← h2]
    unfold inode_map_entry
    apply u16_congr
    · simp only [read_block]; exact hev.1 _ (by omega)
    · simp only [read_block]; exact hev.1 _ (by omega)
  · rw [← h6]
    apply u16_congr
    · simp only [read_block]; exact hpa _ (by omega)
    · simp only [read_block]; exact hpa _ (by omega)
  · rw [hdd _ (by omega)]; exact hz

theorem assign_apply (d : Disk) (ia id x : Nat) :
    assign_location_to_inode_map d ia id x =
      if x = 1024 + id % 256 * 2 then ia % 256 else d x := by
  unfold assign_location_to_inode_map write_block set_byte read_block
  by_cases hx : 2 * 512 ≤ x ∧ x < 2 * 512 + 512
  · rw [if_pos hx]
    by_cases e : x = 1024 + id % 256 * 2
    · rw [if_pos e, if_pos (by omega)]
    · rw [if_neg e, if_neg (by omega)]
      have e2 : 2 * 512 + (x - 2 * 512) = x := by omega
      rw [e2]
  · rw [if_neg hx, if_neg (by omega)]

theorem fbv_bit_assign (d : Disk) (ia id b : Nat) (hb : b < 4096) :
    fbv_bit (assign_location_to_inode_map d ia id) b = fbv_bit d b := by
  unfold fbv_bit
  rw [assign_apply, if_neg (by omega)]

theorem has_free_assign {d : Disk} {m : Nat} (ia id : Nat) (hf : has_free d m) :
    has_free (assign_location_to_inode_map d ia id) m := by
  obtain ⟨l, h1, h2, h3⟩ := hf
  refine ⟨l, h1, h2, ?_⟩
  intro b hb
  have := h3 b hb
  exact ⟨this.1, this.2.1, by rw [fbv_bit_assign _ _ _ _ this.2.1]; exact this.2.2⟩

theorem dir_at_assign {d : Disk} {p pa dd : Nat} (ia id : Nat) (hne : p % 256 ≠ id % 256)
    (hd : dir_at d p pa dd) : dir_at (assign_location_to_inode_map d ia id) p pa dd := by
  obtain ⟨h1, h2, h3, h4, h5, h6, h7, h8, h9, i, hi, hz⟩ := hd
  refine ⟨h1, ?_, h3, h4, by rw [fbv_bit_assign _ _ _ _ h4]; exact h5, ?_, h7, h8,
    by rw [fbv_bit_assign _ _ _ _ h8]; exact h9, i, hi, ?_⟩
  · rw [← h2]
    unfold inode_map_entry
    apply u16_congr
    · simp only [read_block]; rw [assign_apply, if_neg (by omega)]
    · simp only [read_block]; rw [assign_apply, if_neg (by omega)]
  · rw [← h6]
    apply u16_congr
    · simp only [read_block]; rw [assign_apply, if_neg (by omega)]
    · simp only [read_block]; rw [assign_apply, if_neg (by omega)]
  · rw [assign_apply, if_neg (by omega)]; exact hz

theorem find_next_free_spec {d : Disk} {id : Nat} (h : find_next_free_inode_id d = some id) :
    id < 256 ∧ inode_map_entry d id = 0 ∧ ∀ j, j < id → inode_map_entry d j ≠ 0 := by
  unfold find_next_free_inode_id at h
  obtain ⟨h1, h2, h3⟩ := find_range_spec _ 256 id h
  refine ⟨h1, by simpa using h2, ?_⟩
  intro j hj
  have := h3 j hj
  simpa using this

theorem create_file_direct (h : Heap) (d : Disk) (p : Nat) (name fpin : List Nat) (id : Nat)
    (s1 : Disk) (ia : Nat) (r3 : Disk × Buf × Nat × Nat)
    (hid : find_next_free_inode_id d = some id)
    (h1 : create_empty_inode h d id fpin.length 102 = (s1, ia))
    (h3 : direct_loop h fpin.length fpin 10 0 (assign_location_to_inode_map s1 ia id)
      (read_block s1 ia) (num_blocks fpin.length) 0 = r3)
    (hrem : r3.2.2.1 = 0) :
    create_file_in_directory h d p name fpin =
      write_block (add_element_to_directory h r3.1 p id name) ia r3.2.1 33 := by
  unfold create_file_in_directory
  rw [hid]
  dsimp only
  rw [h1]
  dsimp only
  unfold num_blocks at h3
  rw [h3, if_pos hrem]

theorem create_file_single (h : Heap) (d : Disk) (p : Nat) (name fpin : List Nat) (id : Nat)
    (s1 : Disk) (ia : Nat) (r3 : Disk × Buf × Nat × Nat) (s4 : Disk) (sa : Nat)
    (r5 : Disk × Nat × Nat)
    (hid : find_next_free_inode_id d = some id)
    (h1 : create_empty_inode h d id fpin.length 102 = (s1, ia))
    (h3 : direct_loop h fpin.length fpin 10 0 (assign_location_to_inode_map s1 ia id)
      (read_block s1 ia) (num_blocks fpin.length) 0 = r3)
    (h4 : create_indirection_block h r3.1 = (s4, sa))
    (h5 : fill_single_indirection_block h s4 sa r3.2.2.1 fpin.length fpin r3.2.2.2 = r5)
    (hrem : r3.2.2.1 ≠ 0) (hrem5 : r5.2.1 = 0) :
    create_file_in_directory h d p name fpin =
      write_block (add_element_to_directory h r5.1 p id name) ia (set_u16 r3.2.1 14 sa) 33 := by
  unfold create_file_in_directory
  rw [hid]
  dsimp only
  rw [h1]
  dsimp only
  unfold num_blocks at h3
  rw [h3, if_neg hrem, h4]
  dsimp only
  rw [h5]
  have : ¬ (r5.2.1 ≠ 0) := by simp [hrem5]
  rw [if_neg this]

theorem create_file_double (h : Heap) (d : Disk) (p : Nat) (name fpin : List Nat) (id : Nat)
    (s1 : Disk) (ia : Nat) (r3 : Disk × Buf × Nat × Nat) (s4 : Disk) (sa : Nat)
    (r5 : Disk × Nat × Nat) (s7 : Disk) (da : Nat) (r6 : Disk × Buf × Nat × Nat)
    (hid : find_next_free_inode_id d = some id)
    (h1 : create_empty_inode h d id fpin.length 102 = (s1, ia))
    (h3 : direct_loop h fpin.length fpin 10 0 (assign_location_to_inode_map s1 ia id)
      (read_block s1 ia) (num_blocks fpin.length) 0 = r3)
    (h4 : create_indirection_block h r3.1 = (s4, sa))
    (h5 : fill_single_indirection_block h s4 sa r3.2.2.1 fpin.length fpin r3.2.2.2 = r5)
    (h7 : create_indirection_block h r5.1 = (s7, da))
    (h6 : double_indirection_loop h fpin.length fpin da 256 0 s7 zero_block
      (set_u16 r3.2.1 14 sa) r5.2.1 r5.2.2 = r6)
    (hrem : r3.2.2.1 ≠ 0) (hrem5 : r5.2.1 ≠ 0) :
    create_file_in_directory h d p name fpin =
      write_block (add_element_to_directory h r6.1 p id name) ia r6.2.1 33 := by
  unfold create_file_in_directory
  rw [hid]
  dsimp only
  rw [h1]
  dsimp only
  unfold num_blocks at h3
  rw [h3, if_neg hrem, h4]
  dsimp only
  rw [h5, if_pos hrem5, h7]
  dsimp only
  rw [h6]

theorem blank_vdisk_apply (d : Disk) (x : Nat) :
    blank_vdisk d x =
      if x < 512 then 0 else if x < 514 then 0 else if x < 1024 then 255
      else if x < 4096 * 512 then 0 else d x := by
  unfold blank_vdisk write_block
  dsimp only
  split_ifs <;> first | rfl | (exfalso; omega)

theorem testBit_255 (j : Nat) (hj : j < 8) : Nat.testBit 255 j = true := by
  interval_cases j <;> decide

theorem fbv_bit_blank_vdisk (d : Disk) (b : Nat) (hb : b < 4096) :
    fbv_bit (blank_vdisk d) b = decide (16 ≤ b) := by
  unfold fbv_bit
  rw [blank_vdisk_apply, if_neg (by omega)]
  by_cases h : b < 16
  · rw [if_pos (by omega)]
    simp [h]
  · rw [if_neg (by omega), if_pos (by omega), testBit_255 _ (Nat.mod_lt _ (by norm_num))]
    simp
    omega

theorem find_next_free_blank (d : Disk) : find_next_free_inode_id (blank_vdisk d) = some 0 := by
  unfold find_next_free_inode_id
  have h0 : inode_map_entry (blank_vdisk d) 0 = 0 := by
    unfold inode_map_entry u16 read_block
    rw [blank_vdisk_apply, blank_vdisk_apply]
    simp
  rw [List.range_succ_eq_map, List.find?_cons_of_pos]
  simpa using h0

theorem init_vdisk_eq (h : Heap) (d : Disk) :
    init_vdisk h d = create_directory_from_inode h (blank_vdisk d) 255 [] := rfl

theorem check_fbv_blank (h : Heap) (d : Disk) :
    check_fbv_for_available_block h (blank_vdisk d) = 16 := by
  have := check_fbv_of_free h (blank_vdisk d) 16 (by norm_num) (by norm_num)
    (by rw [fbv_bit_blank_vdisk _ _ (by norm_num)]; decide)
  omega

theorem check_fbv_after_16 (h : Heap) (d : Disk) (buf : Buf) :
    check_fbv_for_available_block h
      (reset_fbv_bit (write_block (blank_vdisk d) 16 buf 512) 16) = 17 := by
  have h16 : fbv_bit (reset_fbv_bit (write_block (blank_vdisk d) 16 buf 512) 16) 16 = false := by
    rw [fbv_bit_reset_self _ _ (by norm_num), fbv_bit_write_block _ _ _ _ _ (by norm_num)
      (Or.inl (by norm_num)), fbv_bit_blank_vdisk _ _ (by norm_num)]
    decide
  have h17 : fbv_bit (reset_fbv_bit (write_block (blank_vdisk d) 16 buf 512) 16) 17 = true := by
    rw [fbv_bit_reset_other _ _ _ (by norm_num) (by norm_num),
      fbv_bit_write_block _ _ _ _ _ (by norm_num) (Or.inl (by norm_num)),
      fbv_bit_blank_vdisk _ _ (by norm_num)]
    decide
  obtain ⟨c1, c2, c3, _⟩ := check_fbv_of_free h _ 17 (by norm_num) (by norm_num) h17
  generalize check_fbv_for_available_block h
    (reset_fbv_bit (write_block (blank_vdisk d) 16 buf 512) 16) = a at *
  have : a ≠ 16 := by
    intro e; rw [e, h16] at c3; exact absurd c3 (by simp)
  omega

theorem add_element_root_parent (h : Heap) (s : Disk) (e : Nat)
    (h2 : h (-2) % 256 = 0) (h1 : h (-1) % 256 = 0)
    (hs : ∀ x, x < 512 → s x = 0) :
    ∀ x, add_element_to_directory h s 255 e [] x = if x = 0 then e % 256 else s x := by
  intro x
  unfold add_element_to_directory
  have hg : get_inode_address h s 255 = 0 := by
    unfold get_inode_address
    norm_num
    exact ⟨h2, h1⟩
  simp only [hg]
  have hdd : u16 (read_block s 0) 4 = 0 := by
    unfold u16 read_block
    rw [hs _ (by norm_num), hs _ (by norm_num)]
  rw [hdd]
  have hslot : find_directory_slot (read_block_heap h s 0) 513 0 = some 0 := by
    rw [find_directory_slot]
    have : read_block_heap h s 0 (0 * 32 + 1) % 256 = 0 := by
      rw [read_block_heap_low _ _ _ _ (by norm_num), hs _ (by norm_num)]
    rw [if_neg (by simp [this])]
  rw [hslot]
  simp only [copy_file_name, List.getD_nil, Nat.zero_mod, if_true]
  unfold write_block set_byte
  by_cases hx : x = 0
  · subst hx; simp
  · rw [if_neg (by omega), if_neg hx]

theorem byte_toggle_16 : (255 ^^^ 1 <<< (16 % 8)) % 256 = 254 := by decide
theorem byte_toggle_17 : (254 ^^^ 1 <<< (17 % 8)) % 256 = 252 := by decide

theorem init_vdisk_apply (h : Heap) (d : Disk) (h2 : h (-2) % 256 = 0) (h1 : h (-1) % 256 = 0)
    (x : Nat) : init_vdisk h d x = if x < 4096 * 512 then formatted x else d x := by
  rw [init_vdisk_eq]
  unfold create_directory_from_inode
  rw [find_next_free_blank]
  dsimp only
  unfold create_directory_block create_empty_inode
  dsimp only
  rw [check_fbv_blank, check_fbv_after_16]
  have hlow : ∀ y, y < 512 →
      write_block
        (assign_location_to_inode_map
          (reset_fbv_bit
            (write_block
              (reset_fbv_bit (write_block (blank_vdisk d) 16 (directory_record 255 0) 512) 16) 17
              (inode_record 0 512 100) 33) 17) 17 0) 17
        (set_u16
          (read_block
            (assign_location_to_inode_map
              (reset_fbv_bit
                (write_block
                  (reset_fbv_bit (write_block (blank_vdisk d) 16 (directory_record 255 0) 512) 16)
                  17 (inode_record 0 512 100) 33) 17) 17 0) 17) 4 16) 10 y = 0 := by
    intro y hy
    rw [write_block_out _ _ _ _ _ (by omega), assign_apply, if_neg (by omega),
      reset_fbv_bit_other _ _ _ (by omega), write_block_out _ _ _ _ _ (by omega),
      reset_fbv_bit_other _ _ _ (by omega), write_block_out _ _ _ _ _ (by omega),
      blank_vdisk_apply, if_pos hy]
  rw [add_element_root_parent h _ 0 h2 h1 hlow x]
  by_cases hx0 : x = 0
  · subst hx0
    simp [formatted]
  rw [if_neg hx0]
  by_cases ha : x < 512
  · rw [hlow x ha, if_pos (by omega)]
    unfold formatted
    rw [if_pos (by omega)]
  by_cases hb : x < 1024
  · have hB : blank_vdisk d x = if x < 514 then 0 else 255 := by
      rw [blank_vdisk_apply, if_neg ha]
      split_ifs <;> first | (exfalso; omega) | norm_num
    have hin : reset_fbv_bit (write_block (blank_vdisk d) 16 (directory_record 255 0) 512) 16 x
        = if x < 514 then 0 else if x = 514 then 254 else 255 := by
      rw [reset_fbv_bit_apply, if_pos ⟨by omega, hb⟩, write_block_out _ _ _ _ _ (by omega), hB]
      by_cases h514 : x = 514
      · subst h514; decide
      · rw [if_neg (by omega)]
        split_ifs <;> first | (exfalso; omega) | norm_num
    rw [write_block_out _ _ _ _ _ (by omega), assign_apply, if_neg (by omega),
      reset_fbv_bit_apply, if_pos ⟨by omega, hb⟩, write_block_out _ _ _ _ _ (by omega), hin]
    unfold formatted
    by_cases h514 : x = 514
    · subst h514; norm_num; decide
    · rw [if_neg (by omega)]
      split_ifs <;> first | (exfalso; omega) | norm_num
  by_cases hc : x < 16 * 512
  · rw [write_block_out _ _ _ _ _ (by omega), assign_apply,
      reset_fbv_bit_other _ _ _ (by omega), write_block_out _ _ _ _ _ (by omega),
      reset_fbv_bit_other _ _ _ (by omega), write_block_out _ _ _ _ _ (by omega),
      blank_vdisk_apply]
    unfold formatted
    split_ifs <;> first | (exfalso; omega) | norm_num
  by_cases hd : x < 17 * 512
  · rw [write_block_out _ _ _ _ _ (by omega), assign_apply, if_neg (by omega),
      reset_fbv_bit_other _ _ _ (by omega), write_block_out _ _ _ _ _ (by omega),
      reset_fbv_bit_other _ _ _ (by omega)]
    unfold formatted write_block
    split_ifs <;> first | (exfalso; omega) | norm_num
  by_cases he : x < 17 * 512 + 33
  · obtain ⟨o, rfl⟩ : ∃ o, x = 17 * 512 + o := ⟨x - 17 * 512, by omega⟩
    have ho : o < 33 := by omega
    have hr : ∀ t, t < 33 →
        assign_location_to_inode_map
          (reset_fbv_bit
            (write_block
              (reset_fbv_bit (write_block (blank_vdisk d) 16 (directory_record 255 0) 512) 16) 17
              (inode_record 0 512 100) 33) 17) 17 0 (17 * 512 + t) = inode_record 0 512 100 t := by
      intro t ht
      rw [assign_apply, if_neg (by omega), reset_fbv_bit_other _ _ _ (by omega),
        write_block_in _ _ _ _ _ ht]
    have hf : formatted (17 * 512 + o) = set_u16 (inode_record 0 512 100) 4 16 o := by
      unfold formatted
      rw [if_neg (by omega), if_neg (by omega), if_neg (by omega), if_neg (by omega),
        if_neg (by omega), if_pos (by omega)]
      have e : 17 * 512 + o - 17 * 512 = o := by omega
      rw [e]
    rw [if_pos (by omega), hf]
    by_cases h10 : o < 10
    · rw [write_block_in _ _ _ _ _ h10]
      unfold set_u16 read_block
      split_ifs <;> first | rfl | exact hr o ho
    · rw [write_block_out _ _ _ _ _ (by omega), hr o ho, set_u16_other _ _ _ _ (by omega) (by omega)]
  · rw [write_block_out _ _ _ _ _ (by omega), assign_apply, if_neg (by omega),
      reset_fbv_bit_other _ _ _ (by omega), write_block_out _ _ _ _ _ (by omega),
      reset_fbv_bit_other _ _ _ (by omega), write_block_out _ _ _ _ _ (by omega),
      blank_vdisk_apply]
    unfold formatted
    split_ifs <;> first | (exfalso; omega) | norm_num

theorem inode_record_size (id size : Nat) (hs : size < 4294967296) :
    inode_record id size 102 0 + 256 * inode_record id size 102 1 +
      65536 * inode_record id size 102 2 + 16777216 * inode_record id size 102 3 = size := by
  unfold inode_record
  simp only [show (0:Nat) < 4 from by norm_num, show (1:Nat) < 4 from by norm_num,
    show (2:Nat) < 4 from by norm_num, show (3:Nat) < 4 from by norm_num, if_true]
  norm_num
  omega

theorem inode_record_zero (id size type o : Nat) (h1 : 8 ≤ o) (h2 : o < 32) :
    inode_record id size type o = 0 := by
  unfold inode_record
  rw [if_neg (by omega), if_neg (by omega), if_neg (by omega)]

theorem create_file_small (h : Heap) (d : Disk) (p : Nat) (name fpin : List Nat)
    (id n pa dd : Nat)
    (hid : find_next_free_inode_id d = some id)
    (hn : n = (fpin.length + 511) / 512) (h1 : 1 ≤ n) (h10 : n ≤ 10)
    (hfree : has_free d (n + 1)) (hblank : free_blocks_blank d)
    (hdir : dir_at d p pa dd) (hname : name.length ≤ 31) :
    16 ≤ check_fbv_for_available_block h d ∧ check_fbv_for_available_block h d < 4096 ∧
    read_block (create_file_in_directory h d p name fpin)
        (check_fbv_for_available_block h d) 0 +
      256 * read_block (create_file_in_directory h d p name fpin)
        (check_fbv_for_available_block h d) 1 +
      65536 * read_block (create_file_in_directory h d p name fpin)
        (check_fbv_for_available_block h d) 2 +
      16777216 * read_block (create_file_in_directory h d p name fpin)
        (check_fbv_for_available_block h d) 3 = fpin.length ∧
    read_block (create_file_in_directory h d p name fpin)
      (check_fbv_for_available_block h d) 4 = 102 ∧
    (∀ j, j < n →
      16 ≤ u16 (read_block (create_file_in_directory h d p name fpin)
        (check_fbv_for_available_block h d)) (4 + j) ∧
      u16 (read_block (create_file_in_directory h d p name fpin)
        (check_fbv_for_available_block h d)) (4 + j) < 4096 ∧
      ∀ o, o < 512 →
        create_file_in_directory h d p name fpin
          (u16 (read_block (create_file_in_directory h d p name fpin)
            (check_fbv_for_available_block h d)) (4 + j) * 512 + o) =
        if j * 512 + o < fpin.length then fpin.getD (j * 512 + o) 0 else 0) ∧
    (∀ j, n ≤ j → j < 12 →
      u16 (read_block (create_file_in_directory h d p name fpin)
        (check_fbv_for_available_block h d)) (4 + j) = 0) := by
  have hlen : fpin.length ≤ 5120 := by omega
  have hnb : num_blocks fpin.length = n := by
    unfold num_blocks
    split <;> omega
  obtain ⟨a1, a2, a3, a4, a5, a6, a7⟩ :=
    alloc_step h d n (inode_record id fpin.length 102) 33 (by norm_num) hfree
  have hc1 : create_empty_inode h d id fpin.length 102 =
      (reset_fbv_bit (write_block d (check_fbv_for_available_block h d)
        (inode_record id fpin.length 102) 33) (check_fbv_for_available_block h d),
        check_fbv_for_available_block h d) := rfl
  generalize check_fbv_for_available_block h d = ia at *
  generalize reset_fbv_bit (write_block d ia (inode_record id fpin.length 102) 33) ia = s1 at *
  have hidspec := find_next_free_spec hid
  have hpne : p % 256 ≠ id % 256 := by
    intro e
    have h2 := hdir.2.1
    rw [e, Nat.mod_eq_of_lt hidspec.1, hidspec.2.1] at h2
    have := hdir.2.2.1
    omega
  have hdir2 := dir_at_assign ia id hpne (dir_at_evolves a5 hdir)
  have hfree2 : has_free (assign_location_to_inode_map s1 ia id) (min n 10 + 0) := by
    have : min n 10 + 0 = n := by omega
    rw [this]
    exact has_free_assign ia id a6
  obtain ⟨b1, _, b3, _⟩ := direct_loop_spec h fpin n 0 hn (by omega) 10 0
    (assign_location_to_inode_map s1 ia id) (read_block s1 ia) n h1 (le_refl _) hfree2
  have hpos : (n - n) * 512 = 0 := by simp
  rw [hpos] at b1 b3
  have hrem : (direct_loop h fpin.length fpin 10 0 (assign_location_to_inode_map s1 ia id)
      (read_block s1 ia) n 0).2.2.1 = 0 := by rw [b3]; omega
  rw [create_file_direct h d p name fpin id s1 ia _ hid hc1 (by rw [hnb]) hrem]
  generalize direct_loop h fpin.length fpin 10 0 (assign_location_to_inode_map s1 ia id)
    (read_block s1 ia) n 0 = r3 at *
  have hmin : min n 10 = n := by omega
  rw [hmin, Nat.sub_self] at b1
  obtain ⟨e1, e2, e3⟩ := b1
  have hdir3 := dir_at_evolves e1 hdir2
  obtain ⟨_, g2, _, _, _, g6, _, _, _, i0, hi0, hz0⟩ := hdir3
  have hgia : get_inode_address h r3.1 p = pa := by
    unfold get_inode_address
    rw [if_pos hdir.1]
    exact g2
  have hframe := add_element_frame h r3.1 p id name dd i0 (by rw [hgia]; exact g6) hi0 hz0 hname
  generalize add_element_to_directory h r3.1 p id name = s4 at *
  have hinode : ∀ o, o < 33 → read_block (write_block s4 ia r3.2.1 33) ia o = r3.2.1 o := by
    intro o ho
    unfold read_block
    exact write_block_in _ _ _ _ _ ho
  have hbuf0 : ∀ o, o < 33 → read_block s1 ia o = inode_record id fpin.length 102 o := by
    intro o ho
    unfold read_block
    rw [a7 o (by omega), if_pos ho]
  have hlow : ∀ o, o < 8 → read_block (write_block s4 ia r3.2.1 33) ia o
      = inode_record id fpin.length 102 o := by
    intro o ho
    rw [hinode o (by omega), e2 o (by omega), hbuf0 o (by omega)]
  refine ⟨a1, a2, ?_, ?_, ?_, ?_⟩
  · rw [hlow 0 (by norm_num), hlow 1 (by norm_num), hlow 2 (by norm_num), hlow 3 (by norm_num)]
    exact inode_record_size id fpin.length (by omega)
  · rw [hlow 4 (by norm_num)]
    simp [inode_record]
  · intro j hj
    have hu : u16 (read_block (write_block s4 ia r3.2.1 33) ia) (4 + j) = u16 r3.2.1 (4 + j) :=
      u16_congr _ _ _ (hinode _ (by omega)) (hinode _ (by omega))
    rw [hu]
    obtain ⟨t1, t2, t3, t4, t5⟩ := e3 j hj
    have e0 : 0 + j = j := by omega
    rw [e0] at t5
    generalize u16 r3.2.1 (4 + j) = aj at *
    refine ⟨t1, t2, ?_⟩
    intro o ho
    have hfree1 : fbv_bit s1 aj = true := by
      rw [fbv_bit_assign _ _ _ _ t2] at t3; exact t3
    have hne1 : aj ≠ ia := by
      intro e; rw [e, a4] at hfree1; exact absurd hfree1 (by simp)
    have hne2 : aj ≠ dd := by
      intro e
      have := hdir2.2.2.2.2.2.2.2.2.1
      rw [← e, t3] at this
      exact absurd this (by simp)
    rw [write_block_out _ _ _ _ _ (by omega), hframe _ (by omega), t5 o ho]
    split
    · rfl
    · rw [assign_apply, if_neg (by omega), a5.2.2 aj t1 t2 (Or.inr hfree1) o ho]
      exact hblank aj o t1 t2 (a5.2.1 aj t2 hfree1) ho
  · intro j hj1 hj2
    have hu : u16 (read_block (write_block s4 ia r3.2.1 33) ia) (4 + j) = u16 r3.2.1 (4 + j) :=
      u16_congr _ _ _ (hinode _ (by omega)) (hinode _ (by omega))
    rw [hu]
    unfold u16
    rw [e2 _ (by omega), e2 _ (by omega), hbuf0 _ (by omega), hbuf0 _ (by omega),
      inode_record_zero _ _ _ _ (by omega) (by omega),
      inode_record_zero _ _ _ _ (by omega) (by omega)]

theorem init_is_formatted (h : Heap) (d : Disk) (h2 : h (-2) % 256 = 0) (h1 : h (-1) % 256 = 0) :
    is_formatted (init_vdisk h d) := by
  intro x hx
  rw [init_vdisk_apply h d h2 h1, if_pos hx]

theorem testBit_252 (j : Nat) (hj : j < 8) : Nat.testBit 252 j = decide (2 ≤ j) := by
  interval_cases j <;> decide

theorem formatted_fbv_bit (s : Disk) (hs : is_formatted s) (b : Nat) (hb : b < 4096) :
    fbv_bit s b = decide (18 ≤ b) := by
  unfold fbv_bit
  rw [hs _ (by omega)]
  unfold formatted
  by_cases c1 : b < 16
  · rw [if_pos (by omega)]
    simp
    omega
  · rw [if_neg (by omega)]
    by_cases c2 : b < 24
    · rw [if_pos (by omega), testBit_252 _ (Nat.mod_lt _ (by norm_num))]
      simp only [decide_eq_decide]
      omega
    · rw [if_neg (by omega), if_pos (by omega), testBit_255 _ (Nat.mod_lt _ (by norm_num))]
      simp
      omega

theorem formatted_inode_map_0 (s : Disk) (hs : is_formatted s) : inode_map_entry s 0 = 17 := by
  unfold inode_map_entry u16 read_block
  rw [hs _ (by norm_num), hs _ (by norm_num)]
  norm_num [formatted]

theorem formatted_root_direct (s : Disk) (hs : is_formatted s) :
    u16 (read_block s 17) 4 = 16 := by
  unfold u16 read_block
  rw [hs _ (by norm_num), hs _ (by norm_num)]
  norm_num [formatted, set_u16]

theorem formatted_blank (s : Disk) (hs : is_formatted s) : free_blocks_blank s := by
  intro b o hb1 hb2 hf ho
  rw [formatted_fbv_bit s hs b hb2] at hf
  have h18 : 18 ≤ b := by simpa using hf
  rw [hs _ (by omega)]
  unfold formatted
  rw [if_neg (by omega), if_neg (by omega), if_neg (by omega), if_neg (by omega),
    if_neg (by omega), if_neg (by omega)]

theorem heap0_byte (i : Int) : heap0 i % 256 = 0 := rfl

theorem fresh_is_formatted : is_formatted fresh := by
  unfold fresh
  exact init_is_formatted heap0 (fun _ => 0) (heap0_byte _) (heap0_byte _)

theorem formatted_root (s : Disk) (hs : is_formatted s) :
    s (17 * 512 + 4) = 100 ∧ s (17 * 512 + 32) = 0 ∧
    s (16 * 512) = 0 ∧ s (16 * 512 + 1) = 46 ∧ s (16 * 512 + 2) = 0 ∧
    s (16 * 512 + 32) = 255 ∧ s (16 * 512 + 33) = 46 ∧ s (16 * 512 + 34) = 46 ∧
    s (16 * 512 + 35) = 0 := by
  refine ⟨?_, ?_, ?_, ?_, ?_, ?_, ?_, ?_, ?_⟩ <;> rw [hs _ (by norm_num)] <;>
    norm_num [formatted, set_u16, inode_record, directory_record]

theorem keeps_trans {d s t : Disk} (h1 : keeps d s) (h2 : keeps s t) : keeps d t := by
  refine ⟨fun x hx => by rw [h2.1 x hx, h1.1 x hx], ?_⟩
  intro b hb1 hb2 hu
  obtain ⟨u1, c1⟩ := h1.2 b hb1 hb2 hu
  obtain ⟨u2, c2⟩ := h2.2 b hb1 hb2 u1
  exact ⟨u2, fun o ho => by rw [c2 o ho, c1 o ho]⟩

theorem keeps_of_evolves {d s : Disk} (h : evolves d s) : keeps d s :=
  ⟨h.1, fun b hb1 hb2 hu => ⟨evolves_used h b hb2 hu, h.2.2 b hb1 hb2 (Or.inl hu)⟩⟩

theorem keeps_write_free {d s : Disk} (hk : keeps d s) (bn : Nat) (buf : Buf)
    (h1 : 16 ≤ bn) (h2 : bn < 4096) (hf : fbv_bit d bn = true) :
    keeps d (write_block s bn buf 512) := by
  refine ⟨fun x hx => by rw [write_block_out _ _ _ _ _ (by omega), hk.1 x hx], ?_⟩
  intro b hb1 hb2 hu
  have hne : b ≠ bn := by
    intro e; rw [e, hf] at hu; exact absurd hu (by simp)
  obtain ⟨u1, c1⟩ := hk.2 b hb1 hb2 hu
  refine ⟨by rw [fbv_bit_write_block _ _ _ _ _ hb2 (Or.inl (by omega))]; exact u1, ?_⟩
  intro o ho
  rw [write_block_out _ _ _ _ _ (by omega), c1 o ho]

theorem has_free_write_block {d : Disk} {m : Nat} (bn : Nat) (buf : Buf) (k : Nat)
    (hbn : 2 ≤ bn) (hf : has_free d m) : has_free (write_block d bn buf k) m := by
  obtain ⟨l, h1, h2, h3⟩ := hf
  refine ⟨l, h1, h2, ?_⟩
  intro b hb
  have := h3 b hb
  exact ⟨this.1, this.2.1,
    by rw [fbv_bit_write_block _ _ _ _ _ this.2.1 (Or.inl hbn)]; exact this.2.2⟩

theorem has_free_mono {d : Disk} {m k : Nat} (hk : k ≤ m) (hf : has_free d m) : has_free d k := by
  obtain ⟨l, h1, h2, h3⟩ := hf
  exact ⟨l, h1, by omega, h3⟩

theorem dir_at_keeps {d s : Disk} {p pa dd : Nat} (hk : keeps d s) (hd : dir_at d p pa dd) :
    dir_at s p pa dd := by
  obtain ⟨h1, h2, h3, h4, h5, h6, h7, h8, h9, i, hi, hz⟩ := hd
  obtain ⟨upa, hpa⟩ := hk.2 pa h3 h4 h5
  obtain ⟨udd, hdd⟩ := hk.2 dd h7 h8 h9
  refine ⟨h1, ?_, h3, h4, upa, ?_, h7, h8, udd, i, hi, ?_⟩
  · rw [← h2]
    unfold inode_map_entry
    apply u16_congr
    · simp only [read_block]; exact hk.1 _ (by omega)
    · simp only [read_block]; exact hk.1 _ (by omega)
  · rw [← h6]
    apply u16_congr
    · simp only [read_block]; exact hpa _ (by omega)
    · simp only [read_block]; exact hpa _ (by omega)
  · rw [hdd _ (by omega)]; exact hz

theorem direct_loop_succ (h : Heap) (size : Nat) (fpin : List Nat) (f i : Nat) (d : Disk)
    (buf : Buf) (rem pos : Nat) :
    direct_loop h size fpin (f + 1) i d buf rem pos =
      if (rem + 65535) % 65536 = 0 then
        ((write_next_data_block h d rem size fpin pos).1,
          set_u16 buf (4 + i) (write_next_data_block h d rem size fpin pos).2.1,
          (rem + 65535) % 65536, (write_next_data_block h d rem size fpin pos).2.2)
      else direct_loop h size fpin f (i + 1) (write_next_data_block h d rem size fpin pos).1
        (set_u16 buf (4 + i) (write_next_data_block h d rem size fpin pos).2.1)
        ((rem + 65535) % 65536) (write_next_data_block h d rem size fpin pos).2.2 := by
  rw [direct_loop]

theorem double_indirection_loop_succ (h : Heap) (size : Nat) (fpin : List Nat) (da f k : Nat)
    (d : Disk) (dbuf ibuf : Buf) (rem pos : Nat) :
    double_indirection_loop h size fpin da (f + 1) k d dbuf ibuf rem pos =
      if (fill_single_indirection_block h (create_indirection_block h d).1
          (create_indirection_block h d).2 rem size fpin pos).2.1 = 0 then
        ((fill_single_indirection_block h (create_indirection_block h d).1
            (create_indirection_block h d).2 rem size fpin pos).1,
          set_u16 ibuf 15 da,
          (fill_single_indirection_block h (create_indirection_block h d).1
            (create_indirection_block h d).2 rem size fpin pos).2.1,
          (fill_single_indirection_block h (create_indirection_block h d).1
            (create_indirection_block h d).2 rem size fpin pos).2.2)
      else double_indirection_loop h size fpin da f (k + 1)
        (fill_single_indirection_block h (create_indirection_block h d).1
          (create_indirection_block h d).2 rem size fpin pos).1
        (set_u16 dbuf k (create_indirection_block h d).2) ibuf
        (fill_single_indirection_block h (create_indirection_block h d).1
          (create_indirection_block h d).2 rem size fpin pos).2.1
        (fill_single_indirection_block h (create_indirection_block h d).1
          (create_indirection_block h d).2 rem size fpin pos).2.2 := by
  rw [double_indirection_loop]

theorem double_indirection_loop_spec (h : Heap) (fpin : List Nat) (n da : Nat)
    (hn : n = (fpin.length + 511) / 512) (hlt : n < 65536) :
    ∀ (fuel k : Nat) (d : Disk) (dbuf ibuf : Buf) (rem m : Nat), 1 ≤ rem → rem ≤ n →
      rem ≤ fuel * 256 → has_free d (rem + (rem + 255) / 256 + m) →
      keeps d (double_indirection_loop h fpin.length fpin da fuel k d dbuf ibuf rem
        ((n - rem) * 512)).1 ∧
      (double_indirection_loop h fpin.length fpin da fuel k d dbuf ibuf rem
        ((n - rem) * 512)).2.1 = set_u16 ibuf 15 da ∧
      has_free (double_indirection_loop h fpin.length fpin da fuel k d dbuf ibuf rem
        ((n - rem) * 512)).1 m := by
  intro fuel
  induction fuel with
  | zero => intro k d dbuf ibuf rem m h1 _ h3; omega
  | succ f ih =>
    intro k d dbuf ibuf rem m h1 h2 h3 hf
    rw [double_indirection_loop_succ]
    have hf1 : has_free d ((min rem 256 + (rem - min rem 256 + (rem - min rem 256 + 255) / 256 + m))
        + 1) := by
      apply has_free_mono _ hf
      omega
    obtain ⟨q1, q2, q3, q4, q5, q6, _⟩ := alloc_step h d _ zero_block 512 (le_refl _) hf1
    have hc : create_indirection_block h d =
      (reset_fbv_bit (write_block d (check_fbv_for_available_block h d) zero_block 512)
        (check_fbv_for_available_block h d), check_fbv_for_available_block h d) := rfl
    rw [hc]
    dsimp only
    generalize check_fbv_for_available_block h d = sk at *
    generalize reset_fbv_bit (write_block d sk zero_block 512) sk = s1 at *
    obtain ⟨s, buf1, f1, f2, f3, f4, f5⟩ := fill_single_loop_spec h fpin n
      (rem - min rem 256 + (rem - min rem 256 + 255) / 256 + m) sk hn hlt 256 0 s1
      (read_block s1 sk) rem h1 h2 q6
    unfold fill_single_indirection_block
    generalize fill_single_loop h sk fpin.length fpin 256 0 s1 (read_block s1 sk) rem
      ((n - rem) * 512) = r2 at *
    have hk2 : keeps d r2.1 := by
      rw [f3]
      have hk := keeps_of_evolves (evolves_trans q5 f1.1)
      split
      · exact keeps_write_free hk sk buf1 q1 q2 q3
      · exact hk
    have hf2 : has_free r2.1 (rem - min rem 256 + (rem - min rem 256 + 255) / 256 + m) := by
      rw [f3]
      split
      · exact has_free_write_block sk buf1 512 (by omega) f2
      · exact f2
    by_cases hz : r2.2.1 = 0
    · rw [if_pos hz]
      have e1 : ∀ (a : Disk) (b : Buf) (c e : Nat), (a, b, c, e).1 = a := fun _ _ _ _ => rfl
      rw [e1]
      exact ⟨hk2, rfl, has_free_mono (by omega) hf2⟩
    · rw [if_neg hz]
      have hrem : r2.2.1 = rem - 256 := by rw [f4]; omega
      have hgt : 256 < rem := by omega
      have hpos : r2.2.2 = (n - (rem - 256)) * 512 := by
        rw [f5, if_neg (by omega)]
      rw [hrem, hpos]
      have hf3 : has_free r2.1 ((rem - 256) + (rem - 256 + 255) / 256 + m) := by
        apply has_free_mono _ hf2
        have : min rem 256 = 256 := by omega
        rw [this]
      obtain ⟨i1, i2, i3⟩ := ih (k + 1) r2.1 (set_u16 dbuf k sk) ibuf (rem - 256) m (by omega)
        (by omega) (by omega) hf3
      exact ⟨keeps_trans hk2 i1, i2, i3⟩

theorem formatted_has_free (s : Disk) (hs : is_formatted s) (m : Nat) (hm : m ≤ 4078) :
    has_free s m := by
  refine ⟨(List.range m).map (fun i => i + 18), ?_, by simp, ?_⟩
  · exact List.Nodup.map (fun a b hab => by simpa using hab) (List.nodup_range m)
  · intro b hb
    rw [List.mem_map] at hb
    obtain ⟨i, hi, rfl⟩ := hb
    have := List.mem_range.mp hi
    refine ⟨by omega, by omega, ?_⟩
    rw [formatted_fbv_bit s hs _ (by omega)]
    simp

theorem create_file_large (h : Heap) (d : Disk) (p : Nat) (name fpin : List Nat)
    (id n pa dd : Nat)
    (hid : find_next_free_inode_id d = some id)
    (hn : n = (fpin.length + 511) / 512) (h267 : 266 < n) (hlt : n < 65536)
    (hfree : has_free d (n + 3 + (n - 266 + 255) / 256))
    (hdir : dir_at d p pa dd) (hname : name.length ≤ 31) :
    16 ≤ u16 (read_block (create_file_in_directory h d p name fpin)
      (check_fbv_for_available_block h d)) 15 ∧
    u16 (read_block (create_file_in_directory h d p name fpin)
      (check_fbv_for_available_block h d)) 15 < 4096 ∧
    ∀ o, o < 512 → create_file_in_directory h d p name fpin
      (u16 (read_block (create_file_in_directory h d p name fpin)
        (check_fbv_for_available_block h d)) 15 * 512 + o) = 0 := by
  have hnb : num_blocks fpin.length = n := by
    unfold num_blocks
    split <;> omega
  have hf0 : has_free d ((n + 2 + (n - 266 + 255) / 256) + 1) := by
    apply has_free_mono _ hfree; omega
  obtain ⟨a1, a2, a3, a4, a5, a6, a7⟩ :=
    alloc_step h d _ (inode_record id fpin.length 102) 33 (by norm_num) hf0
  have hc1 : create_empty_inode h d id fpin.length 102 =
      (reset_fbv_bit (write_block d (check_fbv_for_available_block h d)
        (inode_record id fpin.length 102) 33) (check_fbv_for_available_block h d),
        check_fbv_for_available_block h d) := rfl
  generalize check_fbv_for_available_block h d = ia at *
  generalize reset_fbv_bit (write_block d ia (inode_record id fpin.length 102) 33) ia = s1 at *
  have hidspec := find_next_free_spec hid
  have hpne : p % 256 ≠ id % 256 := by
    intro e
    have h2 := hdir.2.1
    rw [e, Nat.mod_eq_of_lt hidspec.1, hidspec.2.1] at h2
    have := hdir.2.2.1
    omega
  have hdir2 := dir_at_assign ia id hpne (dir_at_evolves a5 hdir)
  have hfree2 : has_free (assign_location_to_inode_map s1 ia id)
      (min n 10 + (n - 10 + 2 + (n - 266 + 255) / 256)) := by
    apply has_free_mono _ (has_free_assign ia id a6); omega
  obtain ⟨b1, b2, b3, b4⟩ := direct_loop_spec h fpin n _ hn hlt 10 0
    (assign_location_to_inode_map s1 ia id) (read_block s1 ia) n (by omega) (le_refl _) hfree2
  have hpos : (n - n) * 512 = 0 := by simp
  rw [hpos] at b1 b2 b3 b4
  have hmin : min n 10 = 10 := by omega
  have hrem : (direct_loop h fpin.length fpin 10 0 (assign_location_to_inode_map s1 ia id)
      (read_block s1 ia) n 0).2.2.1 = n - 10 := by rw [b3, hmin]
  have hp3 : (direct_loop h fpin.length fpin 10 0 (assign_location_to_inode_map s1 ia id)
      (read_block s1 ia) n 0).2.2.2 = (n - (n - 10)) * 512 := by
    rw [b4, if_neg (by omega)]
  have hd3 : direct_loop h fpin.length fpin 10 0 (assign_location_to_inode_map s1 ia id)
      (read_block s1 ia) (num_blocks fpin.length) 0 =
      direct_loop h fpin.length fpin 10 0 (assign_location_to_inode_map s1 ia id)
      (read_block s1 ia) n 0 := by rw [hnb]
  generalize direct_loop h fpin.length fpin 10 0 (assign_location_to_inode_map s1 ia id)
    (read_block s1 ia) n 0 = r3 at *
  have e1 := b1.1
  have hf3 : has_free r3.1 ((n - 10 + 1 + (n - 266 + 255) / 256) + 1) := by
    apply has_free_mono _ b2; omega
  obtain ⟨q1, q2, q3, q4, q5, q6, q7⟩ := alloc_step h r3.1 _ zero_block 512 (le_refl _) hf3
  have hc4 : create_indirection_block h r3.1 =
      (reset_fbv_bit (write_block r3.1 (check_fbv_for_available_block h r3.1) zero_block 512)
        (check_fbv_for_available_block h r3.1), check_fbv_for_available_block h r3.1) := rfl
  generalize check_fbv_for_available_block h r3.1 = sa at *
  generalize reset_fbv_bit (write_block r3.1 sa zero_block 512) sa = s4 at *
  have hfree4 : has_free s4 (min (n - 10) 256 + (n - 266 + 1 + (n - 266 + 255) / 256)) := by
    apply has_free_mono _ q6; omega
  obtain ⟨s5, buf1, f1, f2, f3, f4, f5⟩ := fill_single_loop_spec h fpin n _ sa hn hlt 256 0 s4
    (read_block s4 sa) (n - 10) (by omega) (by omega) hfree4
  rw [if_neg (by omega)] at f3 f5
  have hmin2 : min (n - 10) 256 = 256 := by omega
  rw [hmin2] at f4
  have hc5 : fill_single_indirection_block h s4 sa r3.2.2.1 fpin.length fpin r3.2.2.2 =
      fill_single_loop h sa fpin.length fpin 256 0 s4 (read_block s4 sa) (n - 10)
        ((n - (n - 10)) * 512) := by
    unfold fill_single_indirection_block
    rw [hrem, hp3]
  generalize fill_single_loop h sa fpin.length fpin 256 0 s4 (read_block s4 sa) (n - 10)
    ((n - (n - 10)) * 512) = r5 at *
  have hr5 : r5.2.1 = n - 266 := by rw [f4]; omega
  have hp5 : r5.2.2 = (n - (n - 266)) * 512 := by
    rw [f5]
    have : n - 10 - 256 = n - 266 := by omega
    rw [this]
  have hf5 : has_free r5.1 ((n - 266 + (n - 266 + 255) / 256 + 0) + 1) := by
    rw [f3]; apply has_free_mono _ f2; omega
  obtain ⟨w1, w2, w3, w4, w5, w6, w7⟩ := alloc_step h r5.1 _ zero_block 512 (le_refl _) hf5
  have hc7 : create_indirection_block h r5.1 =
      (reset_fbv_bit (write_block r5.1 (check_fbv_for_available_block h r5.1) zero_block 512)
        (check_fbv_for_available_block h r5.1), check_fbv_for_available_block h r5.1) := rfl
  generalize check_fbv_for_available_block h r5.1 = da at *
  generalize reset_fbv_bit (write_block r5.1 da zero_block 512) da = s7 at *
  have hfuel : n - 266 ≤ 256 * 256 := by omega
  have hdl := double_indirection_loop_spec h fpin n da hn hlt 256 0 s7 zero_block
    (set_u16 r3.2.1 14 sa) (n - 266) 0 (by omega) (by omega) hfuel
  obtain ⟨k1, k2, _⟩ := hdl (has_free_mono (by omega) w6)
  have hc6 : double_indirection_loop h fpin.length fpin da 256 0 s7 zero_block
      (set_u16 r3.2.1 14 sa) r5.2.1 r5.2.2 =
      double_indirection_loop h fpin.length fpin da 256 0 s7 zero_block
      (set_u16 r3.2.1 14 sa) (n - 266) ((n - (n - 266)) * 512) := by rw [hr5, hp5]
  rw [create_file_double h d p name fpin id s1 ia r3 s4 sa r5 s7 da _ hid hc1 hd3 hc4 hc5 hc7 hc6
    (by rw [hrem]; omega) (by rw [hr5]; omega)]
  generalize double_indirection_loop h fpin.length fpin da 256 0 s7 zero_block
      (set_u16 r3.2.1 14 sa) (n - 266) ((n - (n - 266)) * 512) = r6 at *
  -- the chain of stores from the assignment to the end of the double indirection loop
  have hev5 : evolves (assign_location_to_inode_map s1 ia id) r5.1 := by
    rw [f3]; exact evolves_trans e1 (evolves_trans q5 f1.1)
  have hk : keeps (assign_location_to_inode_map s1 ia id) r6.1 :=
    keeps_trans (keeps_of_evolves (evolves_trans hev5 w5)) k1
  have hia2 : fbv_bit (assign_location_to_inode_map s1 ia id) ia = false := by
    rw [fbv_bit_assign _ _ _ _ a2]; exact a4
  have hda2 : fbv_bit (assign_location_to_inode_map s1 ia id) da = true := hev5.2.1 da w2 w3
  have hda_ia : da ≠ ia := by
    intro e; rw [e, hia2] at hda2; exact absurd hda2 (by simp)
  have hda_dd : da ≠ dd := by
    intro e
    have := hdir2.2.2.2.2.2.2.2.2.1
    rw [← e, hda2] at this
    exact absurd this (by simp)
  obtain ⟨_, g2, _, _, _, g6, _, _, _, i0, hi0, hz0⟩ := dir_at_keeps hk hdir2
  have hgia : get_inode_address h r6.1 p = pa := by
    unfold get_inode_address
    rw [if_pos hdir.1]
    exact g2
  have hframe := add_element_frame h r6.1 p id name dd i0 (by rw [hgia]; exact g6) hi0 hz0 hname
  generalize add_element_to_directory h r6.1 p id name = s8 at *
  have hu : u16 (read_block (write_block s8 ia r6.2.1 33) ia) 15 = da := by
    have hin : ∀ o, o < 33 → read_block (write_block s8 ia r6.2.1 33) ia o = r6.2.1 o := by
      intro o ho
      unfold read_block
      exact write_block_in _ _ _ _ _ ho
    rw [u16_congr _ r6.2.1 15 (hin _ (by norm_num)) (hin _ (by norm_num)), k2,
      u16_set_u16 _ _ _ (by omega)]
  rw [hu]
  refine ⟨w1, w2, ?_⟩
  intro o ho
  rw [write_block_out _ _ _ _ _ (by omega), hframe _ (by omega),
    (k1.2 da w1 w2 w4).2 o ho, w7 o ho, if_pos ho]
  rfl

theorem direct_loop_low (h : Heap) (size : Nat) (fpin : List Nat) :
    ∀ (fuel i : Nat) (d : Disk) (buf : Buf) (rem pos o : Nat), o < 2 * (4 + i) →
      (direct_loop h size fpin fuel i d buf rem pos).2.1 o = buf o := by
  intro fuel
  induction fuel with
  | zero => intro i d buf rem pos o _; rfl
  | succ f ih =>
    intro i d buf rem pos o ho
    rw [direct_loop_succ]
    split
    · exact set_u16_other _ _ _ _ (by omega) (by omega)
    · rw [ih (i + 1) _ _ _ _ o (by omega)]
      exact set_u16_other _ _ _ _ (by omega) (by omega)

theorem double_indirection_loop_low (h : Heap) (size : Nat) (fpin : List Nat) (da : Nat) :
    ∀ (fuel k : Nat) (d : Disk) (dbuf ibuf : Buf) (rem pos o : Nat), o < 30 →
      (double_indirection_loop h size fpin da fuel k d dbuf ibuf rem pos).2.1 o = ibuf o := by
  intro fuel
  induction fuel with
  | zero => intro k d dbuf ibuf rem pos o _; rfl
  | succ f ih =>
    intro k d dbuf ibuf rem pos o ho
    rw [double_indirection_loop_succ]
    split
    · exact set_u16_other _ _ _ _ (by omega) (by omega)
    · exact ih (k + 1) _ _ _ _ _ o ho

theorem create_file_first_pointer (h : Heap) (d : Disk) (p : Nat) (name fpin : List Nat)
    (id : Nat) (hid : find_next_free_inode_id d = some id) (o : Nat) (h8 : 8 ≤ o) (h10 : o < 10) :
    read_block (create_file_in_directory h d p name fpin)
        (create_empty_inode h d id fpin.length 102).2 o =
      (direct_loop h fpin.length fpin 10 0
        (assign_location_to_inode_map (create_empty_inode h d id fpin.length 102).1
          (create_empty_inode h d id fpin.length 102).2 id)
        (read_block (create_empty_inode h d id fpin.length 102).1
          (create_empty_inode h d id fpin.length 102).2) (num_blocks fpin.length) 0).2.1 o := by
  generalize hr1 : create_empty_inode h d id fpin.length 102 = r1
  generalize hr3 : direct_loop h fpin.length fpin 10 0 (assign_location_to_inode_map r1.1 r1.2 id)
    (read_block r1.1 r1.2) (num_blocks fpin.length) 0 = r3
  generalize hr4 : create_indirection_block h r3.1 = r4
  generalize hr5 : fill_single_indirection_block h r4.1 r4.2 r3.2.2.1 fpin.length fpin r3.2.2.2 = r5
  generalize hr7 : create_indirection_block h r5.1 = r7
  generalize hr6 : double_indirection_loop h fpin.length fpin r7.2 256 0 r7.1 zero_block
    (set_u16 r3.2.1 14 r4.2) r5.2.1 r5.2.2 = r6
  by_cases h0 : r3.2.2.1 = 0
  · rw [create_file_direct h d p name fpin id r1.1 r1.2 r3 hid hr1 hr3 h0]
    unfold read_block
    exact write_block_in _ _ _ _ _ (by omega)
  · by_cases h5 : r5.2.1 = 0
    · rw [create_file_single h d p name fpin id r1.1 r1.2 r3 r4.1 r4.2 r5 hid hr1 hr3 hr4 hr5 h0 h5]
      unfold read_block
      rw [write_block_in _ _ _ _ _ (by omega)]
      exact set_u16_other _ _ _ _ (by omega) (by omega)
    · rw [create_file_double h d p name fpin id r1.1 r1.2 r3 r4.1 r4.2 r5 r7.1 r7.2 r6 hid hr1 hr3
        hr4 hr5 hr7 hr6 h0 h5]
      unfold read_block
      rw [write_block_in _ _ _ _ _ (by omega), ← hr6,
        double_indirection_loop_low _ _ _ _ _ _ _ _ _ _ _ o (by omega)]
      exact set_u16_other _ _ _ _ (by omega) (by omega)

theorem create_file_empty_input (h : Heap) (d : Disk) (p : Nat) (name : List Nat) (id : Nat)
    (hid : find_next_free_inode_id d = some id) (hfree : has_free d 2) :
    16 ≤ u16 (read_block (create_file_in_directory h d p name [])
      (check_fbv_for_available_block h d)) 4 ∧
    u16 (read_block (create_file_in_directory h d p name [])
      (check_fbv_for_available_block h d)) 4 < 4096 := by
  have hp := create_file_first_pointer h d p name [] id hid
  obtain ⟨a1, a2, a3, a4, a5, a6, a7⟩ :=
    alloc_step h d 1 (inode_record id 0 102) 33 (by norm_num) hfree
  have hc1 : create_empty_inode h d id ([] : List Nat).length 102 =
      (reset_fbv_bit (write_block d (check_fbv_for_available_block h d)
        (inode_record id 0 102) 33) (check_fbv_for_available_block h d),
        check_fbv_for_available_block h d) := rfl
  rw [hc1] at hp
  dsimp only at hp
  generalize check_fbv_for_available_block h d = ia at *
  generalize reset_fbv_bit (write_block d ia (inode_record id 0 102) 33) ia = s1 at *
  have hf2 : has_free (assign_location_to_inode_map s1 ia id) (0 + 1) := has_free_assign ia id a6
  obtain ⟨b1, b2, _, _, _, _, _⟩ := alloc_step h (assign_location_to_inode_map s1 ia id) 0
    (fun o => if o < 512 then ([] : List Nat).getD (0 + o) 0 else 0) 512 (le_refl _) hf2
  have hnb : num_blocks ([] : List Nat).length = 0 := by decide
  rw [hnb] at hp
  have hu : u16 (read_block (create_file_in_directory h d p name []) ia) 4 =
      check_fbv_for_available_block h (assign_location_to_inode_map s1 ia id) := by
    unfold u16
    rw [hp _ (by norm_num) (by norm_num), hp _ (by norm_num) (by norm_num)]
    have hstep : ∀ o, 8 ≤ o → o < 10 →
        (direct_loop h ([] : List Nat).length [] 10 0 (assign_location_to_inode_map s1 ia id)
          (read_block s1 ia) 0 0).2.1 o =
        set_u16 (read_block s1 ia) 4
          (check_fbv_for_available_block h (assign_location_to_inode_map s1 ia id)) o := by
      intro o h8 h10
      rw [direct_loop_succ, if_neg (by decide)]
      rw [direct_loop_low _ _ _ _ _ _ _ _ _ o (by omega)]
      rfl
    rw [hstep _ (by norm_num) (by norm_num), hstep _ (by norm_num) (by norm_num)]
    have := u16_set_u16 (read_block s1 ia) 4
      (check_fbv_for_available_block h (assign_location_to_inode_map s1 ia id)) (by omega)
    unfold u16 at this
    exact this
  rw [hu]
  exact ⟨b1, b2⟩

theorem entity_128_block_0 (type : Nat) (data : Buf) (x : Nat) (hx : x < 512) :
    entity_128 type data x = 0 := by
  unfold entity_128
  rw [reset_fbv_bit_other _ _ _ (Or.inl hx), reset_fbv_bit_other _ _ _ (Or.inl hx),
    write_block_out _ _ _ _ _ (by omega), write_block_out _ _ _ _ _ (by omega),
    write_block_out _ _ _ _ _ (by omega), write_block_out _ _ _ _ _ (by omega),
    fresh_is_formatted x (by omega)]
  unfold formatted
  rw [if_pos (by omega)]

theorem testBit_set (v i j : Nat) (hj : j < 8) :
    Nat.testBit ((v ||| (1 <<< i)) % 256) j = (Nat.testBit v j || decide (i = j)) := by
  have h256 : (256 : Nat) = 2 ^ 8 := by norm_num
  rw [h256, Nat.testBit_mod_two_pow]
  simp only [hj, decide_True, Bool.true_and, Nat.testBit_or, Nat.testBit_shiftLeft]
  by_cases e : i = j
  · subst e; simp
  · by_cases hle : i ≤ j
    · have : j - i ≠ 0 := by omega
      have hb : Nat.testBit 1 (j - i) = false := by
        rw [Bool.eq_false_iff]
        intro h
        exact this (Nat.testBit_one_eq_true_iff_self_eq_zero.mp h)
      simp [e, hle, hb]
    · simp [e, hle]

theorem fbv_bit_set_other (d : Disk) (a b : Nat) (hb : b < 4096) (hne : b ≠ a) :
    fbv_bit (set_fbv_bit d a) b = fbv_bit d b := by
  unfold fbv_bit
  rw [set_fbv_bit_apply]
  have h1 : 512 ≤ 512 + b / 8 ∧ 512 + b / 8 < 1024 := by omega
  have h2 : 512 + b / 8 - 512 = b / 8 := by omega
  simp only [h1, and_self, if_true, h2]
  split
  · rw [testBit_set _ _ _ (Nat.mod_lt _ (by norm_num))]
    have : a % 8 ≠ b % 8 := by omega
    simp [this]
  · rfl

theorem add_element_heap_parent (h : Heap) (s : Disk) (p e : Nat) (name : List Nat)
    (hp : 128 ≤ p % 256)
    (hh1 : h (2 * ((p % 256 : Nat) : Int) - 512) % 256 = 0)
    (hh2 : h (2 * ((p % 256 : Nat) : Int) - 511) % 256 = 0)
    (hs : ∀ x, x < 512 → s x = 0) (hname : name.length ≤ 31) :
    (∀ x, 512 ≤ x → add_element_to_directory h s p e name x = s x) ∧
    add_element_to_directory h s p e name 0 = e % 256 := by
  have hg : get_inode_address h s p = 0 := by
    unfold get_inode_address
    rw [if_neg (by omega), hh1, hh2]
  have hdd : u16 (read_block s 0) 4 = 0 := by
    unfold u16 read_block
    rw [hs _ (by norm_num), hs _ (by norm_num)]
  have hslot : find_directory_slot (read_block_heap h s 0) 513 0 = some 0 := by
    rw [find_directory_slot]
    have : read_block_heap h s 0 (0 * 32 + 1) % 256 = 0 := by
      rw [read_block_heap_low _ _ _ _ (by norm_num), hs _ (by norm_num)]
    rw [if_neg (by simp [this])]
  have hl := copy_file_name_len name (0 * 32 + 1) 34 0
    (set_byte (read_block_heap h s 0) (0 * 32) e)
  have hmax : max 0 name.length = name.length := by omega
  rw [hmax] at hl
  unfold add_element_to_directory
  simp only [hg, hdd, hslot]
  constructor
  · intro x hx
    rw [write_block_out _ _ _ _ _ (by omega)]
  · have e0 : (0 : Nat) = 0 * 512 + 0 := by norm_num
    rw [e0, write_block_in _ _ _ _ _ (by omega),
      copy_file_name_below _ _ _ _ _ _ (by norm_num)]
    simp [set_byte]

theorem create_directory_from_inode_some (h : Heap) (d : Disk) (p : Nat) (name : List Nat)
    (id a1 : Nat) (d2 s3 : Disk) (ib : Nat)
    (hid : find_next_free_inode_id d = some id)
    (ha1 : check_fbv_for_available_block h d = a1)
    (hd2 : reset_fbv_bit (write_block d a1 (directory_record p id) 512) a1 = d2)
    (h3 : create_empty_inode h d2 id 512 100 = (s3, ib)) :
    create_directory_from_inode h d p name =
      add_element_to_directory h
        (write_block (assign_location_to_inode_map s3 ib id) ib
          (set_u16 (read_block (assign_location_to_inode_map s3 ib id) ib) 4 a1) 10) p id name := by
  unfold create_directory_from_inode
  rw [hid]
  dsimp only
  unfold create_directory_block
  dsimp only
  rw [ha1, hd2, h3]

theorem create_directory_high_parent (h : Heap) (d : Disk) (p : Nat) (name : List Nat)
    (id b : Nat)
    (hid : find_next_free_inode_id d = some id) (hfree : has_free d 2)
    (hp : 128 ≤ p % 256)
    (hh1 : h (2 * ((p % 256 : Nat) : Int) - 512) % 256 = 0)
    (hh2 : h (2 * ((p % 256 : Nat) : Int) - 511) % 256 = 0)
    (hs : ∀ x, x < 512 → d x = 0) (hname : name.length ≤ 31)
    (hb1 : 16 ≤ b) (hb2 : b < 4096) (hbu : fbv_bit d b = false) :
    (∀ o, o < 512 → create_directory_from_inode h d p name (b * 512 + o) = d (b * 512 + o)) ∧
    create_directory_from_inode h d p name 0 = id % 256 := by
  obtain ⟨a1, a2, a3, a4, a5, a6, _⟩ :=
    alloc_step h d 1 (directory_record p id) 512 (le_refl _) hfree
  generalize ha : check_fbv_for_available_block h d = da at *
  generalize hd2 : reset_fbv_bit (write_block d da (directory_record p id) 512) da = d2 at *
  obtain ⟨q1, q2, q3, q4, q5, _, _⟩ :=
    alloc_step h d2 0 (inode_record id 512 100) 33 (by norm_num) a6
  have hc3 : create_empty_inode h d2 id 512 100 =
      (reset_fbv_bit (write_block d2 (check_fbv_for_available_block h d2)
        (inode_record id 512 100) 33) (check_fbv_for_available_block h d2),
        check_fbv_for_available_block h d2) := rfl
  generalize check_fbv_for_available_block h d2 = ib at *
  generalize reset_fbv_bit (write_block d2 ib (inode_record id 512 100) 33) ib = s3 at *
  rw [create_directory_from_inode_some h d p name id da d2 s3 ib hid ha hd2 hc3]
  have hev := evolves_trans a5 q5
  have hlow : ∀ x, x < 512 →
      write_block (assign_location_to_inode_map s3 ib id) ib
        (set_u16 (read_block (assign_location_to_inode_map s3 ib id) ib) 4 da) 10 x = 0 := by
    intro x hx
    rw [write_block_out _ _ _ _ _ (by omega), assign_apply, if_neg (by omega),
      hev.1 x (Or.inl hx), hs x hx]
  obtain ⟨f1, f2⟩ := add_element_heap_parent h _ p id name hp hh1 hh2 hlow hname
  refine ⟨?_, f2⟩
  intro o ho
  have hne : b ≠ ib := by
    intro e
    have := evolves_used a5 b hb2 hbu
    rw [e, q3] at this
    exact absurd this (by simp)
  rw [f1 _ (by omega), write_block_out _ _ _ _ _ (by omega), assign_apply, if_neg (by omega),
    hev.2.2 b hb1 hb2 (Or.inl hbu) o ho]

theorem delete_file_high_id (h : Heap) (d : Disk) (id : Nat)
    (hp : 128 ≤ id % 256)
    (hh1 : h (2 * ((id % 256 : Nat) : Int) - 512) % 256 = 0)
    (hh2 : h (2 * ((id % 256 : Nat) : Int) - 511) % 256 = 0)
    (hs : ∀ x, x < 512 → d x = 0) :
    delete_file h d id =
      set_fbv_bit (write_block (write_block d 2 (set_u16 (read_block d 2) (id % 256) 0) 512) 0
        zero_block 512) 0 := by
  have hg : get_inode_address h d (id % 256) = 0 := by
    unfold get_inode_address
    rw [if_neg (by omega), Nat.mod_mod, hh1, hh2]
  have h4 : u16 (read_block d 0) 4 = 0 := by
    unfold u16 read_block
    rw [hs _ (by norm_num), hs _ (by norm_num)]
  have h14 : u16 (read_block d 0) 14 = 0 := by
    unfold u16 read_block
    rw [hs _ (by norm_num), hs _ (by norm_num)]
  unfold delete_file
  simp only [hg, h14]
  have hl : delete_direct_loop (read_block d 0) 10 4 d = d := by
    rw [delete_direct_loop, if_pos h4]
  rw [hl]
  simp

theorem first_set_bit_zero_byte {v : Nat} (hv : v % 256 = 0) : first_set_bit v = none := by
  cases h : first_set_bit v with
  | none => rfl
  | some i =>
    have := first_set_bit_some h
    rw [testBit_byte_zero hv this.1] at this
    exact absurd this.2 (by simp)

theorem check_fbv_reads_heap (h : Heap) (d : Disk)
    (hfull : ∀ p, 2 ≤ p → p < 512 → d (512 + p) % 256 = 0)
    (hh : Nat.testBit (h 512) 0 = true) : check_fbv_for_available_block h d = 4096 := by
  have hsome : first_set_bit (read_block_heap h d 1 512) ≠ none := by
    intro e
    have := first_set_bit_none e 0 (by norm_num)
    have e2 : read_block_heap h d 1 512 = h 512 := by simp [read_block_heap]
    rw [e2, hh] at this
    exact absurd this (by simp)
  obtain ⟨p, i, a1, a2, a3, _, a5⟩ :=
    fbv_scan_least (read_block_heap h d 1) 4109 2 512 (by norm_num) (by norm_num) hsome
  have hp : p = 512 := by
    by_contra hne
    have hlt : p < 512 := by omega
    have hz : first_set_bit (read_block_heap h d 1 p) = none := by
      apply first_set_bit_zero_byte
      rw [read_block_heap_low _ _ _ _ hlt]
      have := hfull p a1 hlt
      simpa using this
    rw [hz] at a3
    exact absurd a3 (by simp)
  subst hp
  have hi : i = 0 := by
    by_contra hne
    have := first_set_bit_min a3 0 (by omega)
    have e2 : read_block_heap h d 1 512 = h 512 := by simp [read_block_heap]
    rw [e2, hh] at this
    exact absurd this (by simp)
  subst hi
  unfold check_fbv_for_available_block
  rw [a5]

theorem find_next_free_iff (d : Disk) (id : Nat) :
    find_next_free_inode_id d = some id ↔
      (id < 256 ∧ inode_map_entry d id = 0 ∧ ∀ j, j < id → inode_map_entry d j ≠ 0) := by
  constructor
  · exact find_next_free_spec
  · intro ⟨h1, h2, h3⟩
    cases hf : find_next_free_inode_id d with
    | none =>
      unfold find_next_free_inode_id at hf
      have := find_range_none _ 256 hf id h1
      simp [h2] at this
    | some i =>
      obtain ⟨g1, g2, g3⟩ := find_next_free_spec hf
      have : i = id := by
        by_contra hne
        rcases Nat.lt_or_gt_of_ne hne with hlt | hgt
        · exact h3 i hlt g2
        · exact g3 id hgt h2
      rw [this]

theorem find_next_free_none_iff (d : Disk) :
    find_next_free_inode_id d = none ↔ ∀ j, j < 256 → inode_map_entry d j ≠ 0 := by
  constructor
  · intro hf j hj
    unfold find_next_free_inode_id at hf
    have := find_range_none _ 256 hf j hj
    simpa using this
  · intro hall
    cases hf : find_next_free_inode_id d with
    | none => rfl
    | some i =>
      obtain ⟨g1, g2, _⟩ := find_next_free_spec hf
      exact absurd g2 (hall i g1)

theorem fill_single_without_write (h : Heap) (fpin : List Nat) (n sblk : Nat) (d : Disk)
    (rem : Nat) (hn : n = (fpin.length + 511) / 512) (hlt : n < 65536)
    (hrem : 256 < rem) (hle : rem ≤ n) (hfree : has_free d 256)
    (hs1 : 16 ≤ sblk) (hs2 : sblk < 4096) (hsu : fbv_bit d sblk = false) :
    (∀ o, o < 512 →
      (fill_single_indirection_block h d sblk rem fpin.length fpin ((n - rem) * 512)).1
        (sblk * 512 + o) = d (sblk * 512 + o)) ∧
    (fill_single_indirection_block h d sblk rem fpin.length fpin ((n - rem) * 512)).2.1
      = rem - 256 := by
  have hf : has_free d (min rem 256 + 0) := by
    have : min rem 256 + 0 = 256 := by omega
    rw [this]; exact hfree
  obtain ⟨s, buf1, f1, _, f3, f4, _⟩ := fill_single_loop_spec h fpin n 0 sblk hn hlt 256 0 d
    (read_block d sblk) rem (by omega) hle hf
  unfold fill_single_indirection_block
  rw [f3, f4, if_neg (by omega)]
  refine ⟨?_, by omega⟩
  intro o ho
  exact f1.1.2.2 sblk hs1 hs2 (Or.inl hsu) o ho

theorem strncmp_eq_succ (s1 s2 : Buf) (n j : Nat) :
    strncmp_eq s1 s2 (n + 1) j =
      (if s1 j % 256 ≠ s2 j % 256 then false
       else if s1 j % 256 = 0 then true
       else strncmp_eq s1 s2 n (j + 1)) := by
  rw [strncmp_eq]

theorem strncmp_eq_first (s1 s2 : Buf) (n : Nat) (hne : s1 0 % 256 ≠ s2 0 % 256) :
    strncmp_eq s1 s2 (n + 1) 0 = false := by
  rw [strncmp_eq_succ, if_pos hne]

theorem strncmp_eq_congr (s1 t1 s2 : Buf) :
    ∀ n j, (∀ k, j ≤ k → k < j + n → s1 k = t1 k) →
      strncmp_eq s1 s2 n j = strncmp_eq t1 s2 n j := by
  intro n
  induction n with
  | zero =>
    intro j _
    rw [strncmp_eq, strncmp_eq]
  | succ n ih =>
    intro j hk
    rw [strncmp_eq_succ, strncmp_eq_succ, hk j (le_refl _) (by omega),
      ih (j + 1) (fun k h1 h2 => hk k (by omega) (by omega))]

theorem delete_entry_loop_succ (a : Nat) (name : List Nat) (fuel i : Nat) (d : Disk)
    (buffer : Buf) :
    delete_entry_loop a name (fuel + 1) i d buffer =
      (if strncmp_eq (slot_name buffer i) (cstring name) 31 0 then
        delete_entry_loop a name fuel (i + 1)
          (write_block d a (fun o => if i * 32 ≤ o ∧ o < i * 32 + 32 then 0 else buffer o)
            ((i + 1) * 32))
          (fun o => if i * 32 ≤ o ∧ o < i * 32 + 32 then 0 else buffer o)
      else delete_entry_loop a name fuel (i + 1) d buffer) := by
  rw [delete_entry_loop]

theorem delete_entry_loop_blank (a : Nat) (name : List Nat)
    (hname : name.getD 0 0 % 256 ≠ 0) (buf : Buf) (hbuf : ∀ o, o < 512 → buf o = 0) :
    ∀ (fuel i : Nat) (d : Disk), i + fuel ≤ 16 → delete_entry_loop a name fuel i d buf = d := by
  intro fuel
  induction fuel with
  | zero =>
    intro i d _
    rw [delete_entry_loop]
  | succ f ih =>
    intro i d hi
    have hno : strncmp_eq (slot_name buf i) (cstring name) 31 0 = false := by
      apply strncmp_eq_first
      unfold slot_name cstring
      rw [hbuf _ (by omega)]
      intro e
      exact hname e.symm
    rw [delete_entry_loop_succ, hno]
    exact ih (i + 1) d (by omega)

/-- What `delete_directory_entry` does on a directory id of 128 or more when the two bytes
in front of the block buffer are zero and block 0 is blank: nothing. -/
theorem delete_directory_entry_high_id (h : Heap) (d : Disk) (id : Nat) (name : List Nat)
    (hp : 128 ≤ id % 256)
    (hh1 : h (2 * ((id % 256 : Nat) : Int) - 512) % 256 = 0)
    (hh2 : h (2 * ((id % 256 : Nat) : Int) - 511) % 256 = 0)
    (hs : ∀ x, x < 512 → d x = 0) (hname : name.getD 0 0 % 256 ≠ 0) :
    delete_directory_entry h d id name = d := by
  have hg : get_inode_address h d id = 0 := by
    unfold get_inode_address
    rw [if_neg (by omega), hh1, hh2]
  have h4 : u16 (read_block d 0) 4 = 0 := by
    unfold u16 read_block
    rw [hs _ (by norm_num), hs _ (by norm_num)]
  unfold delete_directory_entry
  simp only [hg, h4]
  apply delete_entry_loop_blank 0 name hname _ _ 14 2 d (by norm_num)
  intro o ho
  unfold read_block
  rw [hs _ (by omega)]

/-- The loop of `delete_directory_entry` from slot `i` on, when the buffer holds the block
`a` of the store: the bytes of the slots `i .. i+fuel-1` whose name matches become 0 and
every other byte of the store stays. -/
theorem delete_entry_loop_spec (a : Nat) (name : List Nat) :
    ∀ (fuel i : Nat) (d : Disk) (buf : Buf), i + fuel ≤ 16 →
      (∀ o, o < 512 → buf o = d (a * 512 + o)) →
      ∀ x, delete_entry_loop a name fuel i d buf x =
        if a * 512 ≤ x ∧ x < a * 512 + 512 ∧ i ≤ (x - a * 512) / 32 ∧
            (x - a * 512) / 32 < i + fuel ∧
            strncmp_eq (slot_name buf ((x - a * 512) / 32)) (cstring name) 31 0 = true
        then 0 else d x := by
  intro fuel
  induction fuel with
  | zero =>
    intro i d buf _ _ x
    rw [delete_entry_loop, if_neg (by omega)]
  | succ f ih =>
    intro i d buf hi hb x
    rw [delete_entry_loop_succ]
    by_cases hm : strncmp_eq (slot_name buf i) (cstring name) 31 0 = true
    · rw [if_pos hm]
      have hb1 : ∀ o, o < 512 →
          (fun o => if i * 32 ≤ o ∧ o < i * 32 + 32 then 0 else buf o) o =
          write_block d a (fun o => if i * 32 ≤ o ∧ o < i * 32 + 32 then 0 else buf o)
            ((i + 1) * 32) (a * 512 + o) := by
        intro o ho
        by_cases hlt : o < (i + 1) * 32
        · rw [write_block, if_pos (by omega)]
          have e : a * 512 + o - a * 512 = o := by omega
          rw [e]
        · rw [write_block_out _ _ _ _ _ (by omega)]
          show (if i * 32 ≤ o ∧ o < i * 32 + 32 then 0 else buf o) = _
          rw [if_neg (by omega), hb o ho]
      rw [ih (i + 1) _ _ (by omega) hb1 x]
      have hcongr : ∀ j, i + 1 ≤ j → j < 16 →
          strncmp_eq (slot_name (fun o => if i * 32 ≤ o ∧ o < i * 32 + 32 then 0 else buf o) j)
            (cstring name) 31 0 = strncmp_eq (slot_name buf j) (cstring name) 31 0 := by
        intro j hj1 _
        apply strncmp_eq_congr
        intro k _ hk
        show (if i * 32 ≤ j * 32 + 1 + k ∧ j * 32 + 1 + k < i * 32 + 32 then 0
          else buf (j * 32 + 1 + k)) = _
        rw [if_neg (by omega)]
        rfl
      by_cases hin : a * 512 ≤ x ∧ x < a * 512 + 512
      · by_cases hj : (x - a * 512) / 32 = i
        · rw [if_neg (by omega), if_pos ⟨hin.1, hin.2, by omega, by omega, by rw [hj]; exact hm⟩,
            write_block, if_pos (by omega)]
          show (if i * 32 ≤ x - a * 512 ∧ x - a * 512 < i * 32 + 32 then 0
            else buf (x - a * 512)) = 0
          rw [if_pos (by omega)]
        · by_cases hlow : (x - a * 512) / 32 < i
          · rw [if_neg (by omega), if_neg (by omega), write_block, if_pos (by omega)]
            show (if i * 32 ≤ x - a * 512 ∧ x - a * 512 < i * 32 + 32 then 0
              else buf (x - a * 512)) = d x
            rw [if_neg (by omega), hb _ (by omega)]
            have e : a * 512 + (x - a * 512) = x := by omega
            rw [e]
          · by_cases hhi : (x - a * 512) / 32 < i + 1 + f
            · rw [hcongr _ (by omega) (by omega), write_block_out _ _ _ _ _ (by omega)]
              by_cases hmm : strncmp_eq (slot_name buf ((x - a * 512) / 32)) (cstring name) 31 0
                  = true
              · rw [if_pos ⟨hin.1, hin.2, by omega, hhi, hmm⟩,
                  if_pos ⟨hin.1, hin.2, by omega, by omega, hmm⟩]
              · rw [if_neg (fun c => hmm c.2.2.2.2), if_neg (fun c => hmm c.2.2.2.2)]
            · rw [if_neg (by omega), if_neg (by omega), write_block_out _ _ _ _ _ (by omega)]
      · rw [if_neg (fun c => hin ⟨c.1, c.2.1⟩), if_neg (fun c => hin ⟨c.1, c.2.1⟩),
          write_block_out _ _ _ _ _ (by omega)]
    · rw [if_neg hm, ih (i + 1) d buf (by omega) hb x]
      by_cases hc : a * 512 ≤ x ∧ x < a * 512 + 512 ∧ i + 1 ≤ (x - a * 512) / 32 ∧
          (x - a * 512) / 32 < i + 1 + f ∧
          strncmp_eq (slot_name buf ((x - a * 512) / 32)) (cstring name) 31 0 = true
      · rw [if_pos hc, if_pos ⟨hc.1, hc.2.1, by omega, by omega, hc.2.2.2.2⟩]
      · rw [if_neg hc, if_neg]
        intro c
        by_cases hj : (x - a * 512) / 32 = i
        · rw [hj] at c
          exact hm c.2.2.2.2
        · exact hc ⟨c.1, c.2.1, by omega, by omega, c.2.2.2.2⟩

/-- What `delete_directory_entry` leaves in the 16 slots of the block it takes for the
directory block: zero bytes in every slot 2..15 whose name matches, the bytes as they were
in every other slot. -/
theorem delete_directory_entry_slots (h : Heap) (d : Disk) (id : Nat) (name : List Nat)
    (i o : Nat) (hi : i < 16) (ho : o < 32) :
    delete_directory_entry h d id name
        (u16 (read_block d (get_inode_address h d id)) 4 * 512 + i * 32 + o) =
      if 2 ≤ i ∧ strncmp_eq (slot_name (read_block d (u16 (read_block d
          (get_inode_address h d id)) 4)) i) (cstring name) 31 0 = true
      then 0 else d (u16 (read_block d (get_inode_address h d id)) 4 * 512 + i * 32 + o) := by
  unfold delete_directory_entry
  generalize u16 (read_block d (get_inode_address h d id)) 4 = a
  rw [delete_entry_loop_spec a name 14 2 d (read_block d a) (by norm_num) (fun o _ => rfl)]
  have e : (a * 512 + i * 32 + o - a * 512) / 32 = i := by omega
  rw [e]
  by_cases hc : 2 ≤ i ∧ strncmp_eq (slot_name (read_block d a) i) (cstring name) 31 0 = true
  · rw [if_pos hc, if_pos ⟨by omega, by omega, hc.1, by omega, hc.2⟩]
  · rw [if_neg hc, if_neg]
    intro c
    exact hc ⟨c.2.2.1, c.2.2.2.2⟩

theorem create_indirection_block_eq (h : Heap) (d : Disk) :
    create_indirection_block h d =
      (reset_fbv_bit (write_block d (check_fbv_for_available_block h d) zero_block 512)
        (check_fbv_for_available_block h d), check_fbv_for_available_block h d) := rfl

/-- The layout of a small file on a store whose free blocks are blank.  On a store with a
free inode-id, `n + 1` free blocks, zero bytes in its free blocks and a parent directory
that has a free slot, an input of `n` blocks, `1 ≤ n ≤ 10`, uploaded under a name of at
most 31 bytes gets its inode in a block of the data section with the size, the type `f`,
`n` direct pointers, the input in their blocks with zero bytes behind the last input byte,
and zero in every other pointer field. -/
theorem upload_small_file_layout (h : Heap) (d : Disk) (path name fpin : List Nat)
    (id n pa dd : Nat)
    (hid : find_next_free_inode_id d = some id)
    (hn : n = (fpin.length + 511) / 512) (h1 : 1 ≤ n) (h10 : n ≤ 10)
    (hfree : has_free d (n + 1)) (hblank : free_blocks_blank d)
    (hdir : dir_at d (find_file_inode_id d path) pa dd) (hname : name.length ≤ 31) :
    16 ≤ check_fbv_for_available_block h d ∧ check_fbv_for_available_block h d < 4096 ∧
    small_file_layout (upload_file h d path name fpin) (uploaded_inode h d path name fpin)
      fpin n := by
  obtain ⟨c1, c2, c3, c4, c5, c6⟩ := create_file_small h d (find_file_inode_id d path) name fpin
    id n pa dd hid hn h1 h10 hfree hblank hdir hname
  exact ⟨c1, c2, c3, c4, c5, c6⟩

/-- The layout of a small file on the fresh store: 400 bytes uploaded as `/small`, one
block. -/
theorem upload_small_file_layout_witness :
    find_next_free_inode_id fresh = some 1 ∧ has_free fresh 2 ∧ free_blocks_blank fresh ∧
    dir_at fresh (find_file_inode_id fresh (bytes "/")) 17 16 ∧
    16 ≤ check_fbv_for_available_block heap0 fresh ∧
    check_fbv_for_available_block heap0 fresh < 4096 ∧
    small_file_layout (upload_file heap0 fresh (bytes "/") (bytes "small") (List.replicate 400 65))
      (uploaded_inode heap0 fresh (bytes "/") (bytes "small") (List.replicate 400 65))
      (List.replicate 400 65) 1 :=
  have hid : find_next_free_inode_id fresh = some 1 := by decide!
  have hfree : has_free fresh (1 + 1) := ⟨[18, 19], by decide, by decide, by decide!⟩
  have hdir : dir_at fresh (find_file_inode_id fresh (bytes "/")) 17 16 := by
    unfold dir_at
    decide!
  ⟨hid, hfree, (formatted_blank fresh fresh_is_formatted), hdir,
    upload_small_file_layout heap0 fresh (bytes "/") (bytes "small") (List.replicate 400 65)
      1 1 17 16 hid (by rw [List.length_replicate]) (by decide) (by decide) hfree (formatted_blank fresh fresh_is_formatted) hdir (by decide)⟩

/-! ## Claims C11 to C20 -/

/-- Claim C11 (inode map and self-id).  With `/a` and `/b` present, `/b` has inode-id 2 and
its inode in block 21 carries the self-id 2; after `delete_filepath` of `/b` entry 2 of the
inode map still holds 21 although the id is deleted, and byte 32 of block 21 is 0, not 2.
And for every store, `assign_location_to_inode_map` leaves in the entry the low byte
of the address next to the high byte that was there before. -/
theorem deleted_id_keeps_inode_map_entry :
    (inode_map_entry with_a_b 2 = 21 ∧ with_a_b (21 * 512 + 32) = 2) ∧
    (inode_map_entry (delete_filepath heap0 with_a_b (bytes "/b")) 2 = 21 ∧
      delete_filepath heap0 with_a_b (bytes "/b") (21 * 512 + 32) = 0) ∧
    (∀ (d : Disk) (addr id : Nat),
      inode_map_entry (assign_location_to_inode_map d addr id) (id % 256) =
        addr % 256 + 256 * (d (1024 + (2 * (id % 256) + 1)) % 256)) := by
  refine ⟨by decide!, by decide!, ?_⟩
  intro d addr id
  unfold inode_map_entry u16 read_block
  rw [assign_apply, assign_apply, if_pos (by omega), if_neg (by omega)]
  have e : 2 * 512 + (2 * (id % 256) + 1) = 1024 + (2 * (id % 256) + 1) := by omega
  rw [e]
  omega

/-- Claim C12 (small-file layout).  On the store reached by `init_vdisk`, `create_directory`
of `/a` and of `/a/b` and `delete_filepath` on `/a`, inode-id 3 is free, the blocks 18 and
19 are marked free, the root directory is reached through the inode map with its blocks in
use and slot 2 free, and block 19 still holds the inode of `/a`.  The upload of the three
bytes `ABC` as `/f` puts the inode in block 18 with size 3, type `f` and `direct[0] = 19`,
and writes the three bytes to block 19: behind them the block holds the bytes of the old
inode (type `d` at offset 4, the pointer 18 at offset 8, the id 1 at offset 32) and not
zero bytes, so the layout of the claim does not hold. -/
theorem upload_on_freed_block_not_padded :
    (find_next_free_inode_id after_directory_delete = some 3 ∧
      has_free after_directory_delete 2 ∧
      dir_at after_directory_delete (find_file_inode_id after_directory_delete (bytes "/"))
        17 16 ∧
      fbv_bit after_directory_delete 18 = true ∧ fbv_bit after_directory_delete 19 = true ∧
      after_directory_delete (19 * 512 + 4) = 100) ∧
    (check_fbv_for_available_block heap0 after_directory_delete = 18 ∧
      inode_map_entry with_file_on_freed_blocks 3 = 18 ∧
      with_file_on_freed_blocks (18 * 512) = 3 ∧ with_file_on_freed_blocks (18 * 512 + 4) = 102 ∧
      u16 (read_block with_file_on_freed_blocks 18) 4 = 19 ∧
      with_file_on_freed_blocks (19 * 512) = 65 ∧ with_file_on_freed_blocks (19 * 512 + 1) = 66 ∧
      with_file_on_freed_blocks (19 * 512 + 2) = 67 ∧
      with_file_on_freed_blocks (19 * 512 + 4) = 100 ∧
      with_file_on_freed_blocks (19 * 512 + 8) = 18 ∧
      with_file_on_freed_blocks (19 * 512 + 32) = 1) ∧
    ¬ small_file_layout with_file_on_freed_blocks
      (uploaded_inode heap0 after_directory_delete (bytes "/") (bytes "f") [65, 66, 67])
      [65, 66, 67] 1 := by
  have hpre : find_next_free_inode_id after_directory_delete = some 3 ∧
      fbv_bit after_directory_delete 18 = true ∧ fbv_bit after_directory_delete 19 = true ∧
      after_directory_delete (19 * 512 + 4) = 100 := by
    decide!
  have hfree : has_free after_directory_delete 2 := ⟨[18, 19], by decide, by decide, by decide!⟩
  have hdir : dir_at after_directory_delete
      (find_file_inode_id after_directory_delete (bytes "/")) 17 16 := by
    unfold dir_at
    decide!
  have hpost : check_fbv_for_available_block heap0 after_directory_delete = 18 ∧
      inode_map_entry with_file_on_freed_blocks 3 = 18 ∧
      with_file_on_freed_blocks (18 * 512) = 3 ∧ with_file_on_freed_blocks (18 * 512 + 4) = 102 ∧
      u16 (read_block with_file_on_freed_blocks 18) 4 = 19 ∧
      with_file_on_freed_blocks (19 * 512) = 65 ∧ with_file_on_freed_blocks (19 * 512 + 1) = 66 ∧
      with_file_on_freed_blocks (19 * 512 + 2) = 67 ∧
      with_file_on_freed_blocks (19 * 512 + 4) = 100 ∧
      with_file_on_freed_blocks (19 * 512 + 8) = 18 ∧
      with_file_on_freed_blocks (19 * 512 + 32) = 1 := by
    decide!
  have hp : u16 (uploaded_inode heap0 after_directory_delete (bytes "/") (bytes "f")
      [65, 66, 67]) (4 + 0) = 19 := by
    decide!
  refine ⟨⟨hpre.1, hfree, hdir, hpre.2⟩, hpost, ?_⟩
  intro hl
  have h4 := (hl.2.2.1 0 (by decide)).2.2 4 (by decide)
  rw [hp, hpost.2.2.2.2.2.2.2.2.1] at h4
  exact absurd h4 (by decide)

/-- Claim C17 (the root after `init_vdisk`).  For every previous content of the store, with
zero in the two bytes of memory in front of the block buffer that the root's parent id 255
makes `get_inode_address` read: entry 0 of the inode map is 17, the inode in block 17 has
type `d`, self-id 0 and `direct[0] = 16`, and slot 0 of block 16 holds inode-id 0 and
the name `.`. -/
theorem init_vdisk_root (h : Heap) (d : Disk) (h2 : h (-2) % 256 = 0) (h1 : h (-1) % 256 = 0) :
    inode_map_entry (init_vdisk h d) 0 = 17 ∧
    init_vdisk h d (17 * 512 + 4) = 100 ∧ init_vdisk h d (17 * 512 + 32) = 0 ∧
    u16 (read_block (init_vdisk h d) 17) 4 = 16 ∧
    init_vdisk h d (16 * 512) = 0 ∧ init_vdisk h d (16 * 512 + 1) = 46 ∧
    init_vdisk h d (16 * 512 + 2) = 0 :=
  have hs := init_is_formatted h d h2 h1
  have hr := formatted_root (init_vdisk h d) hs
  ⟨formatted_inode_map_0 _ hs, hr.1, hr.2.1, formatted_root_direct _ hs, hr.2.2.1, hr.2.2.2.1,
    hr.2.2.2.2.1⟩

/-- Witness of C17: a zero heap and an empty backing file. -/
theorem init_vdisk_root_witness :
    heap0 (-2) % 256 = 0 ∧ heap0 (-1) % 256 = 0 ∧
    inode_map_entry (init_vdisk heap0 (fun _ => 0)) 0 = 17 ∧
    init_vdisk heap0 (fun _ => 0) (17 * 512 + 4) = 100 ∧
    init_vdisk heap0 (fun _ => 0) (17 * 512 + 32) = 0 ∧
    u16 (read_block (init_vdisk heap0 (fun _ => 0)) 17) 4 = 16 ∧
    init_vdisk heap0 (fun _ => 0) (16 * 512) = 0 ∧ init_vdisk heap0 (fun _ => 0) (16 * 512 + 1) = 46 ∧
    init_vdisk heap0 (fun _ => 0) (16 * 512 + 2) = 0 :=
  ⟨heap0_byte _, heap0_byte _, init_vdisk_root heap0 (fun _ => 0) (heap0_byte _) (heap0_byte _)⟩

/-- Counterexample of C18: on the fresh store slot 1 of the root directory block 16 is named
`..` and its inode-id byte is 255, not 0. -/
theorem root_parent_slot_not_zero :
    fresh (16 * 512 + 33) = 46 ∧ fresh (16 * 512 + 34) = 46 ∧ fresh (16 * 512 + 35) = 0 ∧
    ¬ (fresh (16 * 512 + 32) = 0) := by decide!

/-- Claim C18, amended (the parent slot of the root).  For every previous content of the
store, with zero in the two bytes of memory in front of the block buffer: after `init_vdisk`
slot 1 of the root directory block 16 is named `..` and carries the inode-id 255, the byte
that the parent id `-1` of the call becomes. -/
theorem init_vdisk_root_parent (h : Heap) (d : Disk) (h2 : h (-2) % 256 = 0)
    (h1 : h (-1) % 256 = 0) :
    init_vdisk h d (16 * 512 + 32) = 255 ∧ init_vdisk h d (16 * 512 + 33) = 46 ∧
    init_vdisk h d (16 * 512 + 34) = 46 ∧ init_vdisk h d (16 * 512 + 35) = 0 :=
  have hr := formatted_root (init_vdisk h d) (init_is_formatted h d h2 h1)
  ⟨hr.2.2.2.2.2.1, hr.2.2.2.2.2.2.1, hr.2.2.2.2.2.2.2.1, hr.2.2.2.2.2.2.2.2⟩

/-- Witness of C18: a zero heap and an empty backing file. -/
theorem init_vdisk_root_parent_witness :
    heap0 (-2) % 256 = 0 ∧ heap0 (-1) % 256 = 0 ∧
    init_vdisk heap0 (fun _ => 0) (16 * 512 + 32) = 255 ∧
    init_vdisk heap0 (fun _ => 0) (16 * 512 + 33) = 46 ∧
    init_vdisk heap0 (fun _ => 0) (16 * 512 + 34) = 46 ∧
    init_vdisk heap0 (fun _ => 0) (16 * 512 + 35) = 0 :=
  ⟨heap0_byte _, heap0_byte _,
    init_vdisk_root_parent heap0 (fun _ => 0) (heap0_byte _) (heap0_byte _)⟩

/-- Claim C19 (the free block vector after `init_vdisk`).  For every previous content of the
store, with zero in the two bytes of memory in front of the block buffer: a block below
4096 has FBV bit 0 exactly when it is one of the blocks 0..15, the root's inode block
`inode_map[0]` or the root's data block `direct[0]`; every other block has bit 1. -/
theorem init_vdisk_free_block_vector (h : Heap) (d : Disk) (h2 : h (-2) % 256 = 0)
    (h1 : h (-1) % 256 = 0) (b : Nat) (hb : b < 4096) :
    (fbv_bit (init_vdisk h d) b = false ↔
      (b < 16 ∨ b = inode_map_entry (init_vdisk h d) 0 ∨
        b = u16 (read_block (init_vdisk h d) (inode_map_entry (init_vdisk h d) 0)) 4)) ∧
    (fbv_bit (init_vdisk h d) b = true ↔
      ¬ (b < 16 ∨ b = inode_map_entry (init_vdisk h d) 0 ∨
        b = u16 (read_block (init_vdisk h d) (inode_map_entry (init_vdisk h d) 0)) 4)) := by
  have hs := init_is_formatted h d h2 h1
  rw [formatted_inode_map_0 _ hs, formatted_root_direct _ hs, formatted_fbv_bit _ hs b hb]
  simp only [decide_eq_false_iff_not, decide_eq_true_eq]
  omega

/-- Witness of C19: block 17 and block 18 after `init_vdisk` on an empty backing file. -/
theorem init_vdisk_free_block_vector_witness :
    fbv_bit (init_vdisk heap0 (fun _ => 0)) 17 = false ∧
    fbv_bit (init_vdisk heap0 (fun _ => 0)) 18 = true :=
  ⟨((init_vdisk_free_block_vector heap0 (fun _ => 0) (heap0_byte _) (heap0_byte _) 17
      (by decide)).1).mpr (Or.inr (Or.inl
        (formatted_inode_map_0 _ (init_is_formatted heap0 (fun _ => 0) (heap0_byte _)
          (heap0_byte _))).symm)),
   ((init_vdisk_free_block_vector heap0 (fun _ => 0) (heap0_byte _) (heap0_byte _) 18
      (by decide)).2).mpr (by
        rw [formatted_inode_map_0 _ (init_is_formatted heap0 (fun _ => 0) (heap0_byte _)
          (heap0_byte _)), formatted_root_direct _ (init_is_formatted heap0 (fun _ => 0)
          (heap0_byte _) (heap0_byte _))]
        decide)⟩

/-- Claim C14 (double-indirect layout).  On a store with a free inode-id, enough free
blocks and a parent directory that has a free slot, an input of `n` blocks, `266 < n`,
uploaded under a name of at most 31 bytes gets at inode offset 30 the address of a block
of the data section, and every byte of that block as stored is zero: the addresses of the
single indirection blocks are collected in a buffer that is not written to the store. -/
theorem upload_double_indirect_block_empty (h : Heap) (d : Disk) (path name fpin : List Nat)
    (id n pa dd : Nat)
    (hid : find_next_free_inode_id d = some id)
    (hn : n = (fpin.length + 511) / 512) (h267 : 266 < n) (hlt : n < 65536)
    (hfree : has_free d (n + 3 + (n - 266 + 255) / 256))
    (hdir : dir_at d (find_file_inode_id d path) pa dd) (hname : name.length ≤ 31) :
    16 ≤ u16 (uploaded_inode h d path name fpin) 15 ∧
    u16 (uploaded_inode h d path name fpin) 15 < 4096 ∧
    ∀ o, o < 512 →
      upload_file h d path name fpin (u16 (uploaded_inode h d path name fpin) 15 * 512 + o) = 0 :=
  create_file_large h d (find_file_inode_id d path) name fpin id n pa dd hid hn h267 hlt hfree
    hdir hname

/-- Witness of C14: 136705 bytes (268 blocks) uploaded as `/big` on the fresh store. -/
theorem upload_double_indirect_block_empty_witness :
    find_next_free_inode_id fresh = some 1 ∧
    dir_at fresh (find_file_inode_id fresh (bytes "/")) 17 16 ∧
    16 ≤ u16 (uploaded_inode heap0 fresh (bytes "/") (bytes "big") (List.replicate 136705 65)) 15 ∧
    u16 (uploaded_inode heap0 fresh (bytes "/") (bytes "big") (List.replicate 136705 65)) 15
      < 4096 ∧
    ∀ o, o < 512 →
      upload_file heap0 fresh (bytes "/") (bytes "big") (List.replicate 136705 65)
        (u16 (uploaded_inode heap0 fresh (bytes "/") (bytes "big") (List.replicate 136705 65)) 15
          * 512 + o) = 0 :=
  have hid : find_next_free_inode_id fresh = some 1 := by decide!
  have hdir : dir_at fresh (find_file_inode_id fresh (bytes "/")) 17 16 := by
    unfold dir_at
    decide!
  ⟨hid, hdir,
    upload_double_indirect_block_empty heap0 fresh (bytes "/") (bytes "big")
      (List.replicate 136705 65) 1 268 17 16 hid (by rw [List.length_replicate]) (by decide)
      (by decide) (formatted_has_free fresh fresh_is_formatted _ (by decide)) hdir (by decide)⟩

/-- Claim C15 (empty input).  On a store with a free inode-id and two free blocks, the
upload of an empty input leaves in `direct[0]` of the new inode the address of a block of
the data section: the block counter is decremented from 0 before it is tested, so a data
block is allocated and the loops go on for 65535 blocks. -/
theorem upload_empty_input_allocates (h : Heap) (d : Disk) (path name : List Nat) (id : Nat)
    (hid : find_next_free_inode_id d = some id) (hfree : has_free d 2) :
    16 ≤ u16 (uploaded_inode h d path name []) 4 ∧ u16 (uploaded_inode h d path name []) 4 < 4096 :=
  create_file_empty_input h d (find_file_inode_id d path) name id hid hfree

/-- Witness of C15: the empty input uploaded as `/e` on the fresh store. -/
theorem upload_empty_input_allocates_witness :
    find_next_free_inode_id fresh = some 1 ∧ has_free fresh 2 ∧
    16 ≤ u16 (uploaded_inode heap0 fresh (bytes "/") (bytes "e") []) 4 ∧
    u16 (uploaded_inode heap0 fresh (bytes "/") (bytes "e") []) 4 < 4096 :=
  have hid : find_next_free_inode_id fresh = some 1 := by decide!
  have hfree : has_free fresh 2 := ⟨[18, 19], by decide, by decide, by decide!⟩
  ⟨hid, hfree, upload_empty_input_allocates heap0 fresh (bytes "/") (bytes "e") 1 hid hfree⟩

/-- Claim C16 (directory creation).  For a parent directory whose inode-id `p` is 128 or
more, with data block `dd` in use, on a store with a free inode-id `id`, two free blocks
and a blank block 0, and with zero in the two bytes of memory that `get_inode_address`
reads in front of its buffer for the negative `char`: `create_directory` leaves the data
block of the parent as it was, so the new entry is in none of its slots, and writes the
new inode-id into byte 0 of block 0. -/
theorem create_directory_parent_id_128 (h : Heap) (d : Disk) (path name : List Nat)
    (id p pa dd : Nat)
    (hid : find_next_free_inode_id d = some id) (hfree : has_free d 2)
    (hpath : find_file_inode_id d path = p) (hp : 128 ≤ p % 256)
    (hh1 : h (2 * ((p % 256 : Nat) : Int) - 512) % 256 = 0)
    (hh2 : h (2 * ((p % 256 : Nat) : Int) - 511) % 256 = 0)
    (hs : ∀ x, x < 512 → d x = 0) (hname : name.length ≤ 31)
    (hpa : inode_map_entry d (p % 256) = pa) (hdd : u16 (read_block d pa) 4 = dd)
    (hdd1 : 16 ≤ dd) (hdd2 : dd < 4096) (hddu : fbv_bit d dd = false) :
    (∀ o, o < 512 → create_directory h d path name (dd * 512 + o) = d (dd * 512 + o)) ∧
    create_directory h d path name 0 = id % 256 := by
  subst hdd
  subst hpa
  unfold create_directory
  rw [hpath]
  exact create_directory_high_parent h d p name id _ hid hfree hp hh1 hh2 hs hname hdd1 hdd2 hddu

/-- Witness of C16: the directory `/x` of inode-id 128 (inode block 19, data block 18) on
the store `dir_128`, and `create_directory` of `/x/y`. -/
theorem create_directory_parent_id_128_witness :
    (find_next_free_inode_id dir_128 = some 1 ∧ find_file_inode_id dir_128 (bytes "/x") = 128 ∧
      inode_map_entry dir_128 (128 % 256) = 19 ∧ dir_128 (19 * 512 + 4) = 100 ∧
      u16 (read_block dir_128 19) 4 = 18 ∧ fbv_bit dir_128 18 = false) ∧
    (∀ o, o < 512 →
      create_directory heap0 dir_128 (bytes "/x") (bytes "y") (18 * 512 + o)
        = dir_128 (18 * 512 + o)) ∧
    create_directory heap0 dir_128 (bytes "/x") (bytes "y") 0 = 1 % 256 :=
  have hid : find_next_free_inode_id dir_128 = some 1 := by decide!
  have hpath : find_file_inode_id dir_128 (bytes "/x") = 128 := by decide!
  have hpa : inode_map_entry dir_128 (128 % 256) = 19 := by decide!
  have hdd : u16 (read_block dir_128 19) 4 = 18 := by decide!
  have hddu : fbv_bit dir_128 18 = false := by decide!
  ⟨⟨hid, hpath, hpa, by decide!, hdd, hddu⟩,
    create_directory_parent_id_128 heap0 dir_128 (bytes "/x") (bytes "y") 1 128 19 18 hid
      ⟨[20, 21], by decide, by decide, by decide!⟩ hpath (by decide) (heap0_byte _) (heap0_byte _)
      (entity_128_block_0 _ _) (by decide) hpa hdd (by decide) (by decide) hddu⟩

/-- Claim C20 (`delete_file`).  For a file whose inode-id is 128 or more, on a store with a
blank block 0 and with zero in the two bytes of memory that `get_inode_address` reads in
front of its buffer for the negative `char`: `delete_file` changes no byte from block 3
on, so neither the inode block nor a data block of the file is zeroed, it leaves the FBV
bit of every block other than block 0 as it was, and it sets the FBV bit of block 0. -/
theorem delete_file_id_128 (h : Heap) (d : Disk) (id : Nat)
    (hp : 128 ≤ id % 256)
    (hh1 : h (2 * ((id % 256 : Nat) : Int) - 512) % 256 = 0)
    (hh2 : h (2 * ((id % 256 : Nat) : Int) - 511) % 256 = 0)
    (hs : ∀ x, x < 512 → d x = 0) :
    (∀ x, 1536 ≤ x → delete_file h d id x = d x) ∧
    (∀ b, 1 ≤ b → b < 4096 → fbv_bit (delete_file h d id) b = fbv_bit d b) ∧
    fbv_bit (delete_file h d id) 0 = true := by
  rw [delete_file_high_id h d id hp hh1 hh2 hs]
  refine ⟨?_, ?_, fbv_bit_set_self _ _ (by norm_num)⟩
  · intro x hx
    rw [set_fbv_bit_other _ _ _ (by omega), write_block_out _ _ _ _ _ (by omega),
      write_block_out _ _ _ _ _ (by omega)]
  · intro b hb1 hb2
    rw [fbv_bit_set_other _ _ _ hb2 (by omega),
      fbv_bit_write_block _ _ _ _ _ hb2 (Or.inr ⟨rfl, le_refl _⟩),
      fbv_bit_write_block _ _ _ _ _ hb2 (Or.inl (by norm_num))]

/-- Witness of C20: the file `/x` of inode-id 128 (inode block 19, data block 18) on the
store `file_128`. -/
theorem delete_file_id_128_witness :
    (find_file_inode_id file_128 (bytes "/x") = 128 ∧ inode_map_entry file_128 128 = 19 ∧
      file_128 (19 * 512 + 4) = 102 ∧ u16 (read_block file_128 19) 4 = 18 ∧
      u16 (read_block file_128 19) 15 = 0 ∧
      fbv_bit file_128 19 = false ∧ fbv_bit file_128 18 = false) ∧
    (∀ x, 1536 ≤ x → delete_file heap0 file_128 128 x = file_128 x) ∧
    (∀ b, 1 ≤ b → b < 4096 → fbv_bit (delete_file heap0 file_128 128) b = fbv_bit file_128 b) ∧
    fbv_bit (delete_file heap0 file_128 128) 0 = true :=
  ⟨by decide!, delete_file_id_128 heap0 file_128 128 (by decide) (heap0_byte _) (heap0_byte _)
    (entity_128_block_0 _ _)⟩

/-! ## Claims C21 to C30 -/

/-- Claim C21 (`delete_file` and the double indirection block).  In the store
`with_double_indirect_file` the inode of `/x` (inode-id 1, block 19) names the double
indirection block 32, whose slot 0 names the single indirection block 33 with the data
block 34.  After `delete_file` the direct block 20, the single indirection block 30 and the
inode block are free and entry 1 of the inode map is 0, while the blocks 32, 33 and 34 are
still marked in use and block 32 still names block 33. -/
theorem delete_file_keeps_double_indirect_blocks :
    (inode_map_entry with_double_indirect_file 1 = 19 ∧
      u16 (read_block with_double_indirect_file 19) 15 = 32 ∧
      u16 (read_block with_double_indirect_file 32) 0 = 33 ∧
      u16 (read_block with_double_indirect_file 33) 0 = 34 ∧
      fbv_bit with_double_indirect_file 32 = false ∧
      fbv_bit with_double_indirect_file 33 = false ∧
      fbv_bit with_double_indirect_file 34 = false) ∧
    (inode_map_entry (delete_file heap0 with_double_indirect_file 1) 1 = 0 ∧
      fbv_bit (delete_file heap0 with_double_indirect_file 1) 19 = true ∧
      fbv_bit (delete_file heap0 with_double_indirect_file 1) 20 = true ∧
      fbv_bit (delete_file heap0 with_double_indirect_file 1) 30 = true) ∧
    (fbv_bit (delete_file heap0 with_double_indirect_file 1) 32 = false ∧
      fbv_bit (delete_file heap0 with_double_indirect_file 1) 33 = false ∧
      fbv_bit (delete_file heap0 with_double_indirect_file 1) 34 = false ∧
      u16 (read_block (delete_file heap0 with_double_indirect_file 1) 32) 0 = 33) := by decide!

/-- Claim C22 (`delete_directory` on an empty directory).  With `/a` (inode-id 1, inode
block 19) and the empty directory `/b` (inode-id 2, inode block 21, data block 20) present,
`delete_directory` of inode-id 2 sets the FBV bits of the blocks 20 and 21 and zeroes the
inode block, but entry 2 of the inode map keeps the address 21 and entry 1, the entry of
`/a`, becomes 0. -/
theorem delete_directory_clears_other_entry :
    (inode_map_entry with_a_b 1 = 19 ∧ inode_map_entry with_a_b 2 = 21 ∧
      u16 (read_block with_a_b 21) 4 = 20) ∧
    (fbv_bit (delete_directory heap0 with_a_b 2) 20 = true ∧
      fbv_bit (delete_directory heap0 with_a_b 2) 21 = true ∧
      delete_directory heap0 with_a_b 2 (21 * 512 + 4) = 0) ∧
    (inode_map_entry (delete_directory heap0 with_a_b 2) 2 = 21 ∧
      inode_map_entry (delete_directory heap0 with_a_b 2) 1 = 0) := by decide!

/-- Claim C23 (the root path).  On every store `find_file_inode_id` returns 0 for the
empty path and for the path `/`: neither has a token, and the walk starts at inode-id 0. -/
theorem find_file_inode_id_root (d : Disk) :
    find_file_inode_id d [] = 0 ∧ find_file_inode_id d (bytes "/") = 0 :=
  ⟨rfl, rfl⟩

/-- Claim C24 (`check_fbv_for_available_block`).  For every store whose free block vector
has no bit set in bytes 2..511 and every heap whose first byte behind the 512-byte buffer
has bit 0 set, the function returns 4096: the scan goes on to byte 4110 of a buffer of
which 512 bytes were read. -/
theorem check_fbv_returns_4096 (h : Heap) (d : Disk)
    (hfull : ∀ p, 2 ≤ p → p < 512 → d (512 + p) % 256 = 0)
    (hh : Nat.testBit (h 512) 0 = true) : check_fbv_for_available_block h d = 4096 :=
  check_fbv_reads_heap h d hfull hh

/-- Witness of C24: the store `no_space` and the heap `heap_behind`. -/
theorem check_fbv_returns_4096_witness :
    (∀ p, 2 ≤ p → p < 512 → no_space (512 + p) % 256 = 0) ∧
    Nat.testBit (heap_behind 512) 0 = true ∧
    check_fbv_for_available_block heap_behind no_space = 4096 :=
  ⟨no_space_full, by decide, check_fbv_returns_4096 heap_behind no_space no_space_full (by decide)⟩

/-- Claim C25 (`reset_fbv_bit`).  For every store and every block below 4096 whose FBV bit
is 0, the bit is 1 after `reset_fbv_bit`: the function combines the byte with the mask by
exclusive or. -/
theorem reset_fbv_bit_sets_clear_bit (d : Disk) (b : Nat) (hb : b < 4096)
    (h0 : fbv_bit d b = false) : fbv_bit (reset_fbv_bit d b) b = true := by
  rw [fbv_bit_reset_self d b hb, h0]
  rfl

/-- Witness of C25: block 17, the inode block of the root, on the fresh store. -/
theorem reset_fbv_bit_sets_clear_bit_witness :
    fbv_bit fresh 17 = false ∧ fbv_bit (reset_fbv_bit fresh 17) 17 = true :=
  have h0 : fbv_bit fresh 17 = false := by decide!
  ⟨h0, reset_fbv_bit_sets_clear_bit fresh 17 (by decide) h0⟩

/-- Claim C26 (`get_inode_address`).  For every store and every inode-id of 128 or more,
with zero in the two bytes of memory that lie `512 - 2 * id` bytes in front of the block
buffer, the function returns 0 whatever the inode map holds: the `char` parameter makes
the offset `id * 2` negative. -/
theorem get_inode_address_id_128 (h : Heap) (d : Disk) (id : Nat) (hp : 128 ≤ id % 256)
    (hh1 : h (2 * ((id % 256 : Nat) : Int) - 512) % 256 = 0)
    (hh2 : h (2 * ((id % 256 : Nat) : Int) - 511) % 256 = 0) :
    get_inode_address h d id = 0 := by
  unfold get_inode_address
  rw [if_neg (by omega), hh1, hh2]

/-- Witness of C26: inode-id 128 on the store `file_128`, whose inode map has 19 there. -/
theorem get_inode_address_id_128_witness :
    inode_map_entry file_128 128 = 19 ∧ get_inode_address heap0 file_128 128 = 0 :=
  ⟨by decide!, get_inode_address_id_128 heap0 file_128 128 (by decide) (heap0_byte _)
    (heap0_byte _)⟩

/-- Claim C27 (assign and lookup).  For every store, address and inode-id below 128, the
lookup after `assign_location_to_inode_map` gives the low byte of the address with the
high byte that the entry had before. -/
theorem lookup_after_assign_low_byte (h : Heap) (d : Disk) (addr id : Nat)
    (hid : id % 256 < 128) :
    get_inode_address h (assign_location_to_inode_map d addr id) id =
      addr % 256 + 256 * (d (1024 + (2 * (id % 256) + 1)) % 256) := by
  unfold get_inode_address
  rw [if_pos hid]
  unfold u16 read_block
  rw [assign_apply, assign_apply, if_pos (by omega), if_neg (by omega)]
  have e : 2 * 512 + (2 * (id % 256) + 1) = 1024 + (2 * (id % 256) + 1) := by omega
  rw [e]
  omega

/-- Witness of C27: address 300 assigned to inode-id 1 on the fresh store is looked up
as 44. -/
theorem lookup_after_assign_low_byte_witness :
    fresh (1024 + (2 * (1 % 256) + 1)) = 0 ∧
    get_inode_address heap0 (assign_location_to_inode_map fresh 300 1) 1 =
      300 % 256 + 256 * (fresh (1024 + (2 * (1 % 256) + 1)) % 256) :=
  ⟨by decide!, lookup_after_assign_low_byte heap0 fresh 300 1 (by decide)⟩

/-- Claim C28 (`find_next_free_inode_id`).  For every store the function returns `id`
exactly when `id` is the smallest of 0..255 whose 16-bit inode-map entry is 0, and it
ends in the `exit(1)` branch exactly when all 256 entries are non-zero. -/
theorem find_next_free_inode_id_smallest (d : Disk) :
    (∀ id, find_next_free_inode_id d = some id ↔
      (id < 256 ∧ inode_map_entry d id = 0 ∧ ∀ j, j < id → inode_map_entry d j ≠ 0)) ∧
    (find_next_free_inode_id d = none ↔ ∀ j, j < 256 → inode_map_entry d j ≠ 0) :=
  ⟨find_next_free_iff d, find_next_free_none_iff d⟩

/-- Claim C29 (`fill_single_indirection_block` with more than 256 blocks).  For a count
`rem > 256`, 256 free blocks and a single indirection block `sblk` in use, the function
returns the count `rem - 256` and leaves the block `sblk` on disk as it was: the buffer
with the 256 addresses is written only in the branch where the count reaches 0. -/
theorem fill_single_indirection_block_over_256 (h : Heap) (fpin : List Nat) (n sblk : Nat)
    (d : Disk) (rem : Nat) (hn : n = (fpin.length + 511) / 512) (hlt : n < 65536)
    (hrem : 256 < rem) (hle : rem ≤ n) (hfree : has_free d 256)
    (hs1 : 16 ≤ sblk) (hs2 : sblk < 4096) (hsu : fbv_bit d sblk = false) :
    (∀ o, o < 512 →
      (fill_single_indirection_block h d sblk rem fpin.length fpin ((n - rem) * 512)).1
        (sblk * 512 + o) = d (sblk * 512 + o)) ∧
    (fill_single_indirection_block h d sblk rem fpin.length fpin ((n - rem) * 512)).2.1
      = rem - 256 :=
  fill_single_without_write h fpin n sblk d rem hn hlt hrem hle hfree hs1 hs2 hsu

/-- Witness of C29: on the fresh store a single indirection block is allocated first; then
the function is called for 300 blocks of an input of 153600 bytes. -/
theorem fill_single_indirection_block_over_256_witness :
    (∀ o, o < 512 →
      (fill_single_indirection_block heap0
        (reset_fbv_bit (write_block fresh (check_fbv_for_available_block heap0 fresh) zero_block 512)
          (check_fbv_for_available_block heap0 fresh))
        (check_fbv_for_available_block heap0 fresh) 300 (List.replicate 153600 65).length
        (List.replicate 153600 65) ((300 - 300) * 512)).1
        (check_fbv_for_available_block heap0 fresh * 512 + o) =
      reset_fbv_bit (write_block fresh (check_fbv_for_available_block heap0 fresh) zero_block 512)
        (check_fbv_for_available_block heap0 fresh)
        (check_fbv_for_available_block heap0 fresh * 512 + o)) ∧
    (fill_single_indirection_block heap0
      (reset_fbv_bit (write_block fresh (check_fbv_for_available_block heap0 fresh) zero_block 512)
        (check_fbv_for_available_block heap0 fresh))
      (check_fbv_for_available_block heap0 fresh) 300 (List.replicate 153600 65).length
      (List.replicate 153600 65) ((300 - 300) * 512)).2.1 = 300 - 256 := by
  obtain ⟨a1, a2, _, a4, _, a6, _⟩ := alloc_step heap0 fresh 256 zero_block 512 (le_refl _)
    (formatted_has_free fresh fresh_is_formatted 257 (by decide))
  exact fill_single_indirection_block_over_256 heap0 (List.replicate 153600 65) 300 _ _ 300
    (by rw [List.length_replicate]) (by decide) (by decide) (by decide) a6 a1 a2 a4

/-- Claim C30 (`add_element_to_directory` with a long name).  On the fresh store slot 2 of
the root directory block 16 is the first free slot and slot 3 is empty; after the entry
for inode-id 5 with a name of 32 bytes `a` is added, slot 2 holds the inode-id and 31 name
bytes, and the inode-id byte of slot 3 holds `a`, the last byte of the name: the byte is
stored before the index is tested against 31. -/
theorem add_element_long_name_spills :
    (fresh (16 * 512 + 2 * 32 + 1) = 0 ∧ fresh (16 * 512 + 3 * 32) = 0) ∧
    (add_element_to_directory heap0 fresh 0 5 (List.replicate 32 97) (16 * 512 + 2 * 32) = 5 ∧
      add_element_to_directory heap0 fresh 0 5 (List.replicate 32 97) (16 * 512 + 2 * 32 + 31)
        = 97 ∧
      add_element_to_directory heap0 fresh 0 5 (List.replicate 32 97) (16 * 512 + 3 * 32) = 97) := by
  decide!

/-! ## Claims C31 to C34 -/

/-- Claim C31 (`delete_directory_entry`).  For a directory whose inode-id is 128 or more,
on a store with a blank block 0 and with zero in the two bytes of memory that
`get_inode_address` reads in front of its buffer for the negative `char`: when a slot `i`
(one of 2..15, say) of the directory block that the inode map leads to holds the non-empty
name that is to be removed, `delete_directory_entry` leaves the whole store as it was, and
the first name byte of that slot is still not 0 afterwards. -/
theorem delete_directory_entry_id_128 (h : Heap) (d : Disk) (id : Nat) (name : List Nat)
    (i : Nat) (hp : 128 ≤ id % 256)
    (hh1 : h (2 * ((id % 256 : Nat) : Int) - 512) % 256 = 0)
    (hh2 : h (2 * ((id % 256 : Nat) : Int) - 511) % 256 = 0)
    (hs : ∀ x, x < 512 → d x = 0) (hname : name.getD 0 0 % 256 ≠ 0)
    (hm : strncmp_eq (slot_name (read_block d (u16 (read_block d (inode_map_entry d (id % 256)))
      4)) i) (cstring name) 31 0 = true) :
    delete_directory_entry h d id name = d ∧
    delete_directory_entry h d id name
      (u16 (read_block d (inode_map_entry d (id % 256))) 4 * 512 + (i * 32 + 1)) % 256 ≠ 0 := by
  have e := delete_directory_entry_high_id h d id name hp hh1 hh2 hs hname
  refine ⟨e, ?_⟩
  rw [e]
  rw [strncmp_eq_succ] at hm
  by_cases hne : slot_name (read_block d (u16 (read_block d (inode_map_entry d (id % 256))) 4))
      i 0 % 256 ≠ cstring name 0 % 256
  · rw [if_pos hne] at hm
    exact absurd hm (by simp)
  · have he := not_not.mp hne
    unfold slot_name read_block cstring at he
    rw [Nat.add_zero] at he
    show d (u16 (read_block d (inode_map_entry d (id % 256))) 4 * 512 + (i * 32 + 1)) % 256 ≠ 0
    unfold read_block
    rw [he]
    exact hname

/-- Witness of C31: the directory `/x` of inode-id 128 on the store `dir_128_with_entry`,
whose directory block 18 holds the entry `y` in slot 2. -/
theorem delete_directory_entry_id_128_witness :
    (find_file_inode_id dir_128_with_entry (bytes "/x") = 128 ∧
      inode_map_entry dir_128_with_entry 128 = 19 ∧
      u16 (read_block dir_128_with_entry 19) 4 = 18 ∧
      strncmp_eq (slot_name (read_block dir_128_with_entry 18) 2) (cstring (bytes "y")) 31 0
        = true) ∧
    delete_directory_entry heap0 dir_128_with_entry 128 (bytes "y") = dir_128_with_entry ∧
    delete_directory_entry heap0 dir_128_with_entry 128 (bytes "y")
      (u16 (read_block dir_128_with_entry (inode_map_entry dir_128_with_entry (128 % 256))) 4
        * 512 + (2 * 32 + 1)) % 256 ≠ 0 :=
  ⟨by decide!, delete_directory_entry_id_128 heap0 dir_128_with_entry 128 (bytes "y") 2
    (by decide) (heap0_byte _) (heap0_byte _) (entity_128_block_0 _ _) (by decide)
    (by decide!)⟩

/-- Claim C33 (free blocks are blank).  The property holds on the fresh store.  After
`create_directory` of `/a` and of `/a/b` and `delete_filepath` on `/a`, the blocks 18 and
19 are marked free in the free block vector and still hold the directory block of `/a`
(own id 1 in slot 0, the entry of `b` in slot 2) and its inode (type `d`, `direct[0] = 18`):
the store reached is not one in which every free block is blank. -/
theorem free_block_keeps_directory :
    free_blocks_blank fresh ∧
    (fbv_bit (delete_filepath heap0 with_a_sub (bytes "/a")) 18 = true ∧
      delete_filepath heap0 with_a_sub (bytes "/a") (18 * 512) = 1 ∧
      delete_filepath heap0 with_a_sub (bytes "/a") (18 * 512 + 64) = 2 ∧
      delete_filepath heap0 with_a_sub (bytes "/a") (18 * 512 + 65) = 98 ∧
      fbv_bit (delete_filepath heap0 with_a_sub (bytes "/a")) 19 = true ∧
      delete_filepath heap0 with_a_sub (bytes "/a") (19 * 512 + 4) = 100 ∧
      u16 (read_block (delete_filepath heap0 with_a_sub (bytes "/a")) 19) 4 = 18) ∧
    ¬ free_blocks_blank (delete_filepath heap0 with_a_sub (bytes "/a")) := by
  have hfacts : fbv_bit (delete_filepath heap0 with_a_sub (bytes "/a")) 18 = true ∧
      delete_filepath heap0 with_a_sub (bytes "/a") (18 * 512) = 1 ∧
      delete_filepath heap0 with_a_sub (bytes "/a") (18 * 512 + 64) = 2 ∧
      delete_filepath heap0 with_a_sub (bytes "/a") (18 * 512 + 65) = 98 ∧
      fbv_bit (delete_filepath heap0 with_a_sub (bytes "/a")) 19 = true ∧
      delete_filepath heap0 with_a_sub (bytes "/a") (19 * 512 + 4) = 100 ∧
      u16 (read_block (delete_filepath heap0 with_a_sub (bytes "/a")) 19) 4 = 18 := by
    decide!
  refine ⟨formatted_blank fresh fresh_is_formatted, hfacts, ?_⟩
  intro hb
  have h0 := hb 18 0 (by decide) (by decide) hfacts.1 (by decide)
  rw [Nat.add_zero, hfacts.2.1] at h0
  exact absurd h0 (by decide)

/-- Claim C34 (existing files and later creations).  On the store with the file `/f`
(inode-id 1, inode block 18, data block 19, content `ABC`), `delete_filepath` on the
missing path `/nope` leaves `/f` resolvable and readable, leaves the root directory with a
free slot 3, and marks the blocks 16 and 17 of the root directory free.  The upload of the
ten bytes `g_input` as `/g` then takes block 16 for the inode and block 17 for the data:
the inode and the data block of `/f` and its entry in block 16 are unchanged, but `/f`
resolves to 0 instead of 1 and `download_file` on `/f` gives other bytes than `ABC`. -/
theorem upload_after_missing_delete_hides_file :
    (find_file_inode_id with_small_file (bytes "/f") = 1 ∧
      download_file with_small_file (bytes "/f") = [65, 66, 67] ∧
      inode_map_entry with_small_file 1 = 18 ∧ u16 (read_block with_small_file 18) 4 = 19) ∧
    (find_file_inode_id after_missing_delete (bytes "/f") = 1 ∧
      download_file after_missing_delete (bytes "/f") = [65, 66, 67] ∧
      after_missing_delete (16 * 512 + 3 * 32 + 1) = 0 ∧
      find_next_free_inode_id after_missing_delete = some 2 ∧
      fbv_bit after_missing_delete 16 = true ∧ fbv_bit after_missing_delete 17 = true ∧
      fbv_bit after_missing_delete 18 = false ∧ fbv_bit after_missing_delete 19 = false) ∧
    (inode_map_entry with_small_file_g 2 = 16 ∧ u16 (read_block with_small_file_g 16) 4 = 17 ∧
      inode_map_entry with_small_file_g 1 = 18 ∧ u16 (read_block with_small_file_g 18) 4 = 19 ∧
      with_small_file_g (19 * 512) = 65 ∧ with_small_file_g (16 * 512 + 64) = 1 ∧
      with_small_file_g (16 * 512 + 65) = 102 ∧
      find_file_inode_id with_small_file_g (bytes "/f") = 0 ∧
      download_file with_small_file_g (bytes "/f") ≠ [65, 66, 67]) := by
  decide!

end LLFS
